import Mathlib

/-!
# Githat: provider layer and entity managers

A shallow embedding of `src/provider.js` (classes `Provider`, `ProviderManager`),
`src/chat.js` (classes `Chat`, `ChatManager`) and `src/project.js` (classes
`Project`, `ProjectManager`), together with the properties of request
translation, endpoints, headers, stream decoding, validation, title inference,
the messages of a chat, the selection and delete operations of the managers,
the model list of the provider manager, the default model of a provider,
search, export and statistics of chats, and the keys under which the managers
store their entities.

JavaScript strings are modelled as their sequence of UTF-16 code units, objects
as insertion-ordered property lists, and the values that flow through the code
(`JSON.parse` results, option bags, request bodies) as the type `JSValue`.
Managers are records of their fields; the database they share is passed to and
returned by each operation, and an operation that throws returns the state it
leaves behind together with the message of the error. `Date.now()` and
`Math.random()` are arguments of the operations that read them.
-/

set_option autoImplicit false

namespace Githat

/-! ## JavaScript strings -/

/-- A JavaScript string, as the list of its UTF-16 code units. -/
abbrev JSString := List Nat

/-- UTF-16 encoding of a list of Unicode scalar values. -/
def utf16 : List Char → JSString
  | [] => []
  | c :: cs =>
    if c.toNat < 65536 then c.toNat :: utf16 cs
    else (55296 + (c.toNat - 65536) / 1024) :: (56320 + (c.toNat - 65536) % 1024) :: utf16 cs

/-- The JavaScript string written by a Lean string literal. -/
def js (s : String) : JSString := utf16 s.toList

/-- Code units removed by `String.prototype.trim`: ECMAScript WhiteSpace and
LineTerminator. -/
def isWhiteSpace (c : Nat) : Bool :=
  c == 9 || c == 10 || c == 11 || c == 12 || c == 13 || c == 32 || c == 160 ||
  c == 5760 || (decide (8192 ≤ c) && decide (c ≤ 8202)) || c == 8232 || c == 8233 ||
  c == 8239 || c == 8287 || c == 12288 || c == 65279

/-- Model of `String.prototype.trimStart`. -/
def trimStart (s : JSString) : JSString := s.dropWhile isWhiteSpace

/-- Model of `String.prototype.trim`. -/
def trim (s : JSString) : JSString := (trimStart (trimStart s).reverse).reverse

/-- Model of `s.split('\n')`: the fragments between line feeds; never empty. -/
def splitNewline : JSString → List JSString
  | [] => [[]]
  | c :: cs =>
    if c = 10 then [] :: splitNewline cs
    else
      match splitNewline cs with
      | [] => [[c]]
      | l :: ls => (c :: l) :: ls

/-- Model of `s.startsWith(p)`. -/
def startsWith (s p : JSString) : Bool := p.isPrefixOf s

/-! ## JavaScript values -/

/-- A number written as a decimal: `(-1)^neg * mant * 10^exp`. The JavaScript
number is the IEEE double nearest to it. -/
structure JSNumber where
  neg : Bool
  mant : Nat
  exp : Int
  deriving DecidableEq, Repr

/-- Whether the double nearest to the decimal is non-zero: the decimal is
non-zero and lies above half of the least subnormal, `2^-1075`. -/
def JSNumber.nonZero (n : JSNumber) : Bool :=
  n.mant != 0 && (decide (0 ≤ n.exp) || decide (10 ^ (-n.exp).toNat < n.mant * 2 ^ 1075))

/-- JavaScript values that occur as data in the provider layer. -/
inductive JSValue where
  | undefined : JSValue
  | null : JSValue
  | bool (b : Bool) : JSValue
  | num (n : JSNumber) : JSValue
  | str (s : JSString) : JSValue
  | arr (items : List JSValue) : JSValue
  | obj (props : List (JSString × JSValue)) : JSValue

/-- A plain JavaScript object: its own properties, each name once, in
insertion order (also for integer-like names, which an engine enumerates
first; enumeration order plays no part in property reads). -/
abbrev JSObject := List (JSString × JSValue)

/-- Non-negative integer as a JavaScript number. -/
def JSValue.ofNat (n : Nat) : JSValue := JSValue.num ⟨false, n, 0⟩

/-- Model of `ToBoolean`. -/
def JSValue.truthy : JSValue → Bool
  | JSValue.undefined => false
  | JSValue.null => false
  | JSValue.bool b => b
  | JSValue.num n => n.nonZero
  | JSValue.str s => !s.isEmpty
  | JSValue.arr _ => true
  | JSValue.obj _ => true

/-- Whether a value is `undefined` or `null`. -/
def JSValue.nullish : JSValue → Bool
  | JSValue.undefined => true
  | JSValue.null => true
  | _ => false

/-- Whether `v === s` for the string `s`. -/
def JSValue.isStr (v : JSValue) (s : JSString) : Bool :=
  match v with
  | JSValue.str t => t == s
  | _ => false

namespace JSObject

/-- Property read `o[k]` on a plain object: `undefined` when `k` is not an own
property. -/
def get : JSObject → JSString → JSValue
  | [], _ => JSValue.undefined
  | (k, v) :: rest, key => if k = key then v else get rest key

/-- Whether `k` is an own property. -/
def has : JSObject → JSString → Bool
  | [], _ => false
  | (k, _) :: rest, key => if k = key then true else has rest key

/-- Property write `o[k] = v`: replaces the value of an existing property in
place, otherwise appends a new property. -/
def set : JSObject → JSString → JSValue → JSObject
  | [], key, v => [(key, v)]
  | (k, w) :: rest, key, v => if k = key then (k, v) :: rest else (k, w) :: set rest key v

/-- Object spread `{...target, ...src}`: every own property of `src` is written
to `target`, in order. -/
def spread (target src : JSObject) : JSObject :=
  src.foldl (fun acc kv => set acc kv.1 kv.2) target

/-- Property names in insertion order. -/
def keys (o : JSObject) : List JSString := o.map Prod.fst

end JSObject

/-- Property read `v.key` on a value that is not nullish, for a name that is
neither an array index nor `length` nor defined on a built-in prototype (the
names the decoder reads are `choices`, `delta`, `content`, `type`, `text`,
`candidates` and `parts`). -/
def JSValue.member (v : JSValue) (key : JSString) : JSValue :=
  match v with
  | JSValue.obj props => JSObject.get props key
  | _ => JSValue.undefined

/-- Property read `v.key`: `none` is the `TypeError` thrown when `v` is
`undefined` or `null`. -/
def JSValue.dot (v : JSValue) (key : JSString) : Option JSValue :=
  if v.nullish then none else some (v.member key)

/-- Optional chaining `v?.key`. -/
def JSValue.optDot (v : JSValue) (key : JSString) : JSValue :=
  if v.nullish then JSValue.undefined else v.member key

/-- Optional element read `v?.[0]`: the first element of an array, the first
code unit of a string, the property `"0"` of an object. -/
def JSValue.optIndex0 (v : JSValue) : JSValue :=
  match v with
  | JSValue.arr (x :: _) => x
  | JSValue.str (c :: _) => JSValue.str [c]
  | JSValue.obj props => JSObject.get props (js "0")
  | _ => JSValue.undefined

/-! ## `JSON.parse`

A reference model of the platform function `JSON.parse` on the JSON grammar
(ECMA-404). The decoder below takes the parser as an argument, so its general
properties hold for every parser; this model evaluates it on concrete frames. -/

/-- JSON insignificant whitespace: space, tab, line feed, carriage return. -/
def isJsonWs (c : Nat) : Bool := c == 32 || c == 9 || c == 10 || c == 13

/-- Drops leading JSON whitespace. -/
def skipWs (s : JSString) : JSString := s.dropWhile isJsonWs

/-- Value of a hexadecimal digit. -/
def hexDigit (c : Nat) : Option Nat :=
  if 48 ≤ c ∧ c ≤ 57 then some (c - 48)
  else if 97 ≤ c ∧ c ≤ 102 then some (c - 87)
  else if 65 ≤ c ∧ c ≤ 70 then some (c - 55)
  else none

/-- Code unit denoted by the one-letter escape `\c`. -/
def simpleEscape (c : Nat) : Option Nat :=
  if c = 34 then some 34
  else if c = 92 then some 92
  else if c = 47 then some 47
  else if c = 98 then some 8
  else if c = 102 then some 12
  else if c = 110 then some 10
  else if c = 114 then some 13
  else if c = 116 then some 9
  else none

/-- Reads a JSON string after its opening quote: the decoded code units and the
text after the closing quote. -/
def parseStringBody : JSString → Option (JSString × JSString)
  | [] => none
  | c :: rest =>
    if c = 34 then some ([], rest)
    else if c = 92 then
      match rest with
      | [] => none
      | e :: rest2 =>
        if e = 117 then
          match rest2 with
          | a :: b :: c2 :: d :: rest3 =>
            match hexDigit a, hexDigit b, hexDigit c2, hexDigit d with
            | some x, some y, some z, some w =>
              (parseStringBody rest3).map
                (fun r => ((x * 4096 + y * 256 + z * 16 + w) :: r.1, r.2))
            | _, _, _, _ => none
          | _ => none
        else
          match simpleEscape e with
          | some u => (parseStringBody rest2).map (fun r => (u :: r.1, r.2))
          | none => none
    else if c < 32 then none
    else (parseStringBody rest).map (fun r => (c :: r.1, r.2))

/-- Whether a code unit is a decimal digit. -/
def isDigit (c : Nat) : Bool := decide (48 ≤ c) && decide (c ≤ 57)

/-- Value of a run of decimal digits. -/
def digitsValue (ds : JSString) : Nat := ds.foldl (fun n d => n * 10 + (d - 48)) 0

/-- Reads the optional exponent part of a JSON number. -/
def parseExponent (s : JSString) : Option (Int × JSString) :=
  match s with
  | e :: r =>
    if e = 101 ∨ e = 69 then
      let signed : Bool × JSString :=
        match r with
        | c :: r2 => if c = 45 then (true, r2) else if c = 43 then (false, r2) else (false, r)
        | [] => (false, r)
      let ds := signed.2.span isDigit
      if ds.1.isEmpty then none
      else some (if signed.1 then -(digitsValue ds.1 : Int) else (digitsValue ds.1 : Int), ds.2)
    else some (0, s)
  | [] => some (0, s)

/-- Reads a JSON number. -/
def parseNumber (s : JSString) : Option (JSNumber × JSString) :=
  let signed : Bool × JSString :=
    match s with
    | c :: r => if c = 45 then (true, r) else (false, s)
    | [] => (false, s)
  let ip := signed.2.span isDigit
  if ip.1.isEmpty then none
  else if decide (1 < ip.1.length) && ip.1.head? == some 48 then none
  else
    let fp : Option (JSString × JSString) :=
      match ip.2 with
      | c :: r =>
        if c = 46 then
          let ds := r.span isDigit
          if ds.1.isEmpty then none else some ds
        else some ([], ip.2)
      | [] => some ([], ip.2)
    match fp with
    | none => none
    | some (fd, s3) =>
      match parseExponent s3 with
      | none => none
      | some (e, s4) => some (⟨signed.1, digitsValue (ip.1 ++ fd), e - fd.length⟩, s4)

/-- Reads the literal `lit`, denoting `v`. -/
def parseLiteral (lit : JSString) (v : JSValue) (s : JSString) : Option (JSValue × JSString) :=
  if lit.isPrefixOf s then some (v, s.drop lit.length) else none

/-- Reads the elements of an array after `[` or `,`, up to and including `]`. -/
def parseElements (pv : JSString → Option (JSValue × JSString)) :
    Nat → JSString → Option (List JSValue × JSString)
  | 0, _ => none
  | fuel + 1, s =>
    match pv (skipWs s) with
    | none => none
    | some (v, r) =>
      match skipWs r with
      | c :: r2 =>
        if c = 44 then (parseElements pv fuel r2).map (fun p => (v :: p.1, p.2))
        else if c = 93 then some ([v], r2)
        else none
      | [] => none

/-- Reads the members of an object after `{` or `,`, up to and including `}`,
in source order. -/
def parseMembers (pv : JSString → Option (JSValue × JSString)) :
    Nat → JSString → Option (JSObject × JSString)
  | 0, _ => none
  | fuel + 1, s =>
    match skipWs s with
    | q :: r =>
      if q = 34 then
        match parseStringBody r with
        | none => none
        | some (k, r1) =>
          match skipWs r1 with
          | colon :: r2 =>
            if colon = 58 then
              match pv (skipWs r2) with
              | none => none
              | some (v, r3) =>
                match skipWs r3 with
                | c :: r4 =>
                  if c = 44 then (parseMembers pv fuel r4).map (fun p => ((k, v) :: p.1, p.2))
                  else if c = 125 then some ([(k, v)], r4)
                  else none
                | [] => none
            else none
          | [] => none
      else none
    | [] => none

/-- Reads one JSON value at the head of `s`. The fuel bounds the nesting depth;
`jsonParse` supplies more than any text of that length can use. -/
def parseValue : Nat → JSString → Option (JSValue × JSString)
  | 0, _ => none
  | fuel + 1, s =>
    match s with
    | [] => none
    | c :: r =>
      if c = 123 then
        match skipWs r with
        | d :: r2 =>
          if d = 125 then some (JSValue.obj [], r2)
          else (parseMembers (parseValue fuel) s.length r).map
            (fun p => (JSValue.obj (JSObject.spread [] p.1), p.2))
        | [] => none
      else if c = 91 then
        match skipWs r with
        | d :: r2 =>
          if d = 93 then some (JSValue.arr [], r2)
          else (parseElements (parseValue fuel) s.length r).map
            (fun p => (JSValue.arr p.1, p.2))
        | [] => none
      else if c = 34 then (parseStringBody r).map (fun p => (JSValue.str p.1, p.2))
      else if c = 116 then parseLiteral (js "true") (JSValue.bool true) s
      else if c = 102 then parseLiteral (js "false") (JSValue.bool false) s
      else if c = 110 then parseLiteral (js "null") JSValue.null s
      else (parseNumber s).map (fun p => (JSValue.num p.1, p.2))

/-- Model of `JSON.parse(text)`: `none` is the `SyntaxError` it throws. -/
def jsonParse (text : JSString) : Option JSValue :=
  match parseValue (text.length + 1) (skipWs text) with
  | none => none
  | some (v, r) => if (skipWs r).isEmpty then some v else none

/-! ## Stream decoding (`Provider.streamResponse`) -/

/-- The `switch (this.requestFormat)` of `streamResponse`, applied to a parsed
record: the extracted `content`, or `none` when the extraction throws. -/
def extractContent (requestFormat : JSString) (data : JSValue) : Option JSValue :=
  if requestFormat = js "openai" then
    (data.dot (js "choices")).map
      (fun c => ((c.optIndex0).optDot (js "delta")).optDot (js "content"))
  else if requestFormat = js "anthropic" then
    (data.dot (js "type")).bind (fun t =>
      if t.isStr (js "content_block_delta") then
        (data.dot (js "delta")).map (fun d => d.optDot (js "text"))
      else some JSValue.null)
  else if requestFormat = js "google" then
    (data.dot (js "candidates")).map
      (fun c => ((((c.optIndex0).optDot (js "content")).optDot (js "parts")).optIndex0).optDot
        (js "text"))
  else
    (data.dot (js "choices")).map
      (fun c => ((c.optIndex0).optDot (js "delta")).optDot (js "content"))

/-- Body of the `for (const line of lines)` loop: the values yielded for one
complete line (none or one). -/
def processLine (parse : JSString → Option JSValue) (requestFormat : JSString)
    (line : JSString) : List JSValue :=
  let trimmedLine := trim line
  if trimmedLine.isEmpty || trimmedLine == js "data: [DONE]" then []
  else if startsWith trimmedLine (js "data: ") then
    match parse (trimmedLine.drop 6) with
    | none => []
    | some data =>
      match extractContent requestFormat data with
      | none => []
      | some content => if content.truthy then [content] else []
  else []

/-- The `while (true)` loop of `streamResponse`: `buffer` is the carry-over,
the list holds the decoded chunks still to be read. -/
def readLoop (parse : JSString → Option JSValue) (requestFormat : JSString) :
    JSString → List JSString → List JSValue
  | _, [] => []
  | buffer, chunk :: rest =>
    let lines := splitNewline (buffer ++ chunk)
    let carry := lines.getLast?.getD []
    (lines.dropLast.flatMap (processLine parse requestFormat)) ++
      readLoop parse requestFormat carry rest

/-! ## The class `Provider` -/

/-- The fields of a `Provider` instance. The custom transforms are function
values; `customResponseTransform` is stored and never called. -/
structure Provider where
  id : JSString
  name : JSString
  baseUrl : JSString
  apiKey : JSString
  apiKeyRequired : Bool
  enabled : Bool
  models : List JSObject
  defaultModel : JSString
  headers : JSObject
  requestFormat : JSString
  color : JSString
  customRequestTransform : Option (List JSObject → Option JSString → JSObject → JSValue)
  customResponseTransform : Option (JSValue → JSValue)
  createdAt : Nat
  updatedAt : Nat

/-- Model of `Provider.streamResponse` on the decoded chunks of the response
body: the sequence of values yielded until the reader reports `done`. -/
def Provider.streamResponse (parse : JSString → Option JSValue) (self : Provider)
    (chunks : List JSString) : List JSValue :=
  readLoop parse self.requestFormat [] chunks

/-- The expression `model || this.defaultModel` for a `model` argument that is
`undefined` (`none`) or a string. -/
def modelOrDefault (model : Option JSString) (defaultModel : JSString) : JSString :=
  match model with
  | some m => if m.isEmpty then defaultModel else m
  | none => defaultModel

/-- Whether `v !== undefined` fails, that is, `v` is `undefined`. -/
def JSValue.isUndefined : JSValue → Bool
  | JSValue.undefined => true
  | _ => false

/-- The predicate `m => m.role === 'system'`. -/
def isSystemMessage (m : JSObject) : Bool := (m.get (js "role")).isStr (js "system")

/-- The array value holding a list of message objects. -/
def messagesValue (messages : List JSObject) : JSValue :=
  JSValue.arr (messages.map JSValue.obj)

/-- The `baseRequest` of `transformRequest`:
`{ model: model || this.defaultModel, stream: ..., ...options }`. -/
def Provider.baseRequest (self : Provider) (model : Option JSString) (options : JSObject) :
    JSObject :=
  JSObject.spread
    [(js "model", JSValue.str (modelOrDefault model self.defaultModel)),
     (js "stream",
        if (options.get (js "stream")).isUndefined then JSValue.bool true
        else options.get (js "stream"))]
    options

/-- The Gemini entry built from one message:
`{ role: m.role === 'assistant' ? 'model' : 'user', parts: [{ text: m.content }] }`. -/
def googleContent (m : JSObject) : JSValue :=
  JSValue.obj
    [(js "role",
        if (m.get (js "role")).isStr (js "assistant") then JSValue.str (js "model")
        else JSValue.str (js "user")),
     (js "parts", JSValue.arr [JSValue.obj [(js "text", m.get (js "content"))]])]

/-- Model of `Provider.transformRequest(messages, model, options = {})`. -/
def Provider.transformRequest (self : Provider) (messages : List JSObject)
    (model : Option JSString) (options : JSObject) : JSValue :=
  let baseRequest := self.baseRequest model options
  if self.requestFormat = js "openai" then
    JSValue.obj ((JSObject.spread [] baseRequest).set (js "messages") (messagesValue messages))
  else if self.requestFormat = js "anthropic" then
    let systemMessages := messages.filter isSystemMessage
    let nonSystemMessages := messages.filter (fun m => !isSystemMessage m)
    JSValue.obj
      [(js "model", baseRequest.get (js "model")),
       (js "messages", messagesValue nonSystemMessages),
       (js "system",
          match systemMessages with
          | m :: _ => m.get (js "content")
          | [] => JSValue.undefined),
       (js "max_tokens",
          if (options.get (js "max_tokens")).truthy then options.get (js "max_tokens")
          else JSValue.ofNat 4096),
       (js "stream", baseRequest.get (js "stream"))]
  else if self.requestFormat = js "google" then
    JSValue.obj
      [(js "contents", JSValue.arr (messages.map googleContent)),
       (js "generationConfig",
          JSValue.obj
            [(js "temperature", options.get (js "temperature")),
             (js "maxOutputTokens", options.get (js "max_tokens"))])]
  else if self.requestFormat = js "custom" then
    match self.customRequestTransform with
    | some transform => transform messages model options
    | none => JSValue.obj baseRequest
  else
    JSValue.obj ((JSObject.spread [] baseRequest).set (js "messages") (messagesValue messages))

/-- Model of `Provider.getEndpoint(model)`. -/
def Provider.getEndpoint (self : Provider) (model : Option JSString) : JSString :=
  if self.requestFormat = js "openai" ∨ self.requestFormat = js "anthropic" then
    self.baseUrl ++ js "/chat/completions"
  else if self.requestFormat = js "google" then
    self.baseUrl ++ js "/models/" ++ modelOrDefault model self.defaultModel ++
      js ":streamGenerateContent?key=" ++ self.apiKey
  else
    self.baseUrl ++ js "/chat/completions"

/-- Model of `Provider.getHeaders()`. -/
def Provider.getHeaders (self : Provider) : JSObject :=
  let headers := JSObject.spread [] self.headers
  if !self.apiKey.isEmpty && self.requestFormat != js "google" then
    if self.requestFormat = js "anthropic" then
      headers.set (js "x-api-key") (JSValue.str self.apiKey)
    else
      headers.set (js "Authorization") (JSValue.str (js "Bearer " ++ self.apiKey))
  else headers

/-- A provider with the given request format, used to evaluate the functions on
concrete inputs. -/
def exampleProvider (requestFormat : JSString) : Provider where
  id := js "provider_1"
  name := js "Example"
  baseUrl := js "https://api.example.com/v1"
  apiKey := js "sk-123"
  apiKeyRequired := true
  enabled := true
  models := [[(js "id", JSValue.str (js "m-1")), (js "name", JSValue.str (js "M 1")),
    (js "contextWindow", JSValue.ofNat 4096)]]
  defaultModel := js "m-1"
  headers := [(js "Content-Type", JSValue.str (js "application/json"))]
  requestFormat := requestFormat
  color := js "#6366f1"
  customRequestTransform := none
  customResponseTransform := none
  createdAt := 1700000000000
  updatedAt := 1700000000000

/-! ## Reading the spec's field paths -/

/-- One step of a field path such as `choices[0].delta.content`. -/
inductive PathStep where
  | key (k : JSString) : PathStep
  | index (i : Nat) : PathStep

/-- Own-property lookup that distinguishes a missing property. -/
def JSObject.find? : JSObject → JSString → Option JSValue
  | [], _ => none
  | (k, v) :: rest, key => if k = key then some v else JSObject.find? rest key

/-- The field of a record at a path, read the way the specification writes it:
`.name` is a property of an object, `[i]` an element of an array; `none` when a
step does not apply. -/
def specField : List PathStep → JSValue → Option JSValue
  | [], v => some v
  | PathStep.key k :: rest, JSValue.obj props =>
    (JSObject.find? props k).bind (specField rest)
  | PathStep.index i :: rest, JSValue.arr items =>
    (items.get? i).bind (specField rest)
  | _ :: _, _ => none

/-- The complete (newline-terminated) lines of a text: every fragment of
`split('\n')` but the last. -/
def completeLines (text : JSString) : List JSString := (splitNewline text).dropLast

/-- The carry-over of a text: the last fragment of `split('\n')`. -/
def carryOver (text : JSString) : JSString := (splitNewline text).getLast?.getD []

/-! ## Collections, the persistence port and the clock -/

/-- A JavaScript `Map` with string keys: its entries in insertion order. -/
abbrev JSMap (α : Type) := List (JSString × α)

namespace JSMap

variable {α : Type}

/-- Model of `map.get(key)`: `none` is `undefined`. -/
def get? : JSMap α → JSString → Option α
  | [], _ => none
  | (k, v) :: rest, key => if k = key then some v else get? rest key

/-- Model of `map.has(key)`. -/
def has : JSMap α → JSString → Bool
  | [], _ => false
  | (k, _) :: rest, key => if k = key then true else has rest key

/-- Model of `map.set(key, value)`: an existing key keeps its position. -/
def set : JSMap α → JSString → α → JSMap α
  | [], key, v => [(key, v)]
  | (k, w) :: rest, key, v => if k = key then (k, v) :: rest else (k, w) :: set rest key v

/-- Model of `map.delete(key)`. -/
def delete (m : JSMap α) (key : JSString) : JSMap α := m.filter (fun e => e.1 != key)

/-- Model of `Array.from(map.values())`. -/
def values (m : JSMap α) : List α := m.map Prod.snd

/-- The keys of the map, in insertion order. -/
def keys (m : JSMap α) : List JSString := m.map Prod.fst

end JSMap

/-- Order of string keys in an IndexedDB object store: lexicographic on code
units. -/
def keyLt : JSString → JSString → Bool
  | [], [] => false
  | [], _ :: _ => true
  | _ :: _, [] => false
  | a :: as, b :: bs => if a < b then true else if b < a then false else keyLt as bs

/-- An object store of the persistence port (`keyPath: 'id'`): its records by
key, in key order. -/
abbrev Store (α : Type) := List (JSString × α)

namespace Store

variable {α : Type}

/-- Model of `db.put(store, item)` for an item with the given key: insert or
replace. -/
def put : Store α → JSString → α → Store α
  | [], key, v => [(key, v)]
  | (k, w) :: rest, key, v =>
    if k = key then (k, v) :: rest
    else if keyLt key k then (key, v) :: (k, w) :: rest
    else (k, w) :: put rest key v

/-- Model of `db.delete(store, id)`. -/
def delete (s : Store α) (key : JSString) : Store α := s.filter (fun e => e.1 != key)

/-- Model of `db.getAll(store)`. -/
def getAll (s : Store α) : List α := s.map Prod.snd

/-- Model of `db.get(store, id)`. -/
def get? : Store α → JSString → Option α
  | [], _ => none
  | (k, v) :: rest, key => if k = key then some v else get? rest key

end Store

/-- What an operation leaves behind: the state after it, and the message of the
`Error` it threw, if any. A throwing operation keeps the mutations made before
the throw. -/
structure Outcome (σ : Type) where
  state : σ
  error : Option JSString

/-- Decimal digits of a number, as `'' + n` writes them. -/
def natToJS (n : Nat) : JSString := (Nat.toDigits 10 n).map Char.toNat

/-- The expression `value || fallback` for a `value` that is `undefined` or a
string. -/
def strOr (value : Option JSString) (fallback : JSString) : JSString :=
  match value with
  | some s => if s.isEmpty then fallback else s
  | none => fallback

/-- The expression `value || fallback` for a `value` that is `undefined` or a
number. -/
def natOr (value : Option Nat) (fallback : Nat) : Nat :=
  match value with
  | some n => if n = 0 then fallback else n
  | none => fallback

/-- Model of `Array.prototype.sort((a, b) => key(b) - key(a))`: a stable sort
by decreasing key. -/
def insertDesc {α : Type} (key : α → Nat) (a : α) : List α → List α
  | [] => [a]
  | b :: rest => if key b ≤ key a then a :: b :: rest else b :: insertDesc key a rest

/-- Stable sort by decreasing key. -/
def sortDesc {α : Type} (key : α → Nat) : List α → List α
  | [] => []
  | a :: rest => insertDesc key a (sortDesc key rest)

/-! ## `Provider`: constructor and validation -/

/-- The `data` argument of `new Provider(data)`: every property may be missing. -/
structure ProviderData where
  id : Option JSString := none
  name : Option JSString := none
  baseUrl : Option JSString := none
  apiKey : Option JSString := none
  apiKeyRequired : Option Bool := none
  enabled : Option Bool := none
  models : Option (List JSObject) := none
  defaultModel : Option JSString := none
  headers : Option JSObject := none
  requestFormat : Option JSString := none
  color : Option JSString := none
  customRequestTransform : Option (List JSObject → Option JSString → JSObject → JSValue) := none
  customResponseTransform : Option (JSValue → JSValue) := none
  createdAt : Option Nat := none
  updatedAt : Option Nat := none

/-- Model of `Provider.generateId()`: `now` is the reading of `Date.now()`,
`rand` the text `Math.random().toString(36).substr(2, 9)`. -/
def Provider.generateId (now : Nat) (rand : JSString) : JSString :=
  js "provider_" ++ natToJS now ++ js "_" ++ rand

/-- The expression `this.models[0]?.id || ''` for models whose `id` is a
string. -/
def firstModelId (models : List JSObject) : JSString :=
  match models with
  | m :: _ =>
    match m.get (js "id") with
    | JSValue.str s => s
    | _ => []
  | [] => []

/-- Model of `new Provider(data)`. One reading `now` of `Date.now()` serves the
whole call. -/
def Provider.new (data : ProviderData) (now : Nat) (rand : JSString) : Provider where
  id := strOr data.id (Provider.generateId now rand)
  name := strOr data.name (js "Custom Provider")
  baseUrl := strOr data.baseUrl []
  apiKey := strOr data.apiKey []
  apiKeyRequired := data.apiKeyRequired.getD true
  enabled := data.enabled.getD false
  models := data.models.getD []
  defaultModel := strOr data.defaultModel (firstModelId (data.models.getD []))
  headers := data.headers.getD [(js "Content-Type", JSValue.str (js "application/json"))]
  requestFormat := strOr data.requestFormat (js "openai")
  color := strOr data.color (js "#6366f1")
  customRequestTransform := data.customRequestTransform
  customResponseTransform := data.customResponseTransform
  createdAt := natOr data.createdAt now
  updatedAt := natOr data.updatedAt now

/-- The test `!s || s.trim() === ''` on a string. -/
def isBlank (s : JSString) : Bool := s.isEmpty || trim s == []

/-- Model of `Provider.validate()`. -/
def Provider.validate (self : Provider) : List JSString :=
  let errors : List JSString := []
  let errors :=
    if isBlank self.name then errors ++ [js "Provider name is required"] else errors
  let errors :=
    if isBlank self.baseUrl then errors ++ [js "Base URL is required"] else errors
  let errors :=
    if self.apiKeyRequired && isBlank self.apiKey then
      errors ++ [js "API key is required for this provider"]
    else errors
  let errors :=
    if self.models.isEmpty then errors ++ [js "At least one model is required"] else errors
  errors

/-- Model of `errors.join(', ')`. -/
def joinComma : List JSString → JSString
  | [] => []
  | [e] => e
  | e :: rest => e ++ js ", " ++ joinComma rest

/-! ## The class `Chat` -/

/-- The fields of a `Chat` instance; `projectId` is `none` for `null`. -/
structure Chat where
  id : JSString
  title : JSString
  messages : List JSObject
  projectId : Option JSString
  systemPrompt : JSString
  temperature : JSValue
  createdAt : Nat
  updatedAt : Nat
  metadata : JSObject

/-- The `data` argument of `new Chat(data)`: every property may be missing. -/
structure ChatData where
  id : Option JSString := none
  title : Option JSString := none
  messages : Option (List JSObject) := none
  projectId : Option JSString := none
  systemPrompt : Option JSString := none
  temperature : Option JSValue := none
  createdAt : Option Nat := none
  updatedAt : Option Nat := none
  metadata : Option JSObject := none

/-- Model of `Chat.generateId()`: `now` is the reading of `Date.now()`, `rand`
the text `Math.random().toString(36).substr(2, 9)`. -/
def Chat.generateId (now : Nat) (rand : JSString) : JSString :=
  js "chat_" ++ natToJS now ++ js "_" ++ rand

/-- Model of `new Chat(data)`. One reading `now` of `Date.now()` serves the
whole call. -/
def Chat.new (data : ChatData) (now : Nat) (rand : JSString) : Chat where
  id := strOr data.id (Chat.generateId now rand)
  title := strOr data.title (js "New Chat")
  messages := data.messages.getD []
  projectId :=
    match data.projectId with
    | some s => if s.isEmpty then none else some s
    | none => none
  systemPrompt := strOr data.systemPrompt []
  temperature := data.temperature.getD (JSValue.num ⟨false, 7, -1⟩)
  createdAt := natOr data.createdAt now
  updatedAt := natOr data.updatedAt now
  metadata := data.metadata.getD []

/-- Model of `Chat.toJSON()`, as the data a chat is rebuilt from. -/
def Chat.toJSON (self : Chat) : ChatData where
  id := some self.id
  title := some self.title
  messages := some self.messages
  projectId := self.projectId
  systemPrompt := some self.systemPrompt
  temperature := some self.temperature
  createdAt := some self.createdAt
  updatedAt := some self.updatedAt
  metadata := some self.metadata

/-- The character class `[#*_\x60]` of `generateTitle`. -/
def isMarkup (c : Nat) : Bool := c == 35 || c == 42 || c == 95 || c == 96

/-- Model of `Chat.generateTitle(content)`. -/
def Chat.generateTitle (content : JSString) : JSString :=
  let maxLength := 50
  let title := trim content
  let title := title.filter (fun c => !isMarkup c)
  let title := if title.length > maxLength then title.take maxLength ++ js "..." else title
  if title.isEmpty then js "New Chat" else title

/-- The predicate `m => m.role === 'user'`. -/
def isUserMessage (m : JSObject) : Bool := (m.get (js "role")).isStr (js "user")

/-- The message object built by `addMessage`:
`{ role, content, timestamp: Date.now(), ...metadata }`. -/
def makeMessage (role content : JSString) (metadata : JSObject) (now : Nat) : JSObject :=
  JSObject.spread
    [(js "role", JSValue.str role), (js "content", JSValue.str content),
     (js "timestamp", JSValue.ofNat now)]
    metadata

/-- Model of `Chat.addMessage(role, content, metadata = {})`: the chat after
the call. One reading `now` of `Date.now()` serves the whole call. -/
def Chat.addMessage (self : Chat) (role content : JSString) (metadata : JSObject) (now : Nat) :
    Chat :=
  let message := makeMessage role content metadata now
  let messages := self.messages ++ [message]
  let title :=
    if self.title == js "New Chat" && role == js "user" &&
        (messages.filter isUserMessage).length == 1 then
      Chat.generateTitle content
    else self.title
  { self with messages := messages, updatedAt := now, title := title }

/-- The `updates` argument of `Object.assign(chat, updates)`: a property that is
present overwrites the field. -/
structure ChatPatch where
  id : Option JSString := none
  title : Option JSString := none
  messages : Option (List JSObject) := none
  projectId : Option (Option JSString) := none
  systemPrompt : Option JSString := none
  temperature : Option JSValue := none
  createdAt : Option Nat := none
  updatedAt : Option Nat := none
  metadata : Option JSObject := none

/-- Model of `Object.assign(chat, updates)`. -/
def Chat.assign (self : Chat) (updates : ChatPatch) : Chat where
  id := updates.id.getD self.id
  title := updates.title.getD self.title
  messages := updates.messages.getD self.messages
  projectId := updates.projectId.getD self.projectId
  systemPrompt := updates.systemPrompt.getD self.systemPrompt
  temperature := updates.temperature.getD self.temperature
  createdAt := updates.createdAt.getD self.createdAt
  updatedAt := updates.updatedAt.getD self.updatedAt
  metadata := updates.metadata.getD self.metadata

/-! ## The class `Project` -/

/-- The fields of a `Project` instance. -/
structure Project where
  id : JSString
  name : JSString
  description : JSString
  color : JSString
  icon : JSString
  createdAt : Nat
  updatedAt : Nat
  metadata : JSObject

/-! ## The persistence port -/

/-- The stores of the database the managers share. A setting holds an id or
`null` (`none`). -/
structure Database where
  providers : Store Provider
  chats : Store Chat
  projects : Store Project
  settings : Store (Option JSString)

/-- Model of `db.getSetting(key)`: the stored value, `null` when there is no
record. -/
def Database.getSetting (db : Database) (key : JSString) : Option JSString :=
  match Store.get? db.settings key with
  | some v => v
  | none => none

/-- Model of `db.setSetting(key, value)`. -/
def Database.setSetting (db : Database) (key : JSString) (value : Option JSString) : Database :=
  { db with settings := Store.put db.settings key value }

/-! ## The class `ProviderManager` -/

/-- The fields of a `ProviderManager`, without the database reference, which
the operations take and return. -/
structure ProviderManager where
  providers : JSMap Provider
  activeProviderId : Option JSString

/-- Model of `ProviderManager.addProvider(providerData)`. -/
def ProviderManager.addProvider (self : ProviderManager) (db : Database)
    (providerData : ProviderData) (now : Nat) (rand : JSString) :
    Outcome (ProviderManager × Database) :=
  let provider := Provider.new providerData now rand
  let errors := provider.validate
  if errors.length > 0 then
    ⟨(self, db), some (js "Provider validation failed: " ++ joinComma errors)⟩
  else
    ⟨({ self with providers := JSMap.set self.providers provider.id provider },
      { db with providers := Store.put db.providers provider.id provider }), none⟩

/-! ## The class `ChatManager` -/

/-- The fields of a `ChatManager`, without the database reference. -/
structure ChatManager where
  chats : JSMap Chat
  currentChatId : Option JSString

/-- Model of `ChatManager.createChat(data = {})`. -/
def ChatManager.createChat (self : ChatManager) (db : Database) (data : ChatData)
    (now : Nat) (rand : JSString) : ChatManager × Database :=
  let chat := Chat.new data now rand
  ({ chats := JSMap.set self.chats chat.id chat, currentChatId := some chat.id },
    ({ db with chats := Store.put db.chats chat.id chat }).setSetting (js "currentChat")
      (some chat.id))

/-- Model of `ChatManager.getAllChats()`. -/
def ChatManager.getAllChats (self : ChatManager) : List Chat :=
  sortDesc Chat.updatedAt (JSMap.values self.chats)

/-- Model of `ChatManager.getChatsByProject(projectId)`. -/
def ChatManager.getChatsByProject (self : ChatManager) (projectId : JSString) : List Chat :=
  sortDesc Chat.updatedAt
    ((JSMap.values self.chats).filter (fun chat => chat.projectId == some projectId))

/-- Model of `ChatManager.setCurrentChat(id)`. -/
def ChatManager.setCurrentChat (self : ChatManager) (db : Database) (id : JSString) :
    Outcome (ChatManager × Database) :=
  if !JSMap.has self.chats id then ⟨(self, db), some (js "Chat not found")⟩
  else ⟨({ self with currentChatId := some id }, db.setSetting (js "currentChat") (some id)), none⟩

/-- Model of `ChatManager.updateChat(id, updates)`. The chat object held by the
map is changed in place. -/
def ChatManager.updateChat (self : ChatManager) (db : Database) (id : JSString)
    (updates : ChatPatch) (now : Nat) : Outcome (ChatManager × Database) :=
  match JSMap.get? self.chats id with
  | none => ⟨(self, db), some (js "Chat not found")⟩
  | some chat =>
    let chat := { chat.assign updates with updatedAt := now }
    ⟨({ self with chats := JSMap.set self.chats id chat },
      { db with chats := Store.put db.chats chat.id chat }), none⟩

/-- Model of `ChatManager.deleteChat(id)`. -/
def ChatManager.deleteChat (self : ChatManager) (db : Database) (id : JSString)
    (now : Nat) (rand : JSString) : Outcome (ChatManager × Database) :=
  if !JSMap.has self.chats id then ⟨(self, db), some (js "Chat not found")⟩
  else
    let self1 : ChatManager := { self with chats := JSMap.delete self.chats id }
    let db1 : Database := { db with chats := Store.delete db.chats id }
    if self1.currentChatId = some id then
      match self1.getAllChats with
      | first :: _ => self1.setCurrentChat db1 first.id
      | [] => ⟨self1.createChat db1 {} now rand, none⟩
    else ⟨(self1, db1), none⟩

/-- The loop of `ChatManager.init()` over the saved chats; `i` counts the
iterations. -/
def ChatManager.loadChats (now : Nat → Nat) (rand : Nat → JSString) :
    List Chat → Nat → JSMap Chat → JSMap Chat
  | [], _, chats => chats
  | data :: rest, i, chats =>
    let chat := Chat.new data.toJSON (now i) (rand i)
    ChatManager.loadChats now rand rest (i + 1) (JSMap.set chats chat.id chat)

/-- Model of `ChatManager.init()` on the manager `new ChatManager(db)`. The
reading of the clock and the random text of the `i`-th constructed chat are
`now i` and `rand i`. -/
def ChatManager.init (db : Database) (now : Nat → Nat) (rand : Nat → JSString) :
    ChatManager × Database :=
  let savedChats := Store.getAll db.chats
  let chats := ChatManager.loadChats now rand savedChats 0 []
  let currentChatId := db.getSetting (js "currentChat")
  let self : ChatManager := { chats := chats, currentChatId := currentChatId }
  let missing : Bool :=
    match currentChatId with
    | none => true
    | some id => id.isEmpty || !JSMap.has chats id
  if missing then self.createChat db {} (now savedChats.length) (rand savedChats.length)
  else (self, db)

/-! ## The class `ProjectManager` -/

/-- The fields of a `ProjectManager`, without the database reference. -/
structure ProjectManager where
  projects : JSMap Project
  currentProjectId : Option JSString

/-- The loop `for (const chat of chats) await chatManager.deleteChat(chat.id)`;
`i` counts the iterations; a throw ends the loop. -/
def deleteChatsLoop (now : Nat → Nat) (rand : Nat → JSString) :
    List Chat → Nat → ChatManager × Database → Outcome (ChatManager × Database)
  | [], _, st => ⟨st, none⟩
  | chat :: rest, i, st =>
    let r := st.1.deleteChat st.2 chat.id (now i) (rand i)
    match r.error with
    | some e => ⟨r.state, some e⟩
    | none => deleteChatsLoop now rand rest (i + 1) r.state

/-- The loop
`for (const chat of chats) await chatManager.updateChat(chat.id, { projectId: null })`;
`i` counts the iterations; a throw ends the loop. -/
def detachChatsLoop (now : Nat → Nat) :
    List Chat → Nat → ChatManager × Database → Outcome (ChatManager × Database)
  | [], _, st => ⟨st, none⟩
  | chat :: rest, i, st =>
    let r := st.1.updateChat st.2 chat.id { projectId := some none } (now i)
    match r.error with
    | some e => ⟨r.state, some e⟩
    | none => detachChatsLoop now rest (i + 1) r.state

/-- The state `deleteProject` works on: the project manager, the chat manager
passed as third argument (`none` when it is omitted or `null`) and the
database. -/
structure ProjectWorld where
  projectManager : ProjectManager
  chatManager : Option ChatManager
  db : Database

/-- Model of `ProjectManager.deleteProject(id, deleteChats = false,
chatManager = null)`. -/
def ProjectManager.deleteProject (self : ProjectManager) (db : Database) (id : JSString)
    (deleteChats : Bool) (chatManager : Option ChatManager)
    (now : Nat → Nat) (rand : Nat → JSString) : Outcome ProjectWorld :=
  if !JSMap.has self.projects id then ⟨⟨self, chatManager, db⟩, some (js "Project not found")⟩
  else
    let chatsDone : Outcome (Option ChatManager × Database) :=
      match chatManager with
      | some cm =>
        let r :=
          if deleteChats then deleteChatsLoop now rand (cm.getChatsByProject id) 0 (cm, db)
          else detachChatsLoop now (cm.getChatsByProject id) 0 (cm, db)
        ⟨(some r.state.1, r.state.2), r.error⟩
      | none => ⟨(none, db), none⟩
    match chatsDone.error with
    | some e => ⟨⟨self, chatsDone.state.1, chatsDone.state.2⟩, some e⟩
    | none =>
      let self1 : ProjectManager := { self with projects := JSMap.delete self.projects id }
      let db1 : Database :=
        { chatsDone.state.2 with projects := Store.delete chatsDone.state.2.projects id }
      if self1.currentProjectId = some id then
        ⟨⟨{ self1 with currentProjectId := none }, chatsDone.state.1,
          db1.setSetting (js "currentProject") none⟩, none⟩
      else ⟨⟨self1, chatsDone.state.1, db1⟩, none⟩

/-! ## Call sequences and the application state -/

/-- Every chat of the manager is stored under its own id, each key once. -/
def ChatManager.KeyedById (cm : ChatManager) : Prop :=
  (JSMap.keys cm.chats).Nodup ∧ ∀ e ∈ cm.chats, e.2.id = e.1

instance (cm : ChatManager) : Decidable cm.KeyedById := by
  unfold ChatManager.KeyedById
  exact inferInstance

/-- The current chat of the manager is one of its chats. -/
def ChatManager.CurrentValid (cm : ChatManager) : Prop :=
  ∃ id, cm.currentChatId = some id ∧ JSMap.has cm.chats id = true

/-- The current chat of the manager is one of its chats and no chat of the
manager has a greater `updatedAt`. -/
def ChatManager.CurrentMostRecent (cm : ChatManager) : Prop :=
  ∃ c : Chat, cm.currentChatId = some c.id ∧ JSMap.get? cm.chats c.id = some c ∧
    ∀ c2 ∈ JSMap.values cm.chats, c2.updatedAt ≤ c.updatedAt

/-- A call of one of the mutating methods of `ChatManager`, with its arguments
and the readings of the clock and of the random source it makes. -/
inductive ChatOp where
  | createChat (data : ChatData) (now : Nat) (rand : JSString) : ChatOp
  | setCurrentChat (id : JSString) : ChatOp
  | updateChat (id : JSString) (updates : ChatPatch) (now : Nat) : ChatOp
  | deleteChat (id : JSString) (now : Nat) (rand : JSString) : ChatOp

/-- The state after a call, whether it returned or threw. -/
def ChatManager.step (st : ChatManager × Database) : ChatOp → ChatManager × Database
  | ChatOp.createChat data now rand => st.1.createChat st.2 data now rand
  | ChatOp.setCurrentChat id => (st.1.setCurrentChat st.2 id).state
  | ChatOp.updateChat id updates now => (st.1.updateChat st.2 id updates now).state
  | ChatOp.deleteChat id now rand => (st.1.deleteChat st.2 id now rand).state

/-- The state after a sequence of calls. -/
def ChatManager.run (st : ChatManager × Database) (ops : List ChatOp) : ChatManager × Database :=
  ops.foldl ChatManager.step st

/-- Whether a call leaves the `id` field of every chat alone: every call but an
`updateChat` whose patch has an `id` property. -/
def ChatOp.keepsId : ChatOp → Bool
  | ChatOp.updateChat _ updates _ => updates.id.isNone
  | _ => true

/-- The managers of the application and the database they share. -/
structure App where
  db : Database
  chatManager : ChatManager
  projectManager : ProjectManager

/-- A call `projectManager.deleteProject(id, deleteChats, chatManager)` made by
the application; with `passChatManager = false` the third argument is omitted:
`projectManager.deleteProject(id, deleteChats)`. -/
def App.deleteProject (app : App) (id : JSString) (deleteChats passChatManager : Bool)
    (now : Nat → Nat) (rand : Nat → JSString) : Outcome App :=
  let r := app.projectManager.deleteProject app.db id deleteChats
    (if passChatManager then some app.chatManager else none) now rand
  ⟨⟨r.state.db, r.state.chatManager.getD app.chatManager, r.state.projectManager⟩, r.error⟩

/-- Title inference as the specification words it: strip the characters
`# * _` and the backquote, trim, truncate to 50 characters with a trailing
ellipsis if longer, fall back to the placeholder if the result is empty. -/
def specTitle (content : JSString) : JSString :=
  let title := trim (content.filter (fun c => !isMarkup c))
  let title := if title.length > 50 then title.take 50 ++ js "..." else title
  if title.isEmpty then js "New Chat" else title

/-! ## Messages of a chat: update, delete, call sequences -/

/-- Whether the number equals the non-negative integer `n`, for values that
doubles represent exactly (timestamps are). -/
def JSNumber.isNat (x : JSNumber) (n : Nat) : Bool :=
  (!x.neg || x.mant == 0) &&
    (if 0 ≤ x.exp then x.mant * 10 ^ x.exp.toNat == n
     else x.mant == n * 10 ^ (-x.exp).toNat)

/-- Whether `v === n` for the number `n`. -/
def JSValue.isNat (v : JSValue) (n : Nat) : Bool :=
  match v with
  | JSValue.num x => x.isNat n
  | _ => false

/-- The predicate `m => m.timestamp === timestamp`. -/
def hasTimestamp (timestamp : Nat) (m : JSObject) : Bool :=
  (m.get (js "timestamp")).isNat timestamp

/-- The effect of `Object.assign(message, updates)` on the first message that
satisfies `p`, the one `find` returns. -/
def assignFirst (p : JSObject → Bool) (updates : JSObject) : List JSObject → List JSObject
  | [] => []
  | m :: rest =>
    if p m then JSObject.spread m updates :: rest else m :: assignFirst p updates rest

/-- Model of `Chat.updateMessage(timestamp, updates)`: the chat after the
call. -/
def Chat.updateMessage (self : Chat) (timestamp : Nat) (updates : JSObject) (now : Nat) : Chat :=
  match self.messages.find? (hasTimestamp timestamp) with
  | some _ =>
    { self with
      messages := assignFirst (hasTimestamp timestamp) updates self.messages,
      updatedAt := now }
  | none => self

/-- Model of `Chat.deleteMessage(timestamp)`: the chat after the call. -/
def Chat.deleteMessage (self : Chat) (timestamp : Nat) (now : Nat) : Chat :=
  { self with
    messages := self.messages.filter (fun m => !hasTimestamp timestamp m),
    updatedAt := now }

/-- The arguments of one `addMessage` call and its reading of the clock. -/
structure AddCall where
  role : JSString
  content : JSString
  metadata : JSObject
  now : Nat

/-- The chat after a sequence of `addMessage` calls. -/
def Chat.addMessages (chat : Chat) (calls : List AddCall) : Chat :=
  calls.foldl (fun c call => c.addMessage call.role call.content call.metadata call.now) chat

/-! ## `Provider`: models, patches -/

/-- Model of `Provider.toJSON()`, as the data a provider is rebuilt from. -/
def Provider.toJSON (self : Provider) : ProviderData where
  id := some self.id
  name := some self.name
  baseUrl := some self.baseUrl
  apiKey := some self.apiKey
  apiKeyRequired := some self.apiKeyRequired
  enabled := some self.enabled
  models := some self.models
  defaultModel := some self.defaultModel
  headers := some self.headers
  requestFormat := some self.requestFormat
  color := some self.color
  customRequestTransform := self.customRequestTransform
  customResponseTransform := self.customResponseTransform
  createdAt := some self.createdAt
  updatedAt := some self.updatedAt

/-- The `updates` argument of `Object.assign(provider, updates)`: a property
that is present overwrites the field. -/
structure ProviderPatch where
  id : Option JSString := none
  name : Option JSString := none
  baseUrl : Option JSString := none
  apiKey : Option JSString := none
  apiKeyRequired : Option Bool := none
  enabled : Option Bool := none
  models : Option (List JSObject) := none
  defaultModel : Option JSString := none
  headers : Option JSObject := none
  requestFormat : Option JSString := none
  color : Option JSString := none
  createdAt : Option Nat := none
  updatedAt : Option Nat := none

/-- Model of `Object.assign(provider, updates)`. -/
def Provider.assign (self : Provider) (updates : ProviderPatch) : Provider where
  id := updates.id.getD self.id
  name := updates.name.getD self.name
  baseUrl := updates.baseUrl.getD self.baseUrl
  apiKey := updates.apiKey.getD self.apiKey
  apiKeyRequired := updates.apiKeyRequired.getD self.apiKeyRequired
  enabled := updates.enabled.getD self.enabled
  models := updates.models.getD self.models
  defaultModel := updates.defaultModel.getD self.defaultModel
  headers := updates.headers.getD self.headers
  requestFormat := updates.requestFormat.getD self.requestFormat
  color := updates.color.getD self.color
  customRequestTransform := self.customRequestTransform
  customResponseTransform := self.customResponseTransform
  createdAt := updates.createdAt.getD self.createdAt
  updatedAt := updates.updatedAt.getD self.updatedAt

/-- The `model` argument of `Provider.addModel(model)`: `id` and `name` are
missing or strings, `contextWindow` is any value. -/
structure ModelData where
  id : Option JSString := none
  name : Option JSString := none
  contextWindow : JSValue := JSValue.undefined

/-- Model of `Provider.addModel(model)`. -/
def Provider.addModel (self : Provider) (model : ModelData) (now : Nat) : Outcome Provider :=
  if (strOr model.id []).isEmpty || (strOr model.name []).isEmpty then
    ⟨self, some (js "Model must have an id and name")⟩
  else
    let models := self.models ++
      [[(js "id", JSValue.str (strOr model.id [])), (js "name", JSValue.str (strOr model.name [])),
        (js "contextWindow",
          if model.contextWindow.truthy then model.contextWindow else JSValue.ofNat 4096)]]
    ⟨{ self with
        models := models,
        defaultModel := if models.length = 1 then strOr model.id [] else self.defaultModel,
        updatedAt := now }, none⟩

/-! ## The class `ProviderManager`: selection, update, delete, models -/

/-- Model of `ProviderManager.getEnabledProviders()`. -/
def ProviderManager.getEnabledProviders (self : ProviderManager) : List Provider :=
  (JSMap.values self.providers).filter (fun p => p.enabled)

/-- Model of `ProviderManager.getProvider(id)`. -/
def ProviderManager.getProvider (self : ProviderManager) (id : JSString) : Option Provider :=
  JSMap.get? self.providers id

/-- Model of `ProviderManager.getActiveProvider()`; no provider is stored under
`null`. -/
def ProviderManager.getActiveProvider (self : ProviderManager) : Option Provider :=
  match self.activeProviderId with
  | some id => JSMap.get? self.providers id
  | none => none

/-- Model of `ProviderManager.setActiveProvider(id)`. -/
def ProviderManager.setActiveProvider (self : ProviderManager) (db : Database) (id : JSString) :
    Outcome (ProviderManager × Database) :=
  if !JSMap.has self.providers id then ⟨(self, db), some (js "Provider not found")⟩
  else
    ⟨({ self with activeProviderId := some id }, db.setSetting (js "activeProvider") (some id)),
      none⟩

/-- Model of `ProviderManager.updateProvider(id, updates)`. The provider object
held by the map is changed in place. -/
def ProviderManager.updateProvider (self : ProviderManager) (db : Database) (id : JSString)
    (updates : ProviderPatch) (now : Nat) : Outcome (ProviderManager × Database) :=
  match JSMap.get? self.providers id with
  | none => ⟨(self, db), some (js "Provider not found")⟩
  | some provider =>
    let provider := { provider.assign updates with updatedAt := now }
    ⟨({ self with providers := JSMap.set self.providers id provider },
      { db with providers := Store.put db.providers provider.id provider }), none⟩

/-- Model of `ProviderManager.deleteProvider(id)`. -/
def ProviderManager.deleteProvider (self : ProviderManager) (db : Database) (id : JSString) :
    Outcome (ProviderManager × Database) :=
  if !JSMap.has self.providers id then ⟨(self, db), some (js "Provider not found")⟩
  else
    let self1 : ProviderManager := { self with providers := JSMap.delete self.providers id }
    let db1 : Database := { db with providers := Store.delete db.providers id }
    if self1.activeProviderId = some id then
      match self1.getEnabledProviders with
      | first :: _ => self1.setActiveProvider db1 first.id
      | [] =>
        ⟨({ self1 with activeProviderId := none }, db1.setSetting (js "activeProvider") none),
          none⟩
    else ⟨(self1, db1), none⟩

/-- The loop of `init()` over `DEFAULT_PROVIDERS`; `i` counts the iterations. -/
def ProviderManager.seedDefaults (now : Nat → Nat) (rand : Nat → JSString) :
    List ProviderData → Nat → JSMap Provider × Store Provider → JSMap Provider × Store Provider
  | [], _, st => st
  | data :: rest, i, st =>
    let provider := Provider.new data (now i) (rand i)
    ProviderManager.seedDefaults now rand rest (i + 1)
      (JSMap.set st.1 provider.id provider, Store.put st.2 provider.id provider)

/-- The loop of `init()` over the saved providers; `i` counts the iterations. -/
def ProviderManager.loadProviders (now : Nat → Nat) (rand : Nat → JSString) :
    List Provider → Nat → JSMap Provider → JSMap Provider
  | [], _, providers => providers
  | data :: rest, i, providers =>
    let provider := Provider.new data.toJSON (now i) (rand i)
    ProviderManager.loadProviders now rand rest (i + 1) (JSMap.set providers provider.id provider)

/-- Model of `ProviderManager.init()` on the manager `new ProviderManager(db)`.
`defaults` is the table `DEFAULT_PROVIDERS` of `providers-config.js`; the
reading of the clock and the random text of the `i`-th constructed provider are
`now i` and `rand i`. -/
def ProviderManager.init (defaults : List ProviderData) (db : Database) (now : Nat → Nat)
    (rand : Nat → JSString) : ProviderManager × Database :=
  let savedProviders := Store.getAll db.providers
  let loaded : JSMap Provider × Store Provider :=
    if savedProviders.length = 0 then
      ProviderManager.seedDefaults now rand defaults 0 ([], db.providers)
    else (ProviderManager.loadProviders now rand savedProviders 0 [], db.providers)
  let db1 : Database := { db with providers := loaded.2 }
  let activeProviderId := db.getSetting (js "activeProvider")
  let unset : Bool :=
    match activeProviderId with
    | none => true
    | some id => id.isEmpty
  if unset then
    match (JSMap.values loaded.1).find? (fun p => p.enabled) with
    | some enabledProvider =>
      (⟨loaded.1, some enabledProvider.id⟩,
        db1.setSetting (js "activeProvider") (some enabledProvider.id))
    | none => (⟨loaded.1, activeProviderId⟩, db1)
  else (⟨loaded.1, activeProviderId⟩, db1)

/-- The entry `getAllModels` pushes for one model of a provider:
`{ ...model, providerId, providerName, providerColor, fullId }`. `toStr` is
the conversion to string a template literal applies to `model.id`. -/
def modelEntry (toStr : JSValue → JSString) (provider : Provider) (model : JSObject) : JSObject :=
  JSObject.set
    (JSObject.set
      (JSObject.set
        (JSObject.set (JSObject.spread [] model) (js "providerId") (JSValue.str provider.id))
        (js "providerName") (JSValue.str provider.name))
      (js "providerColor") (JSValue.str provider.color))
    (js "fullId") (JSValue.str (provider.id ++ js "/" ++ toStr (model.get (js "id"))))

/-- The inner loop of `getAllModels`: `models.push(...)` for each model. -/
def pushModels (toStr : JSValue → JSString) (provider : Provider) :
    List JSObject → List JSObject → List JSObject
  | [], models => models
  | model :: rest, models =>
    pushModels toStr provider rest (models ++ [modelEntry toStr provider model])

/-- The outer loop of `getAllModels` over the enabled providers. -/
def pushProviders (toStr : JSValue → JSString) : List Provider → List JSObject → List JSObject
  | [], models => models
  | provider :: rest, models =>
    pushProviders toStr rest (pushModels toStr provider provider.models models)

/-- Model of `ProviderManager.getAllModels()`. -/
def ProviderManager.getAllModels (toStr : JSValue → JSString) (self : ProviderManager) :
    List JSObject :=
  pushProviders toStr self.getEnabledProviders []

/-- Conversion to string of the values that occur as model ids in the examples:
a string is itself. -/
def exampleToStr (v : JSValue) : JSString :=
  match v with
  | JSValue.str s => s
  | JSValue.null => js "null"
  | _ => js "undefined"

/-- Model of `s.split(sep)` for a one-character separator. -/
def splitChar (sep : Nat) : JSString → List JSString
  | [] => [[]]
  | c :: cs =>
    if c = sep then [] :: splitChar sep cs
    else
      match splitChar sep cs with
      | [] => [[c]]
      | l :: ls => (c :: l) :: ls

/-- Model of `parts.join(sep)` for a one-character separator. -/
def joinChar (sep : Nat) : List JSString → JSString
  | [] => []
  | [part] => part
  | part :: rest => part ++ sep :: joinChar sep rest

/-- The result `{ provider, modelId }` of `parseModelId`; `provider` is `none`
for `undefined`. -/
structure ModelRef where
  provider : Option Provider
  modelId : JSString

/-- Model of `ProviderManager.parseModelId(fullModelId)`. -/
def ProviderManager.parseModelId (self : ProviderManager) (fullModelId : JSString) : ModelRef :=
  let parts := splitChar 47 fullModelId
  if parts.length < 2 then ⟨self.getActiveProvider, fullModelId⟩
  else ⟨self.getProvider (parts.headD []), joinChar 47 (parts.drop 1)⟩

/-- Every provider of the manager is stored under its own id, each key once. -/
def ProviderManager.KeyedById (pm : ProviderManager) : Prop :=
  (JSMap.keys pm.providers).Nodup ∧ ∀ e ∈ pm.providers, e.2.id = e.1

instance (pm : ProviderManager) : Decidable pm.KeyedById := by
  unfold ProviderManager.KeyedById
  exact inferInstance

/-- The active provider is none or one of the providers of the manager. -/
def ProviderManager.ActiveValid (pm : ProviderManager) : Prop :=
  ∀ id, pm.activeProviderId = some id → JSMap.has pm.providers id = true

/-- A call of one of the mutating methods of `ProviderManager`, with its
arguments and the readings of the clock and of the random source it makes. -/
inductive ProviderOp where
  | setActiveProvider (id : JSString) : ProviderOp
  | addProvider (data : ProviderData) (now : Nat) (rand : JSString) : ProviderOp
  | updateProvider (id : JSString) (updates : ProviderPatch) (now : Nat) : ProviderOp
  | deleteProvider (id : JSString) : ProviderOp

/-- The state after a call, whether it returned or threw. -/
def ProviderManager.step (st : ProviderManager × Database) :
    ProviderOp → ProviderManager × Database
  | ProviderOp.setActiveProvider id => (st.1.setActiveProvider st.2 id).state
  | ProviderOp.addProvider data now rand => (st.1.addProvider st.2 data now rand).state
  | ProviderOp.updateProvider id updates now => (st.1.updateProvider st.2 id updates now).state
  | ProviderOp.deleteProvider id => (st.1.deleteProvider st.2 id).state

/-- The state after a sequence of calls. -/
def ProviderManager.run (st : ProviderManager × Database) (ops : List ProviderOp) :
    ProviderManager × Database :=
  ops.foldl ProviderManager.step st

/-- Whether a call leaves the `id` field of every provider alone: every call
but an `updateProvider` whose patch has an `id` property. -/
def ProviderOp.keepsId : ProviderOp → Bool
  | ProviderOp.updateProvider _ updates _ => updates.id.isNone
  | _ => true

/-! ## `Project.update` and `ProjectManager.updateProject` -/

/-- The `updates` argument of `Object.assign(project, updates)`. -/
structure ProjectPatch where
  id : Option JSString := none
  name : Option JSString := none
  description : Option JSString := none
  color : Option JSString := none
  icon : Option JSString := none
  createdAt : Option Nat := none
  updatedAt : Option Nat := none
  metadata : Option JSObject := none

/-- Model of `Project.update(updates)`. -/
def Project.update (self : Project) (updates : ProjectPatch) (now : Nat) : Project where
  id := updates.id.getD self.id
  name := updates.name.getD self.name
  description := updates.description.getD self.description
  color := updates.color.getD self.color
  icon := updates.icon.getD self.icon
  createdAt := updates.createdAt.getD self.createdAt
  updatedAt := now
  metadata := updates.metadata.getD self.metadata

/-- Model of `ProjectManager.updateProject(id, updates)`. -/
def ProjectManager.updateProject (self : ProjectManager) (db : Database) (id : JSString)
    (updates : ProjectPatch) (now : Nat) : Outcome (ProjectManager × Database) :=
  match JSMap.get? self.projects id with
  | none => ⟨(self, db), some (js "Project not found")⟩
  | some project =>
    let project := project.update updates now
    ⟨({ self with projects := JSMap.set self.projects id project },
      { db with projects := Store.put db.projects project.id project }), none⟩

/-- A chat with id `c1`, the default title and the given messages, created at
the reading 1 of the clock. -/
def exampleChat (messages : List JSObject) : Chat :=
  Chat.new { id := some (js "c1"), messages := some messages } 1 []

/-- A provider with the given id, `enabled` flag and models, built by the
constructor at the reading 1 of the clock. -/
def sampleProvider (id : JSString) (enabled : Bool) (models : List JSObject) : Provider :=
  Provider.new
    { id := some id, name := some (js "Sample"), baseUrl := some (js "https://api.example.com"),
      enabled := some enabled, models := some models } 1 []

/-- A model record with the given id and name. -/
def sampleModel (id name : JSString) : JSObject :=
  [(js "id", JSValue.str id), (js "name", JSValue.str name),
   (js "contextWindow", JSValue.ofNat 4096)]

/-- The first entry of the table `DEFAULT_PROVIDERS` of `providers-config.js`. -/
def defaultOpenAI : ProviderData :=
  { id := some (js "openai"), name := some (js "OpenAI"),
    baseUrl := some (js "https://api.openai.com/v1"), apiKeyRequired := some true,
    enabled := some false,
    models := some
      [[(js "id", JSValue.str (js "gpt-4o")), (js "name", JSValue.str (js "GPT-4o")),
        (js "contextWindow", JSValue.ofNat 128000)],
       [(js "id", JSValue.str (js "gpt-4o-mini")), (js "name", JSValue.str (js "GPT-4o Mini")),
        (js "contextWindow", JSValue.ofNat 128000)],
       [(js "id", JSValue.str (js "gpt-4-turbo")), (js "name", JSValue.str (js "GPT-4 Turbo")),
        (js "contextWindow", JSValue.ofNat 128000)],
       [(js "id", JSValue.str (js "gpt-4")), (js "name", JSValue.str (js "GPT-4")),
        (js "contextWindow", JSValue.ofNat 8192)],
       [(js "id", JSValue.str (js "gpt-3.5-turbo")),
        (js "name", JSValue.str (js "GPT-3.5 Turbo")),
        (js "contextWindow", JSValue.ofNat 16385)]],
    defaultModel := some (js "gpt-4o-mini"),
    headers := some [(js "Content-Type", JSValue.str (js "application/json"))],
    requestFormat := some (js "openai"), color := some (js "#10a37f") }

/-! ## `Provider`: removing and updating models -/

/-- The predicate `m => m.id === modelId`. -/
def hasModelId (modelId : JSString) (m : JSObject) : Bool :=
  (m.get (js "id")).isStr modelId

/-- Model of `Provider.removeModel(modelId)`, for models whose `id` is a
string. -/
def Provider.removeModel (self : Provider) (modelId : JSString) (now : Nat) : Provider :=
  let models := self.models.filter (fun m => !hasModelId modelId m)
  { self with
    models := models,
    defaultModel :=
      if self.defaultModel = modelId ∧ models.length > 0 then firstModelId models
      else self.defaultModel,
    updatedAt := now }

/-- Model of `Provider.updateModel(modelId, updates)`. -/
def Provider.updateModel (self : Provider) (modelId : JSString) (updates : JSObject)
    (now : Nat) : Provider :=
  match self.models.find? (hasModelId modelId) with
  | some _ =>
    { self with
      models := assignFirst (hasModelId modelId) updates self.models,
      updatedAt := now }
  | none => self

/-- Whether `defaultModel` is unset (empty) or the id of one of the models. -/
def Provider.defaultModelValid (self : Provider) : Bool :=
  self.defaultModel.isEmpty || self.models.any (hasModelId self.defaultModel)

/-! ## `ChatManager`: search and statistics -/

/-- Model of `s.includes(t)`. -/
def includes : JSString → JSString → Bool
  | [], t => t.isEmpty
  | c :: cs, t => List.isPrefixOf t (c :: cs) || includes cs t

/-- The test `msg.content.toLowerCase().includes(lowerQuery)`; `none` when
`msg.content` is not a string, where the call of `toLowerCase` throws a
`TypeError`. -/
def messageMatches (toLowerCase : JSString → JSString) (lowerQuery : JSString)
    (msg : JSObject) : Option Bool :=
  match msg.get (js "content") with
  | JSValue.str s => some (includes (toLowerCase s) lowerQuery)
  | _ => none

/-- Model of `messages.some(msg => ...)`: the messages are tested in order up to
the first match. -/
def someMessageMatches (toLowerCase : JSString → JSString) (lowerQuery : JSString) :
    List JSObject → Option Bool
  | [] => some false
  | msg :: rest =>
    match messageMatches toLowerCase lowerQuery msg with
    | none => none
    | some true => some true
    | some false => someMessageMatches toLowerCase lowerQuery rest

/-- The callback of the `filter` of `searchChats`. -/
def chatMatches (toLowerCase : JSString → JSString) (lowerQuery : JSString) (chat : Chat) :
    Option Bool :=
  if includes (toLowerCase chat.title) lowerQuery then some true
  else someMessageMatches toLowerCase lowerQuery chat.messages

/-- Model of `chats.filter(callback)` for a callback that may throw. -/
def filterChats (callback : Chat → Option Bool) : List Chat → Option (List Chat)
  | [] => some []
  | chat :: rest =>
    match callback chat with
    | none => none
    | some keep =>
      match filterChats callback rest with
      | none => none
      | some kept => some (if keep then chat :: kept else kept)

/-- Model of `ChatManager.searchChats(query)`; `none` when the call throws.
`toLowerCase` is `String.prototype.toLowerCase`. -/
def ChatManager.searchChats (toLowerCase : JSString → JSString) (self : ChatManager)
    (query : JSString) : Option (List Chat) :=
  let lowerQuery := toLowerCase query
  filterChats (chatMatches toLowerCase lowerQuery) self.getAllChats

/-- Lower-casing of the letters `A` to `Z`: what `toLowerCase` does on ASCII
text. -/
def asciiLower (s : JSString) : JSString :=
  s.map (fun c => if 65 ≤ c ∧ c ≤ 90 then c + 32 else c)

/-- The predicate `m => m.role === 'assistant'`. -/
def isAssistantMessage (m : JSObject) : Bool := (m.get (js "role")).isStr (js "assistant")

/-- The object `getStatistics` returns; `none` is `null`. -/
structure Statistics where
  totalChats : Nat
  totalMessages : Nat
  userMessages : Nat
  assistantMessages : Nat
  oldestChat : Option Nat
  newestChat : Option Nat

/-- Model of `Math.min(first, ...rest)` on non-negative integers. -/
def mathMin (first : Nat) (rest : List Nat) : Nat := rest.foldl min first

/-- Model of `Math.max(first, ...rest)` on non-negative integers. -/
def mathMax (first : Nat) (rest : List Nat) : Nat := rest.foldl max first

/-- Model of `ChatManager.getStatistics()`. -/
def ChatManager.getStatistics (self : ChatManager) : Statistics :=
  let chats := self.getAllChats
  { totalChats := chats.length,
    totalMessages := chats.foldl (fun sum chat => sum + chat.messages.length) 0,
    userMessages :=
      chats.foldl (fun sum chat => sum + (chat.messages.filter isUserMessage).length) 0,
    assistantMessages :=
      chats.foldl (fun sum chat => sum + (chat.messages.filter isAssistantMessage).length) 0,
    oldestChat :=
      match chats.map Chat.createdAt with
      | [] => none
      | c :: cs => some (mathMin c cs),
    newestChat :=
      match chats.map Chat.createdAt with
      | [] => none
      | c :: cs => some (mathMax c cs) }

/-! ## `Chat.export` -/

/-- The `for` loop of the `markdown` case of `export`: `md` is the text built
so far. The two labels are the string literals of the source file, which hold
the code points U+00F0 U+0178 U+2018 U+00A4 and U+00F0 U+0178 U+00A4 U+2013
where an emoji was meant. `toStr` is the conversion to string a template
literal applies to `msg.content`. -/
def markdownLoop (toStr : JSValue → JSString) : List JSObject → JSString → JSString
  | [], md => md
  | msg :: rest, md =>
    if isSystemMessage msg then markdownLoop toStr rest md
    else
      let role :=
        if isUserMessage msg then js "\u00f0\u0178\u2018\u00a4 User"
        else js "\u00f0\u0178\u00a4\u2013 Assistant"
      markdownLoop toStr rest
        (md ++ (js "### " ++ role ++ js "\n\n" ++ toStr (msg.get (js "content")) ++ js "\n\n"))

/-- The `for` loop of the `text` case of `export`. -/
def textLoop (toStr : JSValue → JSString) : List JSObject → JSString → JSString
  | [], text => text
  | msg :: rest, text =>
    if isSystemMessage msg then textLoop toStr rest text
    else
      let role := if isUserMessage msg then js "User" else js "Assistant"
      textLoop toStr rest
        (text ++ (role ++ js ":\n" ++ toStr (msg.get (js "content")) ++ js "\n\n" ++
          List.replicate 50 45 ++ js "\n\n"))

/-- Model of `Chat.export(format)`. `toLocaleString` is the text
`new Date(t).toLocaleString()` of a time, `stringify` is `JSON.stringify` with
the indentation given (`none` when the argument is omitted). -/
def Chat.exportTo (toLocaleString : Nat → JSString) (toStr : JSValue → JSString)
    (stringify : ChatData → Option Nat → JSString) (self : Chat) (format : JSString) :
    JSString :=
  if format = js "json" then stringify self.toJSON (some 2)
  else if format = js "markdown" then
    let md := js "# " ++ self.title ++ js "\n\n"
    let md := md ++ (js "Created: " ++ toLocaleString self.createdAt ++ js "\n")
    let md := md ++ (js "Updated: " ++ toLocaleString self.updatedAt ++ js "\n\n")
    let md := md ++ js "---\n\n"
    markdownLoop toStr self.messages md
  else if format = js "text" then
    let text := self.title ++ js "\n"
    let text := text ++ (js "Created: " ++ toLocaleString self.createdAt ++ js "\n")
    let text := text ++ (js "Updated: " ++ toLocaleString self.updatedAt ++ js "\n\n")
    let text := text ++ (List.replicate 50 61 ++ js "\n\n")
    textLoop toStr self.messages text
  else stringify self.toJSON none

/-- A date formatter for the examples: the decimal digits of the time. -/
def exampleDate (t : Nat) : JSString := natToJS t

/-! ## `ProjectManager`: create, call sequences -/

/-- The `data` argument of `new Project(data)`: every property may be missing. -/
structure ProjectData where
  id : Option JSString := none
  name : Option JSString := none
  description : Option JSString := none
  color : Option JSString := none
  icon : Option JSString := none
  createdAt : Option Nat := none
  updatedAt : Option Nat := none
  metadata : Option JSObject := none

/-- Model of `Project.generateId()`. -/
def Project.generateId (now : Nat) (rand : JSString) : JSString :=
  js "project_" ++ natToJS now ++ js "_" ++ rand

/-- Model of `new Project(data)`. One reading `now` of `Date.now()` serves the
whole call. -/
def Project.new (data : ProjectData) (now : Nat) (rand : JSString) : Project where
  id := strOr data.id (Project.generateId now rand)
  name := strOr data.name (js "New Project")
  description := strOr data.description []
  color := strOr data.color (js "#6366f1")
  icon := strOr data.icon (js "📁")
  createdAt := natOr data.createdAt now
  updatedAt := natOr data.updatedAt now
  metadata := data.metadata.getD []

/-- Model of `ProjectManager.createProject(data = {})`. -/
def ProjectManager.createProject (self : ProjectManager) (db : Database) (data : ProjectData)
    (now : Nat) (rand : JSString) : ProjectManager × Database :=
  let project := Project.new data now rand
  ({ self with projects := JSMap.set self.projects project.id project },
    { db with projects := Store.put db.projects project.id project })

/-- Every project of the manager is stored under its own id, each key once. -/
def ProjectManager.KeyedById (pjm : ProjectManager) : Prop :=
  (JSMap.keys pjm.projects).Nodup ∧ ∀ e ∈ pjm.projects, e.2.id = e.1

instance (pjm : ProjectManager) : Decidable pjm.KeyedById := by
  unfold ProjectManager.KeyedById
  exact inferInstance

/-- A call of `createProject`, `updateProject` or `deleteProject`, with its
arguments and the readings of the clock and of the random source it makes;
`chatManager` is the state of the chat manager passed to `deleteProject`. -/
inductive ProjectOp where
  | createProject (data : ProjectData) (now : Nat) (rand : JSString) : ProjectOp
  | updateProject (id : JSString) (updates : ProjectPatch) (now : Nat) : ProjectOp
  | deleteProject (id : JSString) (deleteChats : Bool) (chatManager : Option ChatManager)
      (now : Nat → Nat) (rand : Nat → JSString) : ProjectOp

/-- The project manager and the database after a call, whether it returned or
threw. -/
def ProjectManager.step (st : ProjectManager × Database) :
    ProjectOp → ProjectManager × Database
  | ProjectOp.createProject data now rand => st.1.createProject st.2 data now rand
  | ProjectOp.updateProject id updates now => (st.1.updateProject st.2 id updates now).state
  | ProjectOp.deleteProject id deleteChats chatManager now rand =>
    ((st.1.deleteProject st.2 id deleteChats chatManager now rand).state.projectManager,
      (st.1.deleteProject st.2 id deleteChats chatManager now rand).state.db)

/-- The state after a sequence of calls. -/
def ProjectManager.run (st : ProjectManager × Database) (ops : List ProjectOp) :
    ProjectManager × Database :=
  ops.foldl ProjectManager.step st

/-- Whether a call leaves the `id` field of every project alone: every call but
an `updateProject` whose patch has an `id` property. -/
def ProjectOp.keepsId : ProjectOp → Bool
  | ProjectOp.updateProject _ updates _ => updates.id.isNone
  | _ => true

/-- Whether `typeof v === 'string'`. -/
def JSValue.isString : JSValue → Bool
  | JSValue.str _ => true
  | _ => false

/-- The condition of the specification for a chat to match a query: the
lower-cased title, or the lower-cased content of one of the messages, contains
the lower-cased query. -/
def specSearchMatch (toLowerCase : JSString → JSString) (query : JSString) (chat : Chat) : Bool :=
  includes (toLowerCase chat.title) (toLowerCase query) ||
    chat.messages.any (fun m =>
      match m.get (js "content") with
      | JSValue.str s => includes (toLowerCase s) (toLowerCase query)
      | _ => false)

/-- A chat manager with three chats: `a` titled `Hello World`, `b` with the
messages `say HELLO` and `Sure`, and `c` with a system message. -/
def exampleChats : ChatManager :=
  ⟨[(js "a", Chat.new
        { id := some (js "a"), title := some (js "Hello World"),
          createdAt := some 5, updatedAt := some 10 } 1 []),
    (js "b", Chat.new
        { id := some (js "b"), title := some (js "Other"),
          messages := some
            [[(js "role", JSValue.str (js "user")), (js "content", JSValue.str (js "say HELLO"))],
             [(js "role", JSValue.str (js "assistant")), (js "content", JSValue.str (js "Sure"))]],
          createdAt := some 7, updatedAt := some 30 } 1 []),
    (js "c", Chat.new
        { id := some (js "c"), title := some (js "None"),
          messages := some
            [[(js "role", JSValue.str (js "system")),
              (js "content", JSValue.str (js "Be brief"))]],
          createdAt := some 3, updatedAt := some 20 } 1 [])], none⟩

/-! ## The export formats as the specification writes them -/

/-- The section of a message in the `markdown` export of the specification:
`### label`, a blank line, the content, a blank line. -/
def specMarkdownSection (toStr : JSValue → JSString) (msg : JSObject) : JSString :=
  js "### " ++ (if isUserMessage msg then js "👤 User" else js "🤖 Assistant") ++ js "\n\n" ++
    toStr (msg.get (js "content")) ++ js "\n\n"

/-- The `markdown` export of the specification: the header and the sections of
the non-system messages in list order. -/
def specExportMarkdown (date : Nat → JSString) (toStr : JSValue → JSString) (chat : Chat) :
    JSString :=
  js "# " ++ chat.title ++ js "\n\nCreated: " ++ date chat.createdAt ++ js "\nUpdated: " ++
    date chat.updatedAt ++ js "\n\n---\n\n" ++
    ((chat.messages.filter (fun m => !isSystemMessage m)).map
      (specMarkdownSection toStr)).flatten

/-- The section of a message in the `text` export of the specification. -/
def specTextSection (toStr : JSValue → JSString) (msg : JSObject) : JSString :=
  (if isUserMessage msg then js "User" else js "Assistant") ++ js ":\n" ++
    toStr (msg.get (js "content")) ++ js "\n\n" ++ List.replicate 50 45 ++ js "\n\n"

/-- The `text` export of the specification: the header and the sections of the
non-system messages in list order. -/
def specExportText (date : Nat → JSString) (toStr : JSValue → JSString) (chat : Chat) :
    JSString :=
  chat.title ++ js "\nCreated: " ++ date chat.createdAt ++ js "\nUpdated: " ++
    date chat.updatedAt ++ js "\n\n" ++ List.replicate 50 61 ++ js "\n\n" ++
    ((chat.messages.filter (fun m => !isSystemMessage m)).map (specTextSection toStr)).flatten

/-! ## Lemmas on line splitting -/

theorem splitNewline_ne_nil (s : JSString) : splitNewline s ≠ [] := by
  induction s with
  | nil => simp [splitNewline]
  | cons c cs ih =>
    unfold splitNewline
    split
    · simp
    · split <;> simp

theorem splitNewline_cons_lf (cs : JSString) :
    splitNewline (10 :: cs) = [] :: splitNewline cs := by
  simp [splitNewline]

theorem splitNewline_cons_ne (c : Nat) (cs : JSString) (hc : c ≠ 10) :
    ∃ l ls, splitNewline cs = l :: ls ∧ splitNewline (c :: cs) = (c :: l) :: ls := by
  cases h : splitNewline cs with
  | nil => exact absurd h (splitNewline_ne_nil cs)
  | cons l ls =>
    refine ⟨l, ls, rfl, ?_⟩
    rw [splitNewline, if_neg hc, h]

theorem splitNewline_no_lf (l : JSString) (h : 10 ∉ l) : splitNewline l = [l] := by
  induction l with
  | nil => rfl
  | cons c cs ih =>
    have hc : c ≠ 10 := fun e => h (by simp [e])
    have hcs : 10 ∉ cs := fun e => h (by simp [e])
    obtain ⟨l, ls, h1, h2⟩ := splitNewline_cons_ne c cs hc
    rw [ih hcs] at h1
    cases h1
    exact h2

/-- Splitting distributes over a line feed. -/
theorem splitNewline_append_lf (a b : JSString) :
    splitNewline (a ++ 10 :: b) = splitNewline a ++ splitNewline b := by
  induction a with
  | nil => simp [splitNewline]
  | cons c cs ih =>
    by_cases hc : c = 10
    · subst hc
      simp [splitNewline_cons_lf, ih]
    · obtain ⟨l, ls, h1, h2⟩ := splitNewline_cons_ne c cs hc
      obtain ⟨l2, ls2, h3, h4⟩ := splitNewline_cons_ne c (cs ++ 10 :: b) hc
      rw [List.cons_append, h4, h2]
      rw [ih, h1] at h3
      simp at h3
      simp [h3.1, h3.2]

theorem mem_splitNewline_no_lf (s l : JSString) (h : l ∈ splitNewline s) : 10 ∉ l := by
  induction s generalizing l with
  | nil =>
    simp [splitNewline] at h
    simp [h]
  | cons c cs ih =>
    by_cases hc : c = 10
    · subst hc
      rw [splitNewline_cons_lf] at h
      rcases List.mem_cons.1 h with h | h
      · simp [h]
      · exact ih l h
    · obtain ⟨l1, ls, h1, h2⟩ := splitNewline_cons_ne c cs hc
      rw [h2] at h
      rcases List.mem_cons.1 h with h | h
      · subst h
        have := ih l1 (by simp [h1])
        intro hm
        rcases List.mem_cons.1 hm with e | e
        · exact hc e.symm
        · exact this e
      · exact ih l (by simp [h1, h])

theorem splitNewline_eq_complete_carry (s : JSString) :
    splitNewline s = completeLines s ++ [carryOver s] := by
  unfold completeLines carryOver
  have h := splitNewline_ne_nil s
  rw [List.getLast?_eq_getLast _ h]
  simp [List.dropLast_append_getLast]

theorem carryOver_no_lf (s : JSString) : 10 ∉ carryOver s := by
  apply mem_splitNewline_no_lf s
  rw [splitNewline_eq_complete_carry s]
  simp

/-- Splitting a text continued by more text: the complete lines stay, the
carry-over is continued. -/
theorem splitNewline_append (a b : JSString) :
    splitNewline (a ++ b) = completeLines a ++ splitNewline (carryOver a ++ b) := by
  induction a with
  | nil => simp [completeLines, carryOver, splitNewline]
  | cons c cs ih =>
    by_cases hc : c = 10
    · subst hc
      have e1 : completeLines (10 :: cs) = [] :: completeLines cs := by
        unfold completeLines
        rw [splitNewline_cons_lf]
        cases h : splitNewline cs with
        | nil => exact absurd h (splitNewline_ne_nil cs)
        | cons l ls => simp
      have e2 : carryOver (10 :: cs) = carryOver cs := by
        unfold carryOver
        rw [splitNewline_cons_lf]
        cases h : splitNewline cs with
        | nil => exact absurd h (splitNewline_ne_nil cs)
        | cons l ls => simp [List.getLast?_cons_cons]
      rw [List.cons_append, splitNewline_cons_lf, ih, e1, e2]
      simp
    · obtain ⟨l, ls, h1, h2⟩ := splitNewline_cons_ne c cs hc
      obtain ⟨l2, ls2, h3, h4⟩ := splitNewline_cons_ne c (cs ++ b) hc
      rw [List.cons_append, h4]
      rw [ih] at h3
      cases ls with
      | nil =>
        have ec : completeLines cs = [] := by simp [completeLines, h1]
        have ek : carryOver cs = l := by simp [carryOver, h1]
        have ec2 : completeLines (c :: cs) = [] := by simp [completeLines, h2]
        have ek2 : carryOver (c :: cs) = c :: l := by simp [carryOver, h2]
        rw [ec, ek] at h3
        rw [ec2, ek2]
        obtain ⟨l3, ls3, h5, h6⟩ := splitNewline_cons_ne c (l ++ b) hc
        simp at h3
        rw [h3] at h5
        cases h5
        simpa using h6.symm
      | cons m ms =>
        have ec : completeLines cs = l :: (m :: ms).dropLast := by simp [completeLines, h1]
        have ek : carryOver cs = (m :: ms).getLast?.getD [] := by
          simp [carryOver, h1, List.getLast?_cons_cons]
        have ec2 : completeLines (c :: cs) = (c :: l) :: (m :: ms).dropLast := by
          simp [completeLines, h2]
        have ek2 : carryOver (c :: cs) = (m :: ms).getLast?.getD [] := by
          simp [carryOver, h2, List.getLast?_cons_cons]
        rw [ec] at h3
        rw [ec2, ek2, ← ek]
        simp at h3
        simp [h3.1, h3.2]

theorem completeLines_append (a b : JSString) :
    completeLines (a ++ b) = completeLines a ++ completeLines (carryOver a ++ b) := by
  unfold completeLines
  rw [splitNewline_append a b]
  rw [List.dropLast_append_of_ne_nil _ (splitNewline_ne_nil _)]
  rfl

theorem carryOver_append (a b : JSString) :
    carryOver (a ++ b) = carryOver (carryOver a ++ b) := by
  unfold carryOver
  rw [splitNewline_append a b]
  rw [List.getLast?_append_of_ne_nil _ (splitNewline_ne_nil _)]
  rfl

/-- The loop yields what the complete lines of the whole remaining text yield. -/
theorem readLoop_eq (parse : JSString → Option JSValue) (requestFormat : JSString)
    (chunks : List JSString) (buffer : JSString) (hb : 10 ∉ buffer) :
    readLoop parse requestFormat buffer chunks =
      (completeLines (buffer ++ chunks.flatten)).flatMap (processLine parse requestFormat) := by
  induction chunks generalizing buffer with
  | nil =>
    simp [readLoop, completeLines, splitNewline_no_lf buffer hb]
  | cons chunk rest ih =>
    have hc : 10 ∉ carryOver (buffer ++ chunk) := carryOver_no_lf _
    have step : readLoop parse requestFormat buffer (chunk :: rest) =
        (completeLines (buffer ++ chunk)).flatMap (processLine parse requestFormat) ++
          readLoop parse requestFormat (carryOver (buffer ++ chunk)) rest := rfl
    have e : buffer ++ (chunk :: rest).flatten = (buffer ++ chunk) ++ rest.flatten := by simp
    rw [step, ih _ hc, e, completeLines_append (buffer ++ chunk)]
    simp

/-- The decoder yields what the complete lines of the concatenated chunks
yield, line by line. -/
theorem streamResponse_eq (parse : JSString → Option JSValue) (p : Provider)
    (chunks : List JSString) :
    p.streamResponse parse chunks =
      (completeLines chunks.flatten).flatMap (processLine parse p.requestFormat) := by
  unfold Provider.streamResponse
  rw [readLoop_eq parse p.requestFormat chunks [] (by simp)]
  simp

/-! ## Lemmas on the decoder -/

theorem js_data_units : js "data: " = [100, 97, 116, 97, 58, 32] := by decide

theorem carryOver_nil : carryOver [] = [] := rfl

theorem completeLines_nil : completeLines [] = [] := rfl

/-- At a line boundary nothing is carried over. -/
theorem carryOver_of_boundary (before : JSString)
    (hb : before = [] ∨ before.getLast? = some 10) : carryOver before = [] := by
  rcases hb with hb | hb
  · subst hb
    rfl
  · obtain ⟨init, rfl⟩ : ∃ init, before = init ++ [10] := by
      rcases List.eq_nil_or_concat before with h | ⟨init, x, h⟩
      · subst h
        simp at hb
      · subst h
        simp at hb
        exact ⟨init, by simp [hb]⟩
    unfold carryOver
    rw [splitNewline_append_lf]
    simp [splitNewline]

theorem completeLines_of_boundary (before rest : JSString)
    (hb : before = [] ∨ before.getLast? = some 10) :
    completeLines (before ++ rest) = completeLines before ++ completeLines rest := by
  rw [completeLines_append, carryOver_of_boundary before hb]
  rfl

theorem completeLines_line (line rest : JSString) (hl : 10 ∉ line) :
    completeLines (line ++ 10 :: rest) = line :: completeLines rest := by
  unfold completeLines
  rw [splitNewline_append_lf, splitNewline_no_lf line hl]
  rw [List.dropLast_append_of_ne_nil _ (splitNewline_ne_nil _)]
  rfl

/-- A line that is blank, the sentinel, not a data line or not parseable yields
nothing. -/
theorem processLine_skipped (parse : JSString → Option JSValue) (requestFormat line : JSString)
    (h : trim line = [] ∨ trim line = js "data: [DONE]" ∨
      startsWith (trim line) (js "data: ") = false ∨ parse ((trim line).drop 6) = none) :
    processLine parse requestFormat line = [] := by
  unfold processLine
  rcases h with h | h | h | h
  · simp [h]
  · simp [h]
  · simp [h]
  · simp only [h]
    split <;> simp

/-- A data line whose record parses yields the extracted value when it is
truthy. -/
theorem processLine_data (parse : JSString → Option JSValue) (requestFormat line jsonStr : JSString)
    (data : JSValue) (hdone : parse (js "[DONE]") = none)
    (ht : trim line = js "data: " ++ jsonStr) (hp : parse jsonStr = some data) :
    processLine parse requestFormat line =
      match extractContent requestFormat data with
      | none => []
      | some content => if content.truthy then [content] else [] := by
  have hne : jsonStr ≠ js "[DONE]" := by
    intro e
    rw [e, hdone] at hp
    cases hp
  have h1 : (js "data: " ++ jsonStr).isEmpty = false := by
    rw [js_data_units]
    rfl
  have h2 : (js "data: " ++ jsonStr == js "data: [DONE]") = false := by
    have e : js "data: [DONE]" = js "data: " ++ js "[DONE]" := by decide
    rw [e]
    simpa using hne
  have h3 : startsWith (js "data: " ++ jsonStr) (js "data: ") = true := by
    simp [startsWith]
  have h4 : (js "data: " ++ jsonStr).drop 6 = jsonStr := by
    rw [js_data_units]
    rfl
  unfold processLine
  simp only [ht, h1, h2, h3, h4, hp, Bool.or_self, Bool.false_eq_true, if_false, if_true]

/-- Every value a line yields is truthy. -/
theorem processLine_truthy (parse : JSString → Option JSValue) (requestFormat line : JSString)
    (v : JSValue) (hv : v ∈ processLine parse requestFormat line) : v.truthy = true := by
  unfold processLine at hv
  simp only at hv
  split at hv
  · simp at hv
  · split at hv
    · split at hv
      · simp at hv
      · split at hv
        · simp at hv
        · split at hv
          · rename_i h
            simp at hv
            rw [hv]
            exact h
          · simp at hv
    · simp at hv

/-- A stream made of one newline-terminated line yields what the line yields. -/
theorem streamResponse_single_line (parse : JSString → Option JSValue) (p : Provider)
    (line : JSString) (hl : 10 ∉ line) :
    p.streamResponse parse [line ++ [10]] = processLine parse p.requestFormat line := by
  rw [streamResponse_eq]
  have e : [line ++ [10]].flatten = line ++ 10 :: [] := by simp
  rw [e, completeLines_line line [] hl, completeLines_nil]
  simp

/-! ## Lemmas on field paths -/

theorem JSObject.get_of_find? (o : JSObject) (k : JSString) (v : JSValue)
    (h : JSObject.find? o k = some v) : JSObject.get o k = v := by
  induction o with
  | nil => simp [JSObject.find?] at h
  | cons kv rest ih =>
    obtain ⟨k1, v1⟩ := kv
    unfold JSObject.find? at h
    unfold JSObject.get
    split at h
    · rename_i hk
      simp [hk]
      exact Option.some.inj h
    · rename_i hk
      simp [hk]
      exact ih h

/-- A `.name` step of a spec path is what `?.name` reads. -/
theorem specField_key (k : JSString) (rest : List PathStep) (v r : JSValue)
    (h : specField (PathStep.key k :: rest) v = some r) :
    v.nullish = false ∧ specField rest (v.optDot k) = some r := by
  cases v with
  | obj props =>
    refine ⟨rfl, ?_⟩
    simp only [specField] at h
    cases hf : JSObject.find? props k with
    | none => simp [hf] at h
    | some w =>
      simp [hf] at h
      simp [JSValue.optDot, JSValue.nullish, JSValue.member, JSObject.get_of_find? props k w hf, h]
  | _ => simp [specField] at h

/-- A `[0]` step of a spec path is what `?.[0]` reads. -/
theorem specField_index0 (rest : List PathStep) (v r : JSValue)
    (h : specField (PathStep.index 0 :: rest) v = some r) :
    specField rest v.optIndex0 = some r := by
  cases v with
  | arr items =>
    cases items with
    | nil => simp [specField] at h
    | cons x xs => simpa [specField, JSValue.optIndex0] using h
  | _ => simp [specField] at h

theorem specField_nil (v r : JSValue) (h : specField [] v = some r) : v = r := by
  simpa [specField] using h

theorem dot_of_not_nullish (v : JSValue) (k : JSString) (h : v.nullish = false) :
    v.dot k = some (v.optDot k) := by
  simp [JSValue.dot, JSValue.optDot, h]

theorem extractContent_choices (requestFormat : JSString) (data : JSValue) (s : JSString)
    (ha : requestFormat ≠ js "anthropic") (hg : requestFormat ≠ js "google")
    (h : specField [PathStep.key (js "choices"), PathStep.index 0, PathStep.key (js "delta"),
      PathStep.key (js "content")] data = some (JSValue.str s)) :
    extractContent requestFormat data = some (JSValue.str s) := by
  obtain ⟨n1, h1⟩ := specField_key _ _ _ _ h
  have h2 := specField_index0 _ _ _ h1
  obtain ⟨_, h3⟩ := specField_key _ _ _ _ h2
  obtain ⟨_, h4⟩ := specField_key _ _ _ _ h3
  have h5 := specField_nil _ _ h4
  unfold extractContent
  simp only [ha, hg, if_false, dot_of_not_nullish data _ n1, Option.map_some', h5]
  split <;> rfl

theorem extractContent_anthropic (data : JSValue) (s : JSString)
    (ht : specField [PathStep.key (js "type")] data = some (JSValue.str (js "content_block_delta")))
    (h : specField [PathStep.key (js "delta"), PathStep.key (js "text")] data =
      some (JSValue.str s)) :
    extractContent (js "anthropic") data = some (JSValue.str s) := by
  obtain ⟨n1, h1⟩ := specField_key _ _ _ _ h
  obtain ⟨_, h2⟩ := specField_key _ _ _ _ h1
  have h3 := specField_nil _ _ h2
  obtain ⟨_, t1⟩ := specField_key _ _ _ _ ht
  have t2 := specField_nil _ _ t1
  have e : js "anthropic" ≠ js "openai" := by decide
  unfold extractContent
  simp only [e, if_false, if_true, dot_of_not_nullish data _ n1, Option.some_bind, t2, h3,
    JSValue.isStr, beq_self_eq_true, Option.map_some']

theorem extractContent_anthropic_other (props : JSObject)
    (ht : (JSObject.get props (js "type")).isStr (js "content_block_delta") = false) :
    extractContent (js "anthropic") (JSValue.obj props) = some JSValue.null := by
  have e : js "anthropic" ≠ js "openai" := by decide
  have n1 : (JSValue.obj props).nullish = false := rfl
  have m : (JSValue.obj props).optDot (js "type") = JSObject.get props (js "type") := rfl
  unfold extractContent
  simp [e, dot_of_not_nullish _ _ n1, m, ht]

theorem extractContent_google (data : JSValue) (s : JSString)
    (h : specField [PathStep.key (js "candidates"), PathStep.index 0, PathStep.key (js "content"),
      PathStep.key (js "parts"), PathStep.index 0, PathStep.key (js "text")] data =
      some (JSValue.str s)) :
    extractContent (js "google") data = some (JSValue.str s) := by
  obtain ⟨n1, h1⟩ := specField_key _ _ _ _ h
  have h2 := specField_index0 _ _ _ h1
  obtain ⟨_, h3⟩ := specField_key _ _ _ _ h2
  obtain ⟨_, h4⟩ := specField_key _ _ _ _ h3
  have h5 := specField_index0 _ _ _ h4
  obtain ⟨_, h6⟩ := specField_key _ _ _ _ h5
  have h7 := specField_nil _ _ h6
  have e1 : js "google" ≠ js "openai" := by decide
  have e2 : js "google" ≠ js "anthropic" := by decide
  unfold extractContent
  simp only [e1, e2, if_false, if_true, dot_of_not_nullish data _ n1, Option.map_some', h7]

/-! ## Lemmas on objects -/

namespace JSObject

theorem get_set_self (o : JSObject) (k : JSString) (v : JSValue) : (o.set k v).get k = v := by
  induction o with
  | nil => simp [set, get]
  | cons kv rest ih =>
    obtain ⟨k1, v1⟩ := kv
    by_cases h : k1 = k
    · simp [set, get, h]
    · simp [set, get, h, ih]

theorem get_set_ne (o : JSObject) (k k2 : JSString) (v : JSValue) (hk : k ≠ k2) :
    (o.set k v).get k2 = o.get k2 := by
  induction o with
  | nil => simp [set, get, hk]
  | cons kv rest ih =>
    obtain ⟨k1, v1⟩ := kv
    by_cases h : k1 = k
    · subst h
      simp [set, get, hk]
    · by_cases h2 : k1 = k2
      · subst h2
        simp [set, get, h]
      · simp [set, get, h, h2, ih]

theorem has_set (o : JSObject) (k k2 : JSString) (v : JSValue) :
    (o.set k v).has k2 = (decide (k = k2) || o.has k2) := by
  induction o with
  | nil => simp [set, has]
  | cons kv rest ih =>
    obtain ⟨k1, v1⟩ := kv
    by_cases h : k1 = k
    · subst h
      by_cases h2 : k1 = k2 <;> simp [set, has, h2]
    · by_cases h2 : k1 = k2
      · subst h2
        simp [set, has, h]
      · simp [set, has, h, h2, ih]

theorem has_iff_mem_keys (o : JSObject) (k : JSString) : o.has k = true ↔ k ∈ o.keys := by
  induction o with
  | nil => simp [has, keys]
  | cons kv rest ih =>
    obtain ⟨k1, v1⟩ := kv
    by_cases h : k1 = k
    · simp [has, keys, h]
    · have h2 : ¬ k = k1 := fun e => h e.symm
      simp only [has, h, if_false, ih]
      simp [keys, h2]

theorem set_of_not_has (o : JSObject) (k : JSString) (v : JSValue) (h : o.has k = false) :
    o.set k v = o ++ [(k, v)] := by
  induction o with
  | nil => rfl
  | cons kv rest ih =>
    obtain ⟨k1, v1⟩ := kv
    by_cases h1 : k1 = k
    · simp [has, h1] at h
    · simp [has, h1] at h
      simp [set, h1, ih h]

theorem keys_set (o : JSObject) (k : JSString) (v : JSValue) :
    (o.set k v).keys = if o.has k then o.keys else o.keys ++ [k] := by
  induction o with
  | nil => simp [set, has, keys]
  | cons kv rest ih =>
    obtain ⟨k1, v1⟩ := kv
    by_cases h1 : k1 = k
    · simp [set, has, keys, h1]
    · have e : keys (set rest k v) = if has rest k = true then keys rest else keys rest ++ [k] := ih
      simp only [set, has, h1, if_false]
      unfold keys at e ⊢
      rw [List.map_cons, e]
      split <;> simp

theorem set_set_same (o : JSObject) (k : JSString) (v w : JSValue) :
    (o.set k v).set k w = o.set k w := by
  induction o with
  | nil => simp [set]
  | cons kv rest ih =>
    obtain ⟨k1, v1⟩ := kv
    by_cases h1 : k1 = k
    · simp [set, h1]
    · simp [set, h1, ih]

theorem set_comm_of_has (o : JSObject) (k k2 : JSString) (v w : JSValue) (hk : k ≠ k2)
    (h : o.has k = true) : (o.set k v).set k2 w = (o.set k2 w).set k v := by
  induction o with
  | nil => simp [has] at h
  | cons kv rest ih =>
    obtain ⟨k1, v1⟩ := kv
    by_cases h1 : k1 = k
    · subst h1
      simp [set, hk]
    · simp [has, h1] at h
      by_cases h2 : k1 = k2
      · subst h2
        simp [set, h1]
      · simp [set, h1, h2, ih h]

theorem spread_cons (t : JSObject) (kv : JSString × JSValue) (s : JSObject) :
    spread t (kv :: s) = spread (t.set kv.1 kv.2) s := rfl

theorem has_spread (t s : JSObject) (k : JSString) :
    (spread t s).has k = (t.has k || s.has k) := by
  induction s generalizing t with
  | nil => simp [spread, has]
  | cons kv rest ih =>
    obtain ⟨k1, v1⟩ := kv
    rw [spread_cons, ih, has_set]
    by_cases h : k1 = k <;> simp [has, h, Bool.or_comm]

theorem get_spread_of_not_has (t s : JSObject) (k : JSString) (h : s.has k = false) :
    (spread t s).get k = t.get k := by
  induction s generalizing t with
  | nil => rfl
  | cons kv rest ih =>
    obtain ⟨k1, v1⟩ := kv
    by_cases h1 : k1 = k
    · simp [has, h1] at h
    · simp [has, h1] at h
      rw [spread_cons, ih _ h, get_set_ne _ _ _ _ h1]

theorem get_spread_of_has (t s : JSObject) (k : JSString) (hnd : s.keys.Nodup)
    (h : s.has k = true) : (spread t s).get k = s.get k := by
  induction s generalizing t with
  | nil => simp [has] at h
  | cons kv rest ih =>
    obtain ⟨k1, v1⟩ := kv
    have hnd2 : k1 ∉ keys rest ∧ (keys rest).Nodup := by
      simpa [keys] using hnd
    by_cases h1 : k1 = k
    · subst h1
      have hr : has rest k1 = false := by
        cases hh : has rest k1 with
        | false => rfl
        | true => exact absurd ((has_iff_mem_keys rest k1).1 hh) hnd2.1
      rw [spread_cons, get_spread_of_not_has _ _ _ hr, get_set_self]
      simp [get]
    · simp [has, h1] at h
      rw [spread_cons, ih _ hnd2.2 h]
      simp [get, h1]

theorem spread_override (t s : JSObject) (k : JSString) (v : JSValue)
    (ht : t.has k = true) (hs : s.has k = true) : spread (t.set k v) s = spread t s := by
  induction s generalizing t with
  | nil => simp [has] at hs
  | cons kv rest ih =>
    obtain ⟨k1, v1⟩ := kv
    rw [spread_cons, spread_cons]
    by_cases h1 : k1 = k
    · subst h1
      rw [set_set_same]
    · simp [has, h1] at hs
      have hk : k ≠ k1 := fun e => h1 e.symm
      show spread ((t.set k v).set k1 v1) rest = spread (t.set k1 v1) rest
      rw [set_comm_of_has t k k1 v v1 hk ht]
      apply ih _ _ hs
      rw [has_set]
      simp [ht]

theorem spread_eq_append (t s : JSObject) (hnd : (t.keys ++ s.keys).Nodup) :
    spread t s = t ++ s := by
  induction s generalizing t with
  | nil => simp [spread]
  | cons kv rest ih =>
    obtain ⟨k1, v1⟩ := kv
    have hk : t.has k1 = false := by
      cases hh : has t k1 with
      | false => rfl
      | true =>
        have hm := (has_iff_mem_keys t k1).1 hh
        rw [List.nodup_append] at hnd
        exact (hnd.2.2 hm (by simp [keys])).elim
    rw [spread_cons, set_of_not_has t k1 v1 hk, ih]
    · simp
    · have e : keys (t ++ [(k1, v1)]) ++ keys rest = keys t ++ keys ((k1, v1) :: rest) := by
        simp [keys]
      rw [e]
      exact hnd

/-- Copying an object into a fresh one gives the same object. -/
theorem spread_nil (s : JSObject) (hnd : s.keys.Nodup) : spread [] s = s := by
  rw [spread_eq_append [] s (by simpa [keys] using hnd)]
  rfl

theorem nodup_keys_set (o : JSObject) (k : JSString) (v : JSValue) (h : o.keys.Nodup) :
    (o.set k v).keys.Nodup := by
  rw [keys_set]
  cases hh : o.has k with
  | true => simpa using h
  | false =>
    have hm : k ∉ o.keys := fun hm => by
      rw [(has_iff_mem_keys o k).2 hm] at hh
      cases hh
    simp only [Bool.false_eq_true, if_false]
    rw [List.nodup_append]
    refine ⟨h, by simp, ?_⟩
    intro a ha hb
    rw [List.mem_singleton] at hb
    exact hm (hb ▸ ha)

theorem nodup_keys_spread (t s : JSObject) (h : t.keys.Nodup) : (spread t s).keys.Nodup := by
  induction s generalizing t with
  | nil => exact h
  | cons kv rest ih =>
    rw [spread_cons]
    exact ih _ (nodup_keys_set t kv.1 kv.2 h)

theorem get_undefined_of_not_has (o : JSObject) (k : JSString) (h : o.has k = false) :
    (o.get k).isUndefined = true := by
  induction o with
  | nil => rfl
  | cons kv rest ih =>
    obtain ⟨k1, v1⟩ := kv
    by_cases h1 : k1 = k
    · simp [has, h1] at h
    · simp [has, h1] at h
      simp [get, h1, ih h]

end JSObject

/-! ## Properties of `Provider.streamResponse` -/

/-- C1: `streamResponse` is independent of chunk boundaries. For every parser,
every provider (hence every request format) and every two chunk sequences with
the same concatenation, the yielded sequences are equal; and under the openai
format the two chunks `data: {"choices":[{"delta":{"content":"Hel` and
`lo"}}]}\n\n` yield exactly the one delta `"Hello"`. -/
theorem streamResponse_chunk_boundary_independent :
    (∀ (parse : JSString → Option JSValue) (p : Provider) (chunks₁ chunks₂ : List JSString),
      chunks₁.flatten = chunks₂.flatten →
      p.streamResponse parse chunks₁ = p.streamResponse parse chunks₂) ∧
    (∀ p : Provider, p.requestFormat = js "openai" →
      p.streamResponse jsonParse
        [js "data: \x7b\"choices\":[\x7b\"delta\":\x7b\"content\":\"Hel",
         js "lo\"\x7d\x7d]\x7d\n\n"] = [JSValue.str (js "Hello")]) := by
  constructor
  · intro parse p chunks₁ chunks₂ h
    rw [streamResponse_eq, streamResponse_eq, h]
  · intro p hp
    unfold Provider.streamResponse
    rw [hp]
    rfl

/-- Witness for C1: the split frame and the same frame in one chunk yield the
same deltas, namely `"Hello"`. -/
theorem streamResponse_chunk_boundary_independent_witness :
    (exampleProvider (js "openai")).streamResponse jsonParse
        [js "data: \x7b\"choices\":[\x7b\"delta\":\x7b\"content\":\"Hel",
         js "lo\"\x7d\x7d]\x7d\n\n"] =
      (exampleProvider (js "openai")).streamResponse jsonParse
        [js "data: \x7b\"choices\":[\x7b\"delta\":\x7b\"content\":\"Hello\"\x7d\x7d]\x7d\n\n"] ∧
    (exampleProvider (js "openai")).streamResponse jsonParse
        [js "data: \x7b\"choices\":[\x7b\"delta\":\x7b\"content\":\"Hel",
         js "lo\"\x7d\x7d]\x7d\n\n"] = [JSValue.str (js "Hello")] :=
  ⟨streamResponse_chunk_boundary_independent.1 jsonParse (exampleProvider (js "openai")) _ _
      (by decide),
    streamResponse_chunk_boundary_independent.2 (exampleProvider (js "openai")) rfl⟩

/-- C2: inserting, at a line boundary of the stream text, a complete line that
after trimming is blank, is exactly `data: [DONE]`, does not start with
`data: `, or is `data: ` followed by text the parser rejects, leaves the yielded
sequence unchanged, for every parser, provider and chunking. With the reference
parser `{not valid json}` is rejected, and the line `data: {not valid json}`
followed by a valid delta line yields only the valid delta. -/
theorem streamResponse_skipped_line_insertion :
    (∀ (parse : JSString → Option JSValue) (p : Provider) (before after line : JSString)
        (chunks₁ chunks₂ : List JSString),
      (before = [] ∨ before.getLast? = some 10) →
      10 ∉ line →
      (trim line = [] ∨ trim line = js "data: [DONE]" ∨
        startsWith (trim line) (js "data: ") = false ∨ parse ((trim line).drop 6) = none) →
      chunks₁.flatten = before ++ after →
      chunks₂.flatten = before ++ (line ++ 10 :: after) →
      p.streamResponse parse chunks₂ = p.streamResponse parse chunks₁) ∧
    jsonParse (js "\x7bnot valid json\x7d") = none ∧
    (∀ p : Provider, p.requestFormat = js "openai" →
      p.streamResponse jsonParse
        [js "data: \x7bnot valid json\x7d\ndata: \x7b\"choices\":[\x7b\"delta\":\x7b\"content\":\"ok\"\x7d\x7d]\x7d\n"] =
        [JSValue.str (js "ok")]) := by
  refine ⟨?_, by rfl, ?_⟩
  · intro parse p before after line chunks₁ chunks₂ hb hl hskip h1 h2
    rw [streamResponse_eq, streamResponse_eq, h1, h2,
      completeLines_of_boundary before _ hb, completeLines_of_boundary before _ hb,
      completeLines_line line after hl]
    simp [processLine_skipped parse p.requestFormat line hskip]
  · intro p hp
    unfold Provider.streamResponse
    rw [hp]
    rfl

/-- Witness for C2: a `data: [DONE]` line inserted between two delta lines. -/
theorem streamResponse_skipped_line_insertion_witness :
    (exampleProvider (js "openai")).streamResponse jsonParse
        [js "data: \x7b\"choices\":[\x7b\"delta\":\x7b\"content\":\"a\"\x7d\x7d]\x7d\n",
         js "data: [DONE]\ndata: \x7b\"choices\":[\x7b\"delta\":\x7b\"content\":\"b\"\x7d\x7d]\x7d\n"] =
      (exampleProvider (js "openai")).streamResponse jsonParse
        [js "data: \x7b\"choices\":[\x7b\"delta\":\x7b\"content\":\"a\"\x7d\x7d]\x7d\n",
         js "data: \x7b\"choices\":[\x7b\"delta\":\x7b\"content\":\"b\"\x7d\x7d]\x7d\n"] :=
  streamResponse_skipped_line_insertion.1 jsonParse (exampleProvider (js "openai"))
    (js "data: \x7b\"choices\":[\x7b\"delta\":\x7b\"content\":\"a\"\x7d\x7d]\x7d\n")
    (js "data: \x7b\"choices\":[\x7b\"delta\":\x7b\"content\":\"b\"\x7d\x7d]\x7d\n")
    (js "data: [DONE]") _ _
    (Or.inr (by decide)) (by decide) (Or.inr (Or.inl (by decide))) (by decide) (by decide)

/-- C3: for a stream made of one newline-terminated line whose trimmed text is
`data: ` followed by a text that parses to the record `J`, `streamResponse`
yields exactly the one delta `s` when the format's text field of `J` is the
non-empty string `s`: `J.choices[0].delta.content` for openai and every format
other than anthropic and google; `J.delta.text` for anthropic when
`J.type` is `"content_block_delta"`, and nothing at all for any other `type`;
`J.candidates[0].content.parts[0].text` for google. -/
theorem streamResponse_single_record
    (parse : JSString → Option JSValue) (p : Provider) (line jsonStr : JSString)
    (J : JSObject) (s : JSString)
    (hdone : parse (js "[DONE]") = none) (hl : 10 ∉ line)
    (ht : trim line = js "data: " ++ jsonStr) (hp : parse jsonStr = some (JSValue.obj J))
    (hs : s ≠ []) :
    (p.requestFormat ≠ js "anthropic" → p.requestFormat ≠ js "google" →
      specField [PathStep.key (js "choices"), PathStep.index 0, PathStep.key (js "delta"),
        PathStep.key (js "content")] (JSValue.obj J) = some (JSValue.str s) →
      p.streamResponse parse [line ++ [10]] = [JSValue.str s]) ∧
    (p.requestFormat = js "anthropic" →
      specField [PathStep.key (js "type")] (JSValue.obj J) =
        some (JSValue.str (js "content_block_delta")) →
      specField [PathStep.key (js "delta"), PathStep.key (js "text")] (JSValue.obj J) =
        some (JSValue.str s) →
      p.streamResponse parse [line ++ [10]] = [JSValue.str s]) ∧
    (p.requestFormat = js "anthropic" →
      (JSObject.get J (js "type")).isStr (js "content_block_delta") = false →
      p.streamResponse parse [line ++ [10]] = []) ∧
    (p.requestFormat = js "google" →
      specField [PathStep.key (js "candidates"), PathStep.index 0, PathStep.key (js "content"),
        PathStep.key (js "parts"), PathStep.index 0, PathStep.key (js "text")] (JSValue.obj J) =
        some (JSValue.str s) →
      p.streamResponse parse [line ++ [10]] = [JSValue.str s]) := by
  have hst : (JSValue.str s).truthy = true := by
    cases s with
    | nil => exact absurd rfl hs
    | cons c cs => rfl
  rw [streamResponse_single_line parse p line hl,
    processLine_data parse p.requestFormat line jsonStr _ hdone ht hp]
  refine ⟨?_, ?_, ?_, ?_⟩
  · intro ha hg h
    rw [extractContent_choices p.requestFormat _ s ha hg h]
    simp [hst]
  · intro hf h1 h2
    rw [hf, extractContent_anthropic _ s h1 h2]
    simp [hst]
  · intro hf h1
    rw [hf, extractContent_anthropic_other J h1]
    rfl
  · intro hf h
    rw [hf, extractContent_google _ s h]
    simp [hst]

/-- Witness for C3: one frame per format, decoded with the reference parser. -/
theorem streamResponse_single_record_witness :
    (exampleProvider (js "openai")).streamResponse jsonParse
        [js "data: \x7b\"choices\":[\x7b\"delta\":\x7b\"content\":\"Hello\"\x7d\x7d]\x7d" ++ [10]] =
      [JSValue.str (js "Hello")] ∧
    (exampleProvider (js "anthropic")).streamResponse jsonParse
        [js "data: \x7b\"type\":\"content_block_delta\",\"delta\":\x7b\"text\":\"Hi\"\x7d\x7d\r" ++ [10]] =
      [JSValue.str (js "Hi")] ∧
    (exampleProvider (js "anthropic")).streamResponse jsonParse
        [js "data: \x7b\"type\":\"message_start\",\"delta\":\x7b\"text\":\"Hi\"\x7d\x7d" ++ [10]] = [] ∧
    (exampleProvider (js "google")).streamResponse jsonParse
        [js "data: \x7b\"candidates\":[\x7b\"content\":\x7b\"parts\":[\x7b\"text\":\"Hey\"\x7d]\x7d\x7d]\x7d" ++ [10]] =
      [JSValue.str (js "Hey")] :=
  ⟨(streamResponse_single_record jsonParse (exampleProvider (js "openai"))
      (js "data: \x7b\"choices\":[\x7b\"delta\":\x7b\"content\":\"Hello\"\x7d\x7d]\x7d")
      (js "\x7b\"choices\":[\x7b\"delta\":\x7b\"content\":\"Hello\"\x7d\x7d]\x7d")
      [(js "choices", JSValue.arr [JSValue.obj [(js "delta",
        JSValue.obj [(js "content", JSValue.str (js "Hello"))])]])]
      (js "Hello") (by rfl) (by decide) (by decide) (by rfl) (by decide)).1
      (by decide) (by decide) (by rfl),
   (streamResponse_single_record jsonParse (exampleProvider (js "anthropic"))
      (js "data: \x7b\"type\":\"content_block_delta\",\"delta\":\x7b\"text\":\"Hi\"\x7d\x7d\r")
      (js "\x7b\"type\":\"content_block_delta\",\"delta\":\x7b\"text\":\"Hi\"\x7d\x7d")
      [(js "type", JSValue.str (js "content_block_delta")),
       (js "delta", JSValue.obj [(js "text", JSValue.str (js "Hi"))])]
      (js "Hi") (by rfl) (by decide) (by decide) (by rfl) (by decide)).2.1
      (by rfl) (by rfl) (by rfl),
   (streamResponse_single_record jsonParse (exampleProvider (js "anthropic"))
      (js "data: \x7b\"type\":\"message_start\",\"delta\":\x7b\"text\":\"Hi\"\x7d\x7d")
      (js "\x7b\"type\":\"message_start\",\"delta\":\x7b\"text\":\"Hi\"\x7d\x7d")
      [(js "type", JSValue.str (js "message_start")),
       (js "delta", JSValue.obj [(js "text", JSValue.str (js "Hi"))])]
      (js "Hi") (by rfl) (by decide) (by decide) (by rfl) (by decide)).2.2.1
      (by rfl) (by rfl),
   (streamResponse_single_record jsonParse (exampleProvider (js "google"))
      (js "data: \x7b\"candidates\":[\x7b\"content\":\x7b\"parts\":[\x7b\"text\":\"Hey\"\x7d]\x7d\x7d]\x7d")
      (js "\x7b\"candidates\":[\x7b\"content\":\x7b\"parts\":[\x7b\"text\":\"Hey\"\x7d]\x7d\x7d]\x7d")
      [(js "candidates", JSValue.arr [JSValue.obj [(js "content",
        JSValue.obj [(js "parts", JSValue.arr [JSValue.obj [(js "text",
          JSValue.str (js "Hey"))]])])]])]
      (js "Hey") (by rfl) (by decide) (by decide) (by rfl) (by decide)).2.2.2
      (by rfl) (by rfl)⟩

/-- Counterexample to C4 as stated: under the openai format the frame
`data: {"choices":[{"delta":{"content":42}}]}` yields the number 42, a delta
that is not a string. -/
theorem streamResponse_yields_number :
    (exampleProvider (js "openai")).streamResponse jsonParse
        [js "data: \x7b\"choices\":[\x7b\"delta\":\x7b\"content\":42\x7d\x7d]\x7d\n"] =
      [JSValue.ofNat 42] ∧
    ∀ s : JSString, JSValue.ofNat 42 ≠ JSValue.str s := by
  refine ⟨by rfl, ?_⟩
  intro s h
  cases h

/-- C4, amended: every value yielded by `streamResponse` is truthy (so a
yielded string is non-empty), for every parser, provider and input; and a
parsed record whose extracted value is falsy (absent, `null`, the empty string,
`false` or zero) yields no delta. -/
theorem streamResponse_yields_truthy :
    (∀ (parse : JSString → Option JSValue) (p : Provider) (chunks : List JSString) (v : JSValue),
      v ∈ p.streamResponse parse chunks →
      v.truthy = true ∧ ∀ s : JSString, v = JSValue.str s → s ≠ []) ∧
    (∀ (parse : JSString → Option JSValue) (p : Provider) (line jsonStr : JSString)
        (data content : JSValue),
      parse (js "[DONE]") = none → 10 ∉ line → trim line = js "data: " ++ jsonStr →
      parse jsonStr = some data → extractContent p.requestFormat data = some content →
      content.truthy = false →
      p.streamResponse parse [line ++ [10]] = []) ∧
    JSValue.undefined.truthy = false ∧ JSValue.null.truthy = false ∧
    (JSValue.str []).truthy = false ∧ (JSValue.bool false).truthy = false ∧
    (JSValue.ofNat 0).truthy = false := by
  refine ⟨?_, ?_, rfl, rfl, rfl, rfl, by decide⟩
  · intro parse p chunks v hv
    rw [streamResponse_eq] at hv
    obtain ⟨line, _, hline⟩ := List.mem_flatMap.1 hv
    have ht := processLine_truthy parse p.requestFormat line v hline
    refine ⟨ht, ?_⟩
    intro s hs e
    subst hs
    subst e
    cases ht
  · intro parse p line jsonStr data content hdone hl ht hp he hf
    rw [streamResponse_single_line parse p line hl,
      processLine_data parse p.requestFormat line jsonStr data hdone ht hp, he]
    simp [hf]

/-- Witness for C4, amended: the delta of a decoded frame is truthy, and frames
whose content is the empty string or `null` yield nothing. -/
theorem streamResponse_yields_truthy_witness :
    ((JSValue.str (js "Hello")).truthy = true ∧
      ∀ s : JSString, JSValue.str (js "Hello") = JSValue.str s → s ≠ []) ∧
    (exampleProvider (js "openai")).streamResponse jsonParse
        [js "data: \x7b\"choices\":[\x7b\"delta\":\x7b\"content\":\"\"\x7d\x7d]\x7d" ++ [10]] = [] :=
  ⟨streamResponse_yields_truthy.1 jsonParse (exampleProvider (js "openai"))
      [js "data: \x7b\"choices\":[\x7b\"delta\":\x7b\"content\":\"Hello\"\x7d\x7d]\x7d\n"]
      (JSValue.str (js "Hello"))
      (by
        have e : (exampleProvider (js "openai")).streamResponse jsonParse
            [js "data: \x7b\"choices\":[\x7b\"delta\":\x7b\"content\":\"Hello\"\x7d\x7d]\x7d\n"] =
            [JSValue.str (js "Hello")] := by rfl
        rw [e]
        exact List.mem_singleton.2 rfl),
   streamResponse_yields_truthy.2.1 jsonParse (exampleProvider (js "openai"))
      (js "data: \x7b\"choices\":[\x7b\"delta\":\x7b\"content\":\"\"\x7d\x7d]\x7d")
      (js "\x7b\"choices\":[\x7b\"delta\":\x7b\"content\":\"\"\x7d\x7d]\x7d")
      (JSValue.obj [(js "choices", JSValue.arr [JSValue.obj [(js "delta",
        JSValue.obj [(js "content", JSValue.str [])])]])])
      (JSValue.str []) (by rfl) (by decide) (by decide) (by rfl) (by rfl) (by rfl)⟩

/-! ## Properties of `Provider.transformRequest` -/

theorem truthy_of_isUndefined (v : JSValue) (h : v.isUndefined = true) : v.truthy = false := by
  cases v <;> first | rfl | simp [JSValue.isUndefined] at h

theorem head_filter_eq_find? (q : JSObject → Bool) (l : List JSObject) :
    (match l.filter q with
      | m :: _ => m.get (js "content")
      | [] => JSValue.undefined) =
    (match l.find? q with
      | some m => m.get (js "content")
      | none => JSValue.undefined) := by
  induction l with
  | nil => rfl
  | cons a rest ih =>
    by_cases h : q a = true
    · simp [List.filter, List.find?, h]
    · have h2 : q a = false := by simpa using h
      simpa [List.filter, List.find?, h2] using ih

/-- C5: for requestFormat anthropic, every message list, model and options,
`transformRequest` returns an object with exactly the properties model,
messages, system, max_tokens and stream (in that order), where messages holds
the input messages whose role is not system, in their original order; system is
the content of the first system-role message of the input, and `undefined`
(omitted on serialisation) when there is none; and max_tokens is 4096 when
options has no max_tokens. -/
theorem transformRequest_anthropic (p : Provider) (messages : List JSObject)
    (model : Option JSString) (options : JSObject) (hf : p.requestFormat = js "anthropic") :
    ∃ body : JSObject,
      p.transformRequest messages model options = JSValue.obj body ∧
      body.keys = [js "model", js "messages", js "system", js "max_tokens", js "stream"] ∧
      body.get (js "messages") =
        JSValue.arr ((messages.filter (fun m => !isSystemMessage m)).map JSValue.obj) ∧
      (messages.filter (fun m => !isSystemMessage m)).Sublist messages ∧
      (∀ m, m ∈ messages.filter (fun m => !isSystemMessage m) ↔
        m ∈ messages ∧ isSystemMessage m = false) ∧
      body.get (js "system") =
        (match messages.find? isSystemMessage with
          | some m => m.get (js "content")
          | none => JSValue.undefined) ∧
      (options.has (js "max_tokens") = false →
        body.get (js "max_tokens") = JSValue.ofNat 4096) := by
  have e1 : js "anthropic" ≠ js "openai" := by decide
  refine ⟨[(js "model", (p.baseRequest model options).get (js "model")),
      (js "messages", messagesValue (messages.filter (fun m => !isSystemMessage m))),
      (js "system",
        match messages.filter isSystemMessage with
        | m :: _ => m.get (js "content")
        | [] => JSValue.undefined),
      (js "max_tokens",
        if (options.get (js "max_tokens")).truthy then options.get (js "max_tokens")
        else JSValue.ofNat 4096),
      (js "stream", (p.baseRequest model options).get (js "stream"))],
    ?_, ?_, ?_, List.filter_sublist _, ?_, ?_, ?_⟩
  · unfold Provider.transformRequest
    simp only [hf, e1, if_false, if_true]
  · rfl
  · rfl
  · intro m
    simp
  · exact head_filter_eq_find? isSystemMessage messages
  · intro h
    have ht := truthy_of_isUndefined _ (JSObject.get_undefined_of_not_has options _ h)
    show (if (options.get (js "max_tokens")).truthy then options.get (js "max_tokens")
      else JSValue.ofNat 4096) = JSValue.ofNat 4096
    simp [ht]

/-- Witness for C5: a system message between two chat turns is hoisted. -/
theorem transformRequest_anthropic_witness :
    ∃ body : JSObject,
      (exampleProvider (js "anthropic")).transformRequest
        [[(js "role", JSValue.str (js "user")), (js "content", JSValue.str (js "hi"))],
         [(js "role", JSValue.str (js "system")), (js "content", JSValue.str (js "be brief"))],
         [(js "role", JSValue.str (js "assistant")), (js "content", JSValue.str (js "yo"))]]
        none [] = JSValue.obj body ∧
      body.keys = [js "model", js "messages", js "system", js "max_tokens", js "stream"] ∧
      body.get (js "system") = JSValue.str (js "be brief") ∧
      body.get (js "max_tokens") = JSValue.ofNat 4096 := by
  obtain ⟨body, h1, h2, _, _, _, h6, h7⟩ :=
    transformRequest_anthropic (exampleProvider (js "anthropic"))
      [[(js "role", JSValue.str (js "user")), (js "content", JSValue.str (js "hi"))],
       [(js "role", JSValue.str (js "system")), (js "content", JSValue.str (js "be brief"))],
       [(js "role", JSValue.str (js "assistant")), (js "content", JSValue.str (js "yo"))]]
      none [] rfl
  exact ⟨body, h1, h2, h6.trans (by rfl), h7 rfl⟩

/-- C6: for requestFormat google and every message list, `transformRequest`
returns `contents` with one entry per message, in order; entry `i` has role
`"model"` if message `i` has role assistant and `"user"` otherwise (a system
message included) and parts `[{text: content of message i}]`;
`generationConfig.temperature` is `options.temperature` and
`generationConfig.maxOutputTokens` is `options.max_tokens`. -/
theorem transformRequest_google (p : Provider) (messages : List JSObject)
    (model : Option JSString) (options : JSObject) (hf : p.requestFormat = js "google") :
    ∃ contents : List JSValue,
      p.transformRequest messages model options =
        JSValue.obj
          [(js "contents", JSValue.arr contents),
           (js "generationConfig",
              JSValue.obj
                [(js "temperature", options.get (js "temperature")),
                 (js "maxOutputTokens", options.get (js "max_tokens"))])] ∧
      contents.length = messages.length ∧
      ∀ (i : Nat) (m : JSObject), messages.get? i = some m →
        ∃ role : JSString,
          contents.get? i = some (JSValue.obj
            [(js "role", JSValue.str role),
             (js "parts", JSValue.arr [JSValue.obj [(js "text", m.get (js "content"))]])]) ∧
          ((m.get (js "role")).isStr (js "assistant") = true → role = js "model") ∧
          ((m.get (js "role")).isStr (js "assistant") = false → role = js "user") := by
  have e1 : js "google" ≠ js "openai" := by decide
  have e2 : js "google" ≠ js "anthropic" := by decide
  refine ⟨messages.map googleContent, ?_, by simp, ?_⟩
  · unfold Provider.transformRequest
    simp only [hf, e1, e2, if_false, if_true]
  · intro i m hm
    by_cases ha : (m.get (js "role")).isStr (js "assistant") = true
    · refine ⟨js "model", ?_, fun _ => rfl, fun h => ?_⟩
      · simp [List.get?_eq_getElem?, List.getElem?_map] at hm ⊢
        simp [hm, googleContent, ha]
      · rw [ha] at h
        cases h
    · have hb : (m.get (js "role")).isStr (js "assistant") = false := by simpa using ha
      refine ⟨js "user", ?_, fun h => ?_, fun _ => rfl⟩
      · simp [List.get?_eq_getElem?, List.getElem?_map] at hm ⊢
        simp [hm, googleContent, hb]
      · rw [hb] at h
        cases h

/-- Witness for C6: a system, a user and an assistant message. -/
theorem transformRequest_google_witness :
    ∃ contents : List JSValue,
      (exampleProvider (js "google")).transformRequest
          [[(js "role", JSValue.str (js "system")), (js "content", JSValue.str (js "s"))],
           [(js "role", JSValue.str (js "user")), (js "content", JSValue.str (js "u"))],
           [(js "role", JSValue.str (js "assistant")), (js "content", JSValue.str (js "a"))]]
          none [(js "temperature", JSValue.ofNat 1), (js "max_tokens", JSValue.ofNat 64)] =
        JSValue.obj
          [(js "contents", JSValue.arr contents),
           (js "generationConfig", JSValue.obj
             [(js "temperature", JSValue.ofNat 1), (js "maxOutputTokens", JSValue.ofNat 64)])] ∧
      contents.length = 3 ∧
      contents.get? 0 = some (JSValue.obj
        [(js "role", JSValue.str (js "user")),
         (js "parts", JSValue.arr [JSValue.obj [(js "text", JSValue.str (js "s"))]])]) ∧
      contents.get? 2 = some (JSValue.obj
        [(js "role", JSValue.str (js "model")),
         (js "parts", JSValue.arr [JSValue.obj [(js "text", JSValue.str (js "a"))]])]) := by
  obtain ⟨contents, h1, h2, h3⟩ :=
    transformRequest_google (exampleProvider (js "google"))
      [[(js "role", JSValue.str (js "system")), (js "content", JSValue.str (js "s"))],
       [(js "role", JSValue.str (js "user")), (js "content", JSValue.str (js "u"))],
       [(js "role", JSValue.str (js "assistant")), (js "content", JSValue.str (js "a"))]]
      none [(js "temperature", JSValue.ofNat 1), (js "max_tokens", JSValue.ofNat 64)] rfl
  obtain ⟨r0, c0, _, u0⟩ := h3 0 _ rfl
  obtain ⟨r2, c2, m2, _⟩ := h3 2 _ rfl
  rw [u0 rfl] at c0
  rw [m2 rfl] at c2
  exact ⟨contents, h1, h2, c0, c2⟩

/-- The record `{ model, stream: true }` overlaid by the options is the
`baseRequest` of the code, whose `stream` entry is first computed from
`options.stream`. -/
theorem baseRequest_eq (p : Provider) (model : Option JSString) (options : JSObject) :
    p.baseRequest model options =
      JSObject.spread
        [(js "model", JSValue.str (modelOrDefault model p.defaultModel)),
         (js "stream", JSValue.bool true)]
        options := by
  unfold Provider.baseRequest
  by_cases hu : (options.get (js "stream")).isUndefined = true
  · simp [hu]
  · have hs : options.has (js "stream") = true := by
      cases hh : options.has (js "stream") with
      | true => rfl
      | false => exact absurd (JSObject.get_undefined_of_not_has options _ hh) hu
    have hne : js "model" ≠ js "stream" := by decide
    have e : JSObject.set [(js "model", JSValue.str (modelOrDefault model p.defaultModel)),
        (js "stream", JSValue.bool true)] (js "stream") (options.get (js "stream")) =
        [(js "model", JSValue.str (modelOrDefault model p.defaultModel)),
         (js "stream", options.get (js "stream"))] := by
      simp [JSObject.set, hne]
    simp only [hu, Bool.false_eq_true, if_false]
    rw [← e]
    apply JSObject.spread_override _ _ _ _ _ hs
    simp [JSObject.has, hne]

/-- C7: for requestFormat openai and for every format other than anthropic,
google and custom, `transformRequest` returns the record `{model, stream: true}`
(model being the argument, or `defaultModel` when the argument is absent or
empty) overlaid by every property of options, overlaid by messages. Hence every
option key other than `messages` is in the body with its option value,
`body.messages` is the input message list even when options has a `messages`
key, and model and stream keep their defaults when options does not set them. -/
theorem transformRequest_openai (p : Provider) (messages : List JSObject)
    (model : Option JSString) (options : JSObject)
    (hf : p.requestFormat = js "openai" ∨
      (p.requestFormat ≠ js "anthropic" ∧ p.requestFormat ≠ js "google" ∧
        p.requestFormat ≠ js "custom"))
    (hnd : options.keys.Nodup) :
    ∃ body : JSObject,
      p.transformRequest messages model options = JSValue.obj body ∧
      body = (JSObject.spread
          [(js "model", JSValue.str (modelOrDefault model p.defaultModel)),
           (js "stream", JSValue.bool true)] options).set (js "messages")
          (JSValue.arr (messages.map JSValue.obj)) ∧
      modelOrDefault none p.defaultModel = p.defaultModel ∧
      (∀ m : JSString, m ≠ [] → modelOrDefault (some m) p.defaultModel = m) ∧
      (∀ k : JSString, options.has k = true → k ≠ js "messages" →
        body.has k = true ∧ body.get k = options.get k) ∧
      body.get (js "messages") = JSValue.arr (messages.map JSValue.obj) ∧
      (options.has (js "model") = false →
        body.get (js "model") = JSValue.str (modelOrDefault model p.defaultModel)) ∧
      (options.has (js "stream") = false → body.get (js "stream") = JSValue.bool true) := by
  refine ⟨_, ?_, rfl, rfl, ?_, ?_, ?_, ?_, ?_⟩
  · have hb : (JSObject.spread
        [(js "model", JSValue.str (modelOrDefault model p.defaultModel)),
         (js "stream", JSValue.bool true)] options).keys.Nodup :=
      JSObject.nodup_keys_spread _ _
        (show [js "model", js "stream"].Nodup by decide)
    unfold Provider.transformRequest
    simp only [baseRequest_eq, messagesValue, JSObject.spread_nil _ hb]
    rcases hf with hf | ⟨h1, h2, h3⟩
    · simp [hf]
    · by_cases h0 : p.requestFormat = js "openai"
      · simp [h0]
      · simp [h0, h1, h2, h3]
  · intro m hm
    cases m with
    | nil => exact absurd rfl hm
    | cons c cs => rfl
  · intro k hk hkm
    have hkm2 : js "messages" ≠ k := fun e => hkm e.symm
    refine ⟨?_, ?_⟩
    · rw [JSObject.has_set, JSObject.has_spread, hk]
      simp
    · rw [JSObject.get_set_ne _ _ _ _ hkm2, JSObject.get_spread_of_has _ _ _ hnd hk]
  · exact JSObject.get_set_self _ _ _
  · intro h
    have hne : js "messages" ≠ js "model" := by decide
    rw [JSObject.get_set_ne _ _ _ _ hne, JSObject.get_spread_of_not_has _ _ _ h]
    simp [JSObject.get]
  · intro h
    have hne : js "messages" ≠ js "stream" := by decide
    have hne2 : js "model" ≠ js "stream" := by decide
    rw [JSObject.get_set_ne _ _ _ _ hne, JSObject.get_spread_of_not_has _ _ _ h]
    simp [JSObject.get, hne2]

/-- Witness for C7: options that set temperature and carry their own
`messages` key; the body keeps the temperature and the input messages. -/
theorem transformRequest_openai_witness :
    (exampleProvider (js "openai")).transformRequest
        [[(js "role", JSValue.str (js "user")), (js "content", JSValue.str (js "hi"))]]
        none [(js "temperature", JSValue.ofNat 1), (js "messages", JSValue.null)] =
      JSValue.obj
        [(js "model", JSValue.str (js "m-1")), (js "stream", JSValue.bool true),
         (js "temperature", JSValue.ofNat 1),
         (js "messages", JSValue.arr [JSValue.obj
           [(js "role", JSValue.str (js "user")), (js "content", JSValue.str (js "hi"))]])] := by
  obtain ⟨body, h1, h2, _⟩ :=
    transformRequest_openai (exampleProvider (js "openai"))
      [[(js "role", JSValue.str (js "user")), (js "content", JSValue.str (js "hi"))]]
      none [(js "temperature", JSValue.ofNat 1), (js "messages", JSValue.null)]
      (Or.inl rfl) (by decide)
  rw [h1, h2]
  rfl

/-- C8, the behaviour of the code: with a custom transform set, the custom
format returns exactly the transform's result; with none set it returns
`baseRequest`, which for the messages `[{role: "user", content: "hi"}]`, model
`m-1` and empty options is `{model: "m-1", stream: true}` and has no `messages`
property, while the openai format returns
`{model: "m-1", stream: true, messages: [...]}` for the same arguments. -/
theorem transformRequest_custom_fallback_drops_messages :
    (∀ (p : Provider) (messages : List JSObject) (model : Option JSString) (options : JSObject)
        (transform : List JSObject → Option JSString → JSObject → JSValue),
      p.requestFormat = js "custom" → p.customRequestTransform = some transform →
      p.transformRequest messages model options = transform messages model options) ∧
    (exampleProvider (js "custom")).transformRequest
        [[(js "role", JSValue.str (js "user")), (js "content", JSValue.str (js "hi"))]]
        (some (js "m-1")) [] =
      JSValue.obj [(js "model", JSValue.str (js "m-1")), (js "stream", JSValue.bool true)] ∧
    (exampleProvider (js "openai")).transformRequest
        [[(js "role", JSValue.str (js "user")), (js "content", JSValue.str (js "hi"))]]
        (some (js "m-1")) [] =
      JSValue.obj
        [(js "model", JSValue.str (js "m-1")), (js "stream", JSValue.bool true),
         (js "messages", JSValue.arr [JSValue.obj
           [(js "role", JSValue.str (js "user")), (js "content", JSValue.str (js "hi"))]])] ∧
    (exampleProvider (js "custom")).transformRequest
        [[(js "role", JSValue.str (js "user")), (js "content", JSValue.str (js "hi"))]]
        (some (js "m-1")) [] ≠
      (exampleProvider (js "openai")).transformRequest
        [[(js "role", JSValue.str (js "user")), (js "content", JSValue.str (js "hi"))]]
        (some (js "m-1")) [] := by
  have e1 : js "custom" ≠ js "openai" := by decide
  have e2 : js "custom" ≠ js "anthropic" := by decide
  have e3 : js "custom" ≠ js "google" := by decide
  have hc : (exampleProvider (js "custom")).transformRequest
        [[(js "role", JSValue.str (js "user")), (js "content", JSValue.str (js "hi"))]]
        (some (js "m-1")) [] =
      JSValue.obj [(js "model", JSValue.str (js "m-1")), (js "stream", JSValue.bool true)] := by
    rfl
  have ho : (exampleProvider (js "openai")).transformRequest
        [[(js "role", JSValue.str (js "user")), (js "content", JSValue.str (js "hi"))]]
        (some (js "m-1")) [] =
      JSValue.obj
        [(js "model", JSValue.str (js "m-1")), (js "stream", JSValue.bool true),
         (js "messages", JSValue.arr [JSValue.obj
           [(js "role", JSValue.str (js "user")), (js "content", JSValue.str (js "hi"))]])] := by
    rfl
  refine ⟨?_, hc, ho, ?_⟩
  · intro p messages model options transform hf ht
    unfold Provider.transformRequest
    simp only [hf, e1, e2, e3, ht, if_false, if_true]
  · rw [hc, ho]
    intro h
    have h2 := congrArg (fun v => match v with
      | JSValue.obj props => props.length
      | _ => 0) h
    simp at h2

/-! ## Properties of `Provider.getEndpoint` and `Provider.getHeaders` -/

/-- C9: `getEndpoint` returns `baseUrl + "/chat/completions"` for every format
other than google (openai, anthropic, custom and unrecognised ones), and
`baseUrl + "/models/" + model + ":streamGenerateContent?key=" + apiKey` for
google, where model is the argument when it is a non-empty string and
`defaultModel` when the argument is absent (or the empty string). -/
theorem getEndpoint_spec (p : Provider) (model : Option JSString) :
    (p.requestFormat ≠ js "google" →
      p.getEndpoint model = p.baseUrl ++ js "/chat/completions") ∧
    (p.requestFormat = js "google" →
      (model = none →
        p.getEndpoint model =
          p.baseUrl ++ js "/models/" ++ p.defaultModel ++ js ":streamGenerateContent?key=" ++
            p.apiKey) ∧
      (∀ m : JSString, model = some m → m ≠ [] →
        p.getEndpoint model =
          p.baseUrl ++ js "/models/" ++ m ++ js ":streamGenerateContent?key=" ++ p.apiKey) ∧
      (model = some [] →
        p.getEndpoint model =
          p.baseUrl ++ js "/models/" ++ p.defaultModel ++ js ":streamGenerateContent?key=" ++
            p.apiKey)) := by
  have e1 : js "google" ≠ js "openai" := by decide
  have e2 : js "google" ≠ js "anthropic" := by decide
  constructor
  · intro h
    unfold Provider.getEndpoint
    by_cases h1 : p.requestFormat = js "openai" ∨ p.requestFormat = js "anthropic"
    · rw [if_pos h1]
    · rw [if_neg h1, if_neg h]
  · intro h
    have h1 : ¬ (p.requestFormat = js "openai" ∨ p.requestFormat = js "anthropic") := by
      rw [h]
      exact fun hh => hh.elim e1 e2
    unfold Provider.getEndpoint
    rw [if_neg h1, if_pos h]
    refine ⟨?_, ?_, ?_⟩
    · intro hm
      rw [hm]
      rfl
    · intro m hm hne
      rw [hm]
      cases m with
      | nil => exact absurd rfl hne
      | cons c cs => rfl
    · intro hm
      rw [hm]
      rfl

/-- Witness for C9: the endpoints of an anthropic, a custom and a google
provider. -/
theorem getEndpoint_spec_witness :
    (exampleProvider (js "anthropic")).getEndpoint (some (js "m-2")) =
      js "https://api.example.com/v1/chat/completions" ∧
    (exampleProvider (js "custom")).getEndpoint none =
      js "https://api.example.com/v1/chat/completions" ∧
    (exampleProvider (js "google")).getEndpoint none =
      js "https://api.example.com/v1/models/m-1:streamGenerateContent?key=sk-123" ∧
    (exampleProvider (js "google")).getEndpoint (some (js "m-2")) =
      js "https://api.example.com/v1/models/m-2:streamGenerateContent?key=sk-123" :=
  ⟨((getEndpoint_spec (exampleProvider (js "anthropic")) (some (js "m-2"))).1
      (by decide)).trans (by decide),
   ((getEndpoint_spec (exampleProvider (js "custom")) none).1 (by decide)).trans (by decide),
   (((getEndpoint_spec (exampleProvider (js "google")) none).2 rfl).1 rfl).trans (by decide),
   (((getEndpoint_spec (exampleProvider (js "google")) (some (js "m-2"))).2 rfl).2.1
      (js "m-2") rfl (by decide)).trans (by decide)⟩

/-- C10: `getHeaders` returns a copy of `config.headers`. When apiKey is empty
or the format is google the result equals `config.headers`, so the key is not
placed in the headers. Otherwise exactly one entry is written: `x-api-key` =
apiKey for anthropic, `Authorization` = `"Bearer " + apiKey` for every other
format; the entry is added after the existing ones (or replaces the value of an
existing entry of that name) and every other entry is unchanged. -/
theorem getHeaders_spec (p : Provider) (hnd : p.headers.keys.Nodup) :
    ((p.apiKey = [] ∨ p.requestFormat = js "google") → p.getHeaders = p.headers) ∧
    (∀ (name : JSString) (value : JSValue),
      p.apiKey ≠ [] → p.requestFormat ≠ js "google" →
      ((p.requestFormat = js "anthropic" ∧ name = js "x-api-key" ∧
          value = JSValue.str p.apiKey) ∨
        (p.requestFormat ≠ js "anthropic" ∧ name = js "Authorization" ∧
          value = JSValue.str (js "Bearer " ++ p.apiKey))) →
      p.getHeaders = p.headers.set name value ∧
      p.getHeaders.get name = value ∧
      (∀ k : JSString, k ≠ name →
        p.getHeaders.get k = p.headers.get k ∧ p.getHeaders.has k = p.headers.has k) ∧
      p.getHeaders.keys =
        (if p.headers.has name then p.headers.keys else p.headers.keys ++ [name])) := by
  constructor
  · intro h
    unfold Provider.getHeaders
    rw [JSObject.spread_nil _ hnd]
    rcases h with h | h
    · simp [h]
    · simp [h]
  · intro name value hk hg hcase
    have hcond : (!p.apiKey.isEmpty && p.requestFormat != js "google") = true := by
      cases hp : p.apiKey with
      | nil => exact absurd hp hk
      | cons c cs => simpa using hg
    have e : p.getHeaders = p.headers.set name value := by
      unfold Provider.getHeaders
      rw [JSObject.spread_nil _ hnd]
      simp only [hcond, if_true]
      rcases hcase with ⟨h1, h2, h3⟩ | ⟨h1, h2, h3⟩
      · rw [if_pos h1, h2, h3]
      · rw [if_neg h1, h2, h3]
    rw [e]
    refine ⟨rfl, JSObject.get_set_self _ _ _, ?_, JSObject.keys_set _ _ _⟩
    intro k hkn
    have hkn2 : name ≠ k := fun e => hkn e.symm
    refine ⟨JSObject.get_set_ne _ _ _ _ hkn2, ?_⟩
    rw [JSObject.has_set]
    simp [hkn2]

/-- Witness for C10: the headers of a google, an anthropic and an openai
provider with the key `sk-123`. -/
theorem getHeaders_spec_witness :
    (exampleProvider (js "google")).getHeaders =
      [(js "Content-Type", JSValue.str (js "application/json"))] ∧
    (exampleProvider (js "anthropic")).getHeaders =
      [(js "Content-Type", JSValue.str (js "application/json")),
       (js "x-api-key", JSValue.str (js "sk-123"))] ∧
    (exampleProvider (js "openai")).getHeaders =
      [(js "Content-Type", JSValue.str (js "application/json")),
       (js "Authorization", JSValue.str (js "Bearer sk-123"))] :=
  ⟨(getHeaders_spec (exampleProvider (js "google")) (by decide)).1 (Or.inr rfl),
   ((getHeaders_spec (exampleProvider (js "anthropic")) (by decide)).2
      (js "x-api-key") (JSValue.str (js "sk-123")) (by decide) (by decide)
      (Or.inl ⟨rfl, rfl, rfl⟩)).1.trans (by rfl),
   ((getHeaders_spec (exampleProvider (js "openai")) (by decide)).2
      (js "Authorization") (JSValue.str (js "Bearer sk-123")) (by decide) (by decide)
      (Or.inr ⟨by decide, rfl, by rfl⟩)).1.trans (by rfl)⟩

/-! ## Properties of `Provider.validate` and `ProviderManager.addProvider` -/

theorem isBlank_eq (s : JSString) : isBlank s = (trim s == []) := by
  cases s with
  | nil => rfl
  | cons c cs => rfl

/-- C11: `validate` is total and reports every violation at once. For every
provider it returns exactly the messages of the violated rules among (name
blank, baseUrl blank, apiKey blank while apiKeyRequired, models empty), one
each and in that order; the length of the list is the number of violated rules
and the list is empty iff no rule is violated. -/
theorem validate_reports_every_violation (p : Provider) :
    p.validate =
      (([(trim p.name == [], js "Provider name is required"),
         (trim p.baseUrl == [], js "Base URL is required"),
         (p.apiKeyRequired && trim p.apiKey == [], js "API key is required for this provider"),
         (p.models.isEmpty, js "At least one model is required")] :
        List (Bool × JSString)).filter Prod.fst).map Prod.snd ∧
    p.validate.length =
      (if trim p.name == [] then 1 else 0) + (if trim p.baseUrl == [] then 1 else 0) +
      (if p.apiKeyRequired && trim p.apiKey == [] then 1 else 0) +
      (if p.models.isEmpty then 1 else 0) ∧
    (p.validate = [] ↔
      ((trim p.name == []) = false ∧ (trim p.baseUrl == []) = false ∧
        (p.apiKeyRequired && trim p.apiKey == []) = false ∧ p.models.isEmpty = false)) := by
  unfold Provider.validate
  simp only [isBlank_eq]
  cases (trim p.name == []) <;> cases (trim p.baseUrl == []) <;>
    cases (p.apiKeyRequired && trim p.apiKey == []) <;> cases p.models.isEmpty <;> simp

/-- Counterexample to C12 as stated: a provider with empty name, empty baseUrl
and empty models whose API key is required and empty gets 4 errors; and the
provider the constructor builds from data with empty name, empty baseUrl, empty
models and `apiKeyRequired: false` has the name `Custom Provider` and gets 2
errors. -/
theorem validate_empty_config_not_three :
    ({ exampleProvider (js "openai") with
        name := [], baseUrl := [], models := [], apiKey := [] } : Provider).validate =
      [js "Provider name is required", js "Base URL is required",
       js "API key is required for this provider", js "At least one model is required"] ∧
    (Provider.new
        { name := some [], baseUrl := some [], models := some [], apiKeyRequired := some false }
        1700000000000 (js "k3x9")).validate =
      [js "Base URL is required", js "At least one model is required"] := by
  constructor <;> decide

/-- C12, amended: for every provider with an empty name, an empty baseUrl and
an empty models list, `validate` returns the errors for name, base URL and
models, and between the last two the API-key error when the key is required and
blank: 4 errors in that case, 3 otherwise. A provider built by the constructor
from data whose name, baseUrl and models are empty or missing is named
`Custom Provider`, so `validate` returns the same list without the name error:
3 errors when the key is required and blank, 2 otherwise. -/
theorem validate_empty_config (p : Provider) (data : ProviderData) (now : Nat) (rand : JSString) :
    (p.name = [] → p.baseUrl = [] → p.models = [] →
      p.validate =
        [js "Provider name is required", js "Base URL is required"] ++
        (if p.apiKeyRequired && trim p.apiKey == [] then
          [js "API key is required for this provider"] else []) ++
        [js "At least one model is required"] ∧
      p.validate.length = (if p.apiKeyRequired && trim p.apiKey == [] then 4 else 3)) ∧
    ((data.name = none ∨ data.name = some []) → (data.baseUrl = none ∨ data.baseUrl = some []) →
      (data.models = none ∨ data.models = some []) →
      (Provider.new data now rand).name = js "Custom Provider" ∧
      (Provider.new data now rand).validate =
        [js "Base URL is required"] ++
        (if (Provider.new data now rand).apiKeyRequired &&
            trim (Provider.new data now rand).apiKey == [] then
          [js "API key is required for this provider"] else []) ++
        [js "At least one model is required"] ∧
      (Provider.new data now rand).validate.length =
        (if (Provider.new data now rand).apiKeyRequired &&
            trim (Provider.new data now rand).apiKey == [] then 3 else 2)) := by
  constructor
  · intro h1 h2 h3
    unfold Provider.validate
    simp only [isBlank_eq, h1, h2, h3]
    cases (p.apiKeyRequired && trim p.apiKey == []) <;> simp <;> decide
  · intro h1 h2 h3
    have e1 : (Provider.new data now rand).name = js "Custom Provider" := by
      rcases h1 with h | h <;> simp [Provider.new, h, strOr]
    have e2 : (Provider.new data now rand).baseUrl = [] := by
      rcases h2 with h | h <;> simp [Provider.new, h, strOr]
    have e3 : (Provider.new data now rand).models = [] := by
      rcases h3 with h | h <;> simp [Provider.new, h]
    refine ⟨e1, ?_⟩
    unfold Provider.validate
    simp only [isBlank_eq, e1, e2, e3]
    have e4 : (trim (js "Custom Provider") == []) = false := by decide
    rw [e4]
    cases ((Provider.new data now rand).apiKeyRequired &&
      trim (Provider.new data now rand).apiKey == []) <;> simp <;> decide

/-- Witness for C12, amended: an instance with a key that is not required, and
the constructor's defaults. -/
theorem validate_empty_config_witness :
    ({ exampleProvider (js "openai") with
        name := [], baseUrl := [], models := [], apiKeyRequired := false } : Provider).validate.length
      = 3 ∧
    (Provider.new { name := some [], baseUrl := some [], models := some [] }
        1700000000000 (js "k3x9")).validate.length = 3 :=
  ⟨((validate_empty_config
      ({ exampleProvider (js "openai") with
        name := [], baseUrl := [], models := [], apiKeyRequired := false } : Provider)
      {} 0 []).1 rfl rfl rfl).2.trans (by decide),
   ((validate_empty_config (exampleProvider (js "openai"))
      { name := some [], baseUrl := some [], models := some [] } 1700000000000 (js "k3x9")).2
      (Or.inr rfl) (Or.inr rfl) (Or.inr rfl)).2.2.trans (by decide)⟩

/-! ## Lemmas on maps -/

namespace JSMap

variable {α : Type}

theorem get?_set_self (m : JSMap α) (k : JSString) (v : α) : get? (set m k v) k = some v := by
  induction m with
  | nil => simp [set, get?]
  | cons e rest ih =>
    obtain ⟨k1, v1⟩ := e
    by_cases h : k1 = k
    · simp [set, get?, h]
    · simp [set, get?, h, ih]

theorem get?_set_ne (m : JSMap α) (k k2 : JSString) (v : α) (hk : k ≠ k2) :
    get? (set m k v) k2 = get? m k2 := by
  induction m with
  | nil => simp [set, get?, hk]
  | cons e rest ih =>
    obtain ⟨k1, v1⟩ := e
    by_cases h : k1 = k
    · subst h
      simp [set, get?, hk]
    · by_cases h2 : k1 = k2
      · subst h2
        simp [set, get?, h]
      · simp [set, get?, h, h2, ih]

theorem map_has_iff_mem_keys (m : JSMap α) (k : JSString) : has m k = true ↔ k ∈ keys m := by
  induction m with
  | nil => simp [has, keys]
  | cons e rest ih =>
    obtain ⟨k1, v1⟩ := e
    by_cases h : k1 = k
    · simp [has, keys, h]
    · have h2 : ¬ k = k1 := fun e => h e.symm
      simp only [has, h, if_false, ih]
      simp [keys, h2]

theorem has_eq_isSome_get? (m : JSMap α) (k : JSString) : has m k = (get? m k).isSome := by
  induction m with
  | nil => rfl
  | cons e rest ih =>
    obtain ⟨k1, v1⟩ := e
    by_cases h : k1 = k
    · simp [has, get?, h]
    · simp [has, get?, h, ih]

theorem map_keys_set (m : JSMap α) (k : JSString) (v : α) :
    keys (set m k v) = if has m k then keys m else keys m ++ [k] := by
  induction m with
  | nil => simp [set, has, keys]
  | cons e rest ih =>
    obtain ⟨k1, v1⟩ := e
    by_cases h1 : k1 = k
    · simp [set, has, keys, h1]
    · have e : keys (set rest k v) = if has rest k = true then keys rest else keys rest ++ [k] := ih
      simp only [set, has, h1, if_false]
      unfold keys at e ⊢
      rw [List.map_cons, e]
      split <;> simp

theorem map_has_set (m : JSMap α) (k k2 : JSString) (v : α) :
    has (set m k v) k2 = (decide (k = k2) || has m k2) := by
  rw [has_eq_isSome_get?, has_eq_isSome_get?]
  by_cases h : k = k2
  · subst h
    simp [get?_set_self]
  · simp [get?_set_ne m k k2 v h, h]

theorem map_nodup_keys_set (m : JSMap α) (k : JSString) (v : α) (h : (keys m).Nodup) :
    (keys (set m k v)).Nodup := by
  rw [map_keys_set]
  cases hh : has m k with
  | true => simpa using h
  | false =>
    have hm : k ∉ keys m := fun hm => by
      rw [(map_has_iff_mem_keys m k).2 hm] at hh
      cases hh
    simp only [Bool.false_eq_true, if_false]
    rw [List.nodup_append]
    refine ⟨h, by simp, ?_⟩
    intro a ha hb
    rw [List.mem_singleton] at hb
    exact hm (hb ▸ ha)

theorem mem_set (m : JSMap α) (k : JSString) (v : α) (e : JSString × α) (he : e ∈ set m k v) :
    e = (k, v) ∨ e ∈ m := by
  induction m with
  | nil =>
    simp [set] at he
    exact Or.inl he
  | cons e1 rest ih =>
    obtain ⟨k1, v1⟩ := e1
    by_cases h : k1 = k
    · subst h
      simp only [set, if_true] at he
      rcases List.mem_cons.1 he with he | he
      · exact Or.inl he
      · exact Or.inr (List.mem_cons_of_mem _ he)
    · simp only [set, h, if_false] at he
      rcases List.mem_cons.1 he with he | he
      · subst he
        exact Or.inr (List.mem_cons_self _ _)
      · rcases ih he with h2 | h2
        · exact Or.inl h2
        · exact Or.inr (List.mem_cons_of_mem _ h2)

theorem mem_delete (m : JSMap α) (k : JSString) (e : JSString × α) :
    e ∈ delete m k ↔ e ∈ m ∧ e.1 ≠ k := by
  simp [delete]

theorem keys_delete (m : JSMap α) (k : JSString) :
    keys (delete m k) = (keys m).filter (fun x => x != k) := by
  induction m with
  | nil => rfl
  | cons e rest ih =>
    obtain ⟨k1, v1⟩ := e
    have ih2 : List.map Prod.fst (List.filter (fun e => e.1 != k) rest) =
        List.filter (fun x => x != k) (List.map Prod.fst rest) := ih
    unfold delete keys
    rw [List.filter_cons, List.map_cons, List.filter_cons]
    by_cases h : k1 = k
    · simp [h, ih2]
    · have hb : (k1 != k) = true := by simpa using h
      simp [hb, ih2]

theorem nodup_keys_delete (m : JSMap α) (k : JSString) (h : (keys m).Nodup) :
    (keys (delete m k)).Nodup := by
  rw [keys_delete]
  exact h.filter _

theorem has_delete_self (m : JSMap α) (k : JSString) : has (delete m k) k = false := by
  cases hh : has (delete m k) k with
  | false => rfl
  | true =>
    have hm := (map_has_iff_mem_keys _ _).1 hh
    rw [keys_delete] at hm
    simp at hm

theorem get?_delete_ne (m : JSMap α) (k k2 : JSString) (hk : k ≠ k2) :
    get? (delete m k) k2 = get? m k2 := by
  induction m with
  | nil => rfl
  | cons e rest ih =>
    obtain ⟨k1, v1⟩ := e
    have ih2 : get? (List.filter (fun e => e.1 != k) rest) k2 = get? rest k2 := ih
    unfold delete
    rw [List.filter_cons]
    by_cases h : k1 = k
    · subst h
      simp [get?, hk, ih2]
    · have hb : (k1 != k) = true := by simpa using h
      simp [hb, get?, ih2]

theorem has_delete_ne (m : JSMap α) (k k2 : JSString) (hk : k ≠ k2) :
    has (delete m k) k2 = has m k2 := by
  rw [has_eq_isSome_get?, has_eq_isSome_get?, get?_delete_ne m k k2 hk]

/-- With each key once, `get?` finds exactly the entries of the map. -/
theorem get?_eq_some_iff (m : JSMap α) (k : JSString) (v : α) (h : (keys m).Nodup) :
    get? m k = some v ↔ (k, v) ∈ m := by
  induction m with
  | nil => simp [get?]
  | cons e rest ih =>
    obtain ⟨k1, v1⟩ := e
    have hnd : k1 ∉ keys rest ∧ (keys rest).Nodup := by simpa [keys] using h
    by_cases h1 : k1 = k
    · subst h1
      simp only [get?, if_true, List.mem_cons]
      constructor
      · intro hv
        cases hv
        exact Or.inl rfl
      · intro hv
        rcases hv with hv | hv
        · cases hv
          rfl
        · exact absurd (List.mem_map_of_mem Prod.fst hv) hnd.1
    · simp only [get?, h1, if_false, List.mem_cons]
      rw [ih hnd.2]
      constructor
      · intro hv
        exact Or.inr hv
      · intro hv
        rcases hv with hv | hv
        · cases hv
          exact absurd rfl h1
        · exact hv

theorem mem_values_iff (m : JSMap α) (v : α) : v ∈ values m ↔ ∃ k, (k, v) ∈ m := by
  simp [values]

end JSMap

theorem infix_joinComma (errors : List JSString) (e : JSString) (he : e ∈ errors) :
    e <:+: joinComma errors := by
  induction errors with
  | nil => simp at he
  | cons a rest ih =>
    cases rest with
    | nil =>
      simp at he
      subst he
      exact List.infix_refl _
    | cons b rest2 =>
      have hj : joinComma (a :: b :: rest2) = a ++ js ", " ++ joinComma (b :: rest2) := rfl
      rw [hj]
      rcases List.mem_cons.1 he with h | h
      · subst h
        exact ⟨[], js ", " ++ joinComma (b :: rest2), by simp⟩
      · exact (ih h).trans (List.suffix_append _ _).isInfix

/-- C13: `addProvider` validates before it mutates. If `validate` reports at
least one error for the provider built from the data, `addProvider` throws the
error `Provider validation failed: ` followed by all those errors joined by
commas (each error is part of the message), and the provider collection, the
active selection and the database are unchanged. If `validate` reports none,
`addProvider` does not throw and afterwards the new provider is in the
collection under its id (and is persisted under its id), the active selection
being unchanged. -/
theorem addProvider_validates_first (pm : ProviderManager) (db : Database)
    (data : ProviderData) (now : Nat) (rand : JSString) :
    ((Provider.new data now rand).validate ≠ [] →
      (pm.addProvider db data now rand).error =
        some (js "Provider validation failed: " ++
          joinComma (Provider.new data now rand).validate) ∧
      (∀ e ∈ (Provider.new data now rand).validate,
        e <:+: js "Provider validation failed: " ++
          joinComma (Provider.new data now rand).validate) ∧
      (pm.addProvider db data now rand).state = (pm, db)) ∧
    ((Provider.new data now rand).validate = [] →
      (pm.addProvider db data now rand).error = none ∧
      JSMap.get? (pm.addProvider db data now rand).state.1.providers
        (Provider.new data now rand).id = some (Provider.new data now rand) ∧
      (pm.addProvider db data now rand).state.1.activeProviderId = pm.activeProviderId ∧
      (pm.addProvider db data now rand).state.2.providers =
        Store.put db.providers (Provider.new data now rand).id (Provider.new data now rand)) := by
  constructor
  · intro h
    have hl : (Provider.new data now rand).validate.length > 0 :=
      List.length_pos.2 h
    have e : pm.addProvider db data now rand =
        ⟨(pm, db), some (js "Provider validation failed: " ++
          joinComma (Provider.new data now rand).validate)⟩ := by
      unfold ProviderManager.addProvider
      simp only [hl, if_true]
    rw [e]
    refine ⟨rfl, ?_, rfl⟩
    intro e he
    exact (infix_joinComma _ e he).trans (List.suffix_append _ _).isInfix
  · intro h
    have e : ∀ P : Provider, P = Provider.new data now rand →
        pm.addProvider db data now rand =
          ⟨(⟨JSMap.set pm.providers P.id P, pm.activeProviderId⟩,
            ⟨Store.put db.providers P.id P, db.chats, db.projects, db.settings⟩), none⟩ := by
      intro P hP
      subst hP
      unfold ProviderManager.addProvider
      simp only [h, List.length_nil, gt_iff_lt, lt_self_iff_false, if_false]
    rw [e _ rfl]
    exact ⟨rfl, JSMap.get?_set_self _ _ _, rfl, rfl⟩

/-- Witness for C13: data without a base URL is refused and nothing changes; a
complete provider is added under its id. -/
theorem addProvider_validates_first_witness :
    (ProviderManager.addProvider ⟨[], none⟩ ⟨[], [], [], []⟩
        { name := some (js "Acme"), apiKey := some (js "sk-1") } 1700000000000 (js "k3x9")).error =
      some (js "Provider validation failed: Base URL is required, At least one model is required") ∧
    (ProviderManager.addProvider ⟨[], none⟩ ⟨[], [], [], []⟩
        { id := some (js "acme"), name := some (js "Acme"), baseUrl := some (js "https://a.example"),
          apiKeyRequired := some false,
          models := some [[(js "id", JSValue.str (js "m")), (js "name", JSValue.str (js "M"))]] }
        1700000000000 (js "k3x9")).error = none :=
  ⟨((addProvider_validates_first ⟨[], none⟩ ⟨[], [], [], []⟩
      { name := some (js "Acme"), apiKey := some (js "sk-1") } 1700000000000 (js "k3x9")).1
      (by decide)).1.trans (by decide),
   ((addProvider_validates_first ⟨[], none⟩ ⟨[], [], [], []⟩
      { id := some (js "acme"), name := some (js "Acme"), baseUrl := some (js "https://a.example"),
        apiKeyRequired := some false,
        models := some [[(js "id", JSValue.str (js "m")), (js "name", JSValue.str (js "M"))]] }
      1700000000000 (js "k3x9")).2 (by decide)).1⟩

/-! ## Properties of `Chat.generateTitle` and title inference -/

theorem isUserMessage_makeMessage (content : JSString) (metadata : JSObject) (now : Nat)
    (h : metadata.has (js "role") = false) :
    isUserMessage (makeMessage (js "user") content metadata now) = true := by
  unfold isUserMessage makeMessage
  rw [JSObject.get_spread_of_not_has _ _ _ h]
  rfl

/-- The title `addMessage` leaves when it adds the first user message to a chat
still titled `New Chat`. -/
theorem addMessage_first_user_title (chat : Chat) (content : JSString) (metadata : JSObject)
    (now : Nat) (ht : chat.title = js "New Chat")
    (hm : chat.messages.filter isUserMessage = [])
    (hr : metadata.has (js "role") = false) :
    (chat.addMessage (js "user") content metadata now).title = Chat.generateTitle content := by
  unfold Chat.addMessage
  simp [ht, List.filter_append, hm, isUserMessage_makeMessage content metadata now hr]

/-- C19, the behaviour of the code: when `addMessage` adds the first user-role
message to a chat whose title is `New Chat`, the new title is
`generateTitle(content)`, which trims the content before it removes the markup
characters. For the first user message `# Hello *world*, how are you?` the
title is ` Hello world, how are you?`, with the blank that followed the `#`,
while stripping first and trimming afterwards, as the specification words it,
gives `Hello world, how are you?`. -/
theorem addMessage_title_trims_before_stripping :
    (∀ (chat : Chat) (content : JSString) (metadata : JSObject) (now : Nat),
      chat.title = js "New Chat" → chat.messages.filter isUserMessage = [] →
      metadata.has (js "role") = false →
      (chat.addMessage (js "user") content metadata now).title = Chat.generateTitle content) ∧
    ((Chat.new {} 1700000000000 (js "k3x9")).addMessage (js "user")
        (js "# Hello *world*, how are you?") [] 1700000000001).title =
      js " Hello world, how are you?" ∧
    specTitle (js "# Hello *world*, how are you?") = js "Hello world, how are you?" ∧
    ((Chat.new {} 1700000000000 (js "k3x9")).addMessage (js "user")
        (js "# Hello *world*, how are you?") [] 1700000000001).title ≠
      specTitle (js "# Hello *world*, how are you?") := by
  refine ⟨addMessage_first_user_title, by decide, by decide, by decide⟩

theorem no_markup_newChat : ∀ c ∈ js "New Chat", isMarkup c = false := by decide

theorem no_markup_ellipsis : ∀ c ∈ js "...", isMarkup c = false := by decide

/-- Counterexample to C20 as stated: for the content made of a blank followed
by 55 letters `a`, the content with markup removed has 56 characters, and the
title is not its first 50 characters followed by `...` (it is 50 letters `a`
followed by `...`, the leading blank being trimmed). -/
theorem generateTitle_untrimmed_content :
    ((32 :: List.replicate 55 97).filter (fun c => !isMarkup c)).length = 56 ∧
    Chat.generateTitle (32 :: List.replicate 55 97) = List.replicate 50 97 ++ js "..." ∧
    Chat.generateTitle (32 :: List.replicate 55 97) ≠
      ((32 :: List.replicate 55 97).filter (fun c => !isMarkup c)).take 50 ++ js "..." := by
  refine ⟨by decide, by decide, by decide⟩

/-- The shape of the result of `generateTitle`, which trims the content and then
removes the markup characters: it is non-empty, has at most 53 characters and
no markup character, and it is cut after 50 characters of the text so
obtained. -/
theorem generateTitle_shape (content : JSString) :
    Chat.generateTitle content ≠ [] ∧
    (Chat.generateTitle content).length ≤ 53 ∧
    (∀ c ∈ Chat.generateTitle content, isMarkup c = false) ∧
    (((trim content).filter (fun c => !isMarkup c)).length > 50 →
      Chat.generateTitle content =
        ((trim content).filter (fun c => !isMarkup c)).take 50 ++ js "...") := by
  have hdots : (js "...").length = 3 := by decide
  have hfilter : ∀ c ∈ (trim content).filter (fun c => !isMarkup c), isMarkup c = false := by
    intro c hc
    simpa using (List.mem_filter.1 hc).2
  unfold Chat.generateTitle
  by_cases hlen : ((trim content).filter (fun c => !isMarkup c)).length > 50
  · have hne : (List.take 50 ((trim content).filter (fun c => !isMarkup c)) ++ js "...").isEmpty
        = false := by
      have : js "..." = [46, 46, 46] := by decide
      rw [this]
      simp
    simp only [hlen, if_true, hne, Bool.false_eq_true, if_false]
    refine ⟨?_, ?_, ?_, fun _ => trivial⟩
    · intro h
      rw [h] at hne
      simp at hne
    · rw [List.length_append, hdots, List.length_take]
      omega
    · intro c hc
      rcases List.mem_append.1 hc with h | h
      · exact hfilter c (List.mem_of_mem_take h)
      · exact no_markup_ellipsis c h
  · simp only [hlen, if_false]
    by_cases he : ((trim content).filter (fun c => !isMarkup c)).isEmpty = true
    · simp only [he, if_true]
      refine ⟨by decide, by decide, no_markup_newChat, fun h => h.elim⟩
    · simp only [he, Bool.false_eq_true, if_false]
      refine ⟨?_, ?_, hfilter, fun h => h.elim⟩
      · intro h
        rw [h] at he
        simp at he
      · omega

theorem mem_trim (s : JSString) (c : Nat) (h : c ∈ trim s) : c ∈ s := by
  unfold trim trimStart at h
  have h1 := List.mem_reverse.1 h
  have h2 := (List.dropWhile_sublist _).subset h1
  have h3 := List.mem_reverse.1 h2
  exact (List.dropWhile_sublist _).subset h3

theorem filter_trim_of_no_markup (content : JSString) (h : ∀ c ∈ content, isMarkup c = false) :
    (trim content).filter (fun c => !isMarkup c) = trim (content.filter (fun c => !isMarkup c)) := by
  have e1 : content.filter (fun c => !isMarkup c) = content := by
    rw [List.filter_eq_self]
    intro c hc
    simp [h c hc]
  have e2 : (trim content).filter (fun c => !isMarkup c) = trim content := by
    rw [List.filter_eq_self]
    intro c hc
    simp [h c (mem_trim content c hc)]
  rw [e1, e2]

/-- C20, amended: for every content, `generateTitle` returns a non-empty title
of at most 53 characters that contains none of the characters `# * _` and the
backquote. For a content on which removing the markup and trimming give the
same text in either order, as every content without markup characters does,
the title is the one the specification words, and when that text, the content
with markup removed and trimmed, is longer than 50 characters, the title is
exactly its first 50 characters followed by `...`. Contents on which the two
orders differ are not covered. -/
theorem generateTitle_spec (content : JSString) :
    Chat.generateTitle content ≠ [] ∧
    (Chat.generateTitle content).length ≤ 53 ∧
    (∀ c ∈ Chat.generateTitle content, isMarkup c = false) ∧
    ((trim content).filter (fun c => !isMarkup c) = trim (content.filter (fun c => !isMarkup c)) →
      Chat.generateTitle content = specTitle content ∧
      ((trim (content.filter (fun c => !isMarkup c))).length > 50 →
        Chat.generateTitle content =
          (trim (content.filter (fun c => !isMarkup c))).take 50 ++ js "...")) ∧
    ((∀ c ∈ content, isMarkup c = false) →
      (trim content).filter (fun c => !isMarkup c) =
        trim (content.filter (fun c => !isMarkup c))) := by
  have h := generateTitle_shape content
  refine ⟨h.1, h.2.1, h.2.2.1, ?_, filter_trim_of_no_markup content⟩
  intro ha
  constructor
  · unfold Chat.generateTitle specTitle
    simp only [ha]
  · intro hl
    rw [← ha] at hl ⊢
    exact h.2.2.2 hl

/-- Witness for C20, amended: a message of 60 letters `a`, on which both orders
give the 60 letters. -/
theorem generateTitle_spec_witness :
    (trim (List.replicate 60 97)).filter (fun c => !isMarkup c) =
      trim ((List.replicate 60 97).filter (fun c => !isMarkup c)) ∧
    (trim ((List.replicate 60 97).filter (fun c => !isMarkup c))).length > 50 ∧
    Chat.generateTitle (List.replicate 60 97) = List.replicate 50 97 ++ js "..." :=
  ⟨by decide, by decide,
   (((generateTitle_spec (List.replicate 60 97)).2.2.2.1 (by decide)).2 (by decide)).trans
    (by decide)⟩

/-! ## Lemmas on sorting -/

theorem perm_insertDesc {α : Type} (key : α → Nat) (a : α) (l : List α) :
    (insertDesc key a l).Perm (a :: l) := by
  induction l with
  | nil => exact List.Perm.refl _
  | cons b rest ih =>
    unfold insertDesc
    split
    · exact List.Perm.refl _
    · exact (List.Perm.cons b ih).trans (List.Perm.swap a b rest)

theorem perm_sortDesc {α : Type} (key : α → Nat) (l : List α) : (sortDesc key l).Perm l := by
  induction l with
  | nil => exact List.Perm.refl _
  | cons a rest ih =>
    exact (perm_insertDesc key a (sortDesc key rest)).trans (List.Perm.cons a ih)

theorem mem_sortDesc {α : Type} (key : α → Nat) (l : List α) (x : α) :
    x ∈ sortDesc key l ↔ x ∈ l :=
  (perm_sortDesc key l).mem_iff

theorem pairwise_insertDesc {α : Type} (key : α → Nat) (a : α) (l : List α)
    (h : l.Pairwise (fun x y => key y ≤ key x)) :
    (insertDesc key a l).Pairwise (fun x y => key y ≤ key x) := by
  induction l with
  | nil => simp [insertDesc]
  | cons b rest ih =>
    have hb := List.pairwise_cons.1 h
    unfold insertDesc
    split
    · rename_i hle
      refine List.pairwise_cons.2 ⟨?_, h⟩
      intro x hx
      rcases List.mem_cons.1 hx with hx | hx
      · subst hx
        exact hle
      · exact Nat.le_trans (hb.1 x hx) hle
    · rename_i hlt
      refine List.pairwise_cons.2 ⟨?_, ih hb.2⟩
      intro x hx
      rcases List.mem_cons.1 ((perm_insertDesc key a rest).mem_iff.1 hx) with hx | hx
      · subst hx
        omega
      · exact hb.1 x hx

theorem pairwise_sortDesc {α : Type} (key : α → Nat) (l : List α) :
    (sortDesc key l).Pairwise (fun x y => key y ≤ key x) := by
  induction l with
  | nil => simp [sortDesc]
  | cons a rest ih => exact pairwise_insertDesc key a _ ih

/-- The first element of the sorted list has the greatest key. -/
theorem head_sortDesc_max {α : Type} (key : α → Nat) (l : List α) (a : α) (rest : List α)
    (h : sortDesc key l = a :: rest) : a ∈ l ∧ ∀ b ∈ l, key b ≤ key a := by
  have hp := pairwise_sortDesc key l
  rw [h] at hp
  have ha : a ∈ l := (mem_sortDesc key l a).1 (by rw [h]; exact List.mem_cons_self _ _)
  refine ⟨ha, ?_⟩
  intro b hb
  have hb2 : b ∈ a :: rest := by
    rw [← h]
    exact (mem_sortDesc key l b).2 hb
  rcases List.mem_cons.1 hb2 with hb2 | hb2
  · subst hb2
    exact Nat.le_refl _
  · exact (List.pairwise_cons.1 hp).1 b hb2

theorem sortDesc_eq_nil {α : Type} (key : α → Nat) (l : List α) (h : sortDesc key l = []) :
    l = [] := by
  have hp := perm_sortDesc key l
  rw [h] at hp
  exact hp.symm.eq_nil

/-! ## Lemmas on the chat manager -/

theorem KeyedById.delete (chats : JSMap Chat) (cur cur2 : Option JSString) (id : JSString)
    (h : ChatManager.KeyedById ⟨chats, cur⟩) :
    ChatManager.KeyedById ⟨JSMap.delete chats id, cur2⟩ := by
  refine ⟨JSMap.nodup_keys_delete _ _ h.1, ?_⟩
  intro e he
  exact h.2 e ((JSMap.mem_delete _ _ _).1 he).1

theorem KeyedById.set (chats : JSMap Chat) (cur cur2 : Option JSString) (k : JSString)
    (c : Chat) (h : ChatManager.KeyedById ⟨chats, cur⟩) (hc : c.id = k) :
    ChatManager.KeyedById ⟨JSMap.set chats k c, cur2⟩ := by
  refine ⟨JSMap.map_nodup_keys_set _ _ _ h.1, ?_⟩
  intro e he
  rcases JSMap.mem_set _ _ _ _ he with he | he
  · subst he
    exact hc
  · exact h.2 e he

/-- A chat of a manager keyed by id is found under its id. -/
theorem KeyedById.get?_of_mem_values (cm : ChatManager) (h : cm.KeyedById) (c : Chat)
    (hc : c ∈ JSMap.values cm.chats) : JSMap.get? cm.chats c.id = some c := by
  obtain ⟨k, hk⟩ := (JSMap.mem_values_iff _ _).1 hc
  have e : c.id = k := h.2 _ hk
  rw [e]
  exact (JSMap.get?_eq_some_iff _ _ _ h.1).2 hk

theorem KeyedById.id_of_get? (cm : ChatManager) (h : cm.KeyedById) (k : JSString) (c : Chat)
    (hc : JSMap.get? cm.chats k = some c) : c.id = k :=
  h.2 _ ((JSMap.get?_eq_some_iff _ _ _ h.1).1 hc)

theorem mem_values_of_get? {α : Type} (m : JSMap α) (k : JSString) (v : α)
    (h : JSMap.get? m k = some v) : v ∈ JSMap.values m := by
  induction m with
  | nil => simp [JSMap.get?] at h
  | cons e rest ih =>
    obtain ⟨k1, v1⟩ := e
    by_cases h1 : k1 = k
    · simp [JSMap.get?, h1] at h
      subst h
      simp [JSMap.values]
    · simp [JSMap.get?, h1] at h
      have := ih h
      simp [JSMap.values] at this ⊢
      exact Or.inr this

theorem has_of_get? {α : Type} (m : JSMap α) (k : JSString) (v : α)
    (h : JSMap.get? m k = some v) : JSMap.has m k = true := by
  rw [JSMap.has_eq_isSome_get?, h]
  rfl

/-- What `deleteChat` does to the manager when the chat exists and the chats
are keyed by id. -/
theorem deleteChat_manager (cm : ChatManager) (db : Database) (id : JSString) (now : Nat)
    (rand : JSString) (hwf : cm.KeyedById) (hid : JSMap.has cm.chats id = true) :
    (cm.deleteChat db id now rand).error = none ∧
    (cm.currentChatId ≠ some id →
      (cm.deleteChat db id now rand).state.1 = ⟨JSMap.delete cm.chats id, cm.currentChatId⟩) ∧
    (cm.currentChatId = some id → ∀ first rest,
      sortDesc Chat.updatedAt (JSMap.values (JSMap.delete cm.chats id)) = first :: rest →
      (cm.deleteChat db id now rand).state.1 = ⟨JSMap.delete cm.chats id, some first.id⟩) ∧
    (cm.currentChatId = some id → JSMap.delete cm.chats id = [] →
      (cm.deleteChat db id now rand).state.1 =
        ⟨[((Chat.new {} now rand).id, Chat.new {} now rand)], some (Chat.new {} now rand).id⟩) := by
  have hwf2 : ChatManager.KeyedById ⟨JSMap.delete cm.chats id, cm.currentChatId⟩ :=
    KeyedById.delete cm.chats cm.currentChatId cm.currentChatId id hwf
  by_cases hcur : cm.currentChatId = some id
  · cases hs : sortDesc Chat.updatedAt (JSMap.values (JSMap.delete cm.chats id)) with
    | nil =>
      have hempty : JSMap.delete cm.chats id = [] := by
        have := sortDesc_eq_nil _ _ hs
        simpa [JSMap.values] using this
      have e : cm.deleteChat db id now rand =
          ⟨ChatManager.createChat ⟨JSMap.delete cm.chats id, cm.currentChatId⟩
            { db with chats := Store.delete db.chats id } {} now rand, none⟩ := by
        unfold ChatManager.deleteChat
        simp only [hid, Bool.not_true, Bool.false_eq_true, if_false, hcur, if_true,
          ChatManager.getAllChats, hs]
      rw [e]
      refine ⟨rfl, fun h => absurd hcur h, ?_, ?_⟩
      · intro _ first rest h
        cases h
      · intro _ _
        simp [ChatManager.createChat, hempty, JSMap.set]
    | cons first rest =>
      have hmem : first ∈ JSMap.values (JSMap.delete cm.chats id) :=
        (head_sortDesc_max _ _ _ _ hs).1
      have hget := KeyedById.get?_of_mem_values _ hwf2 first hmem
      have hhas : JSMap.has (JSMap.delete cm.chats id) first.id = true := has_of_get? _ _ _ hget
      have e : cm.deleteChat db id now rand =
          ⟨(⟨JSMap.delete cm.chats id, some first.id⟩,
            Database.setSetting { db with chats := Store.delete db.chats id }
              (js "currentChat") (some first.id)), none⟩ := by
        unfold ChatManager.deleteChat
        simp only [hid, Bool.not_true, Bool.false_eq_true, if_false, hcur, if_true,
          ChatManager.getAllChats, hs, ChatManager.setCurrentChat, hhas]
      rw [e]
      refine ⟨rfl, fun h => absurd hcur h, ?_, ?_⟩
      · intro _ first2 rest2 h
        cases h
        rfl
      · intro _ hempty
        rw [hempty] at hmem
        simp [JSMap.values] at hmem
  · have e : cm.deleteChat db id now rand =
        ⟨(⟨JSMap.delete cm.chats id, cm.currentChatId⟩,
          { db with chats := Store.delete db.chats id }), none⟩ := by
      unfold ChatManager.deleteChat
      simp only [hid, Bool.not_true, Bool.false_eq_true, if_false, hcur]
    rw [e]
    exact ⟨rfl, fun _ => rfl, fun h => absurd h hcur, fun h => absurd h hcur⟩

/-! ## Properties of `ChatManager.deleteChat` -/

/-- C14: for a manager whose chats are stored under their own ids,
`deleteChat(id)` on an existing id does not throw and removes exactly that chat
(`JSMap.delete`: the key is gone, every other key keeps its chat). If `id` was
not current the selection is unchanged; if it was current and other chats
remain the current chat becomes a remaining chat whose `updatedAt` is greatest
among the remaining ones; if it was current and the only chat, the collection
then holds exactly one chat, the one built by `new Chat({})`, which is
current. -/
theorem deleteChat_repairs_selection (cm : ChatManager) (db : Database) (id : JSString)
    (now : Nat) (rand : JSString) (hwf : cm.KeyedById) (hid : JSMap.has cm.chats id = true) :
    (cm.deleteChat db id now rand).error = none ∧
    JSMap.has (JSMap.delete cm.chats id) id = false ∧
    (∀ k, k ≠ id → JSMap.get? (JSMap.delete cm.chats id) k = JSMap.get? cm.chats k) ∧
    (cm.currentChatId ≠ some id →
      (cm.deleteChat db id now rand).state.1.chats = JSMap.delete cm.chats id ∧
      (cm.deleteChat db id now rand).state.1.currentChatId = cm.currentChatId) ∧
    (cm.currentChatId = some id → JSMap.delete cm.chats id ≠ [] →
      (cm.deleteChat db id now rand).state.1.chats = JSMap.delete cm.chats id ∧
      ∃ c : Chat,
        (cm.deleteChat db id now rand).state.1.currentChatId = some c.id ∧
        JSMap.get? (JSMap.delete cm.chats id) c.id = some c ∧
        ∀ c2 ∈ JSMap.values (JSMap.delete cm.chats id), c2.updatedAt ≤ c.updatedAt) ∧
    (cm.currentChatId = some id → JSMap.delete cm.chats id = [] →
      (cm.deleteChat db id now rand).state.1.chats =
        [((Chat.new {} now rand).id, Chat.new {} now rand)] ∧
      (cm.deleteChat db id now rand).state.1.currentChatId = some (Chat.new {} now rand).id) := by
  obtain ⟨h1, h2, h3, h4⟩ := deleteChat_manager cm db id now rand hwf hid
  refine ⟨h1, JSMap.has_delete_self _ _, ?_, ?_, ?_, ?_⟩
  · intro k hk
    exact JSMap.get?_delete_ne _ _ _ (fun e => hk e.symm)
  · intro hc
    rw [h2 hc]
    exact ⟨rfl, rfl⟩
  · intro hc hne
    cases hs : sortDesc Chat.updatedAt (JSMap.values (JSMap.delete cm.chats id)) with
    | nil =>
      have := sortDesc_eq_nil _ _ hs
      exact absurd (by simpa [JSMap.values] using this) hne
    | cons first rest =>
      rw [h3 hc first rest hs]
      have hmax := head_sortDesc_max _ _ _ _ hs
      have hwf2 : ChatManager.KeyedById ⟨JSMap.delete cm.chats id, cm.currentChatId⟩ :=
        KeyedById.delete cm.chats cm.currentChatId cm.currentChatId id hwf
      exact ⟨rfl, first, rfl, KeyedById.get?_of_mem_values _ hwf2 first hmax.1, hmax.2⟩
  · intro hc he
    rw [h4 hc he]
    exact ⟨rfl, rfl⟩

/-- Witness for C14: of three chats the current one is deleted; the more
recently updated of the other two becomes current. -/
theorem deleteChat_repairs_selection_witness :
    ((ChatManager.deleteChat
        ⟨[(js "a", Chat.new { id := some (js "a"), updatedAt := some 10 } 1 []),
          (js "b", Chat.new { id := some (js "b"), updatedAt := some 30 } 1 []),
          (js "c", Chat.new { id := some (js "c"), updatedAt := some 20 } 1 [])], some (js "b")⟩
        ⟨[], [], [], []⟩ (js "b") 40 (js "k3x9")).state.1.chats).map Prod.fst =
      [js "a", js "c"] ∧
    (ChatManager.deleteChat
        ⟨[(js "a", Chat.new { id := some (js "a"), updatedAt := some 10 } 1 []),
          (js "b", Chat.new { id := some (js "b"), updatedAt := some 30 } 1 []),
          (js "c", Chat.new { id := some (js "c"), updatedAt := some 20 } 1 [])], some (js "b")⟩
        ⟨[], [], [], []⟩ (js "b") 40 (js "k3x9")).state.1.currentChatId = some (js "c") := by
  have h := deleteChat_repairs_selection
    ⟨[(js "a", Chat.new { id := some (js "a"), updatedAt := some 10 } 1 []),
      (js "b", Chat.new { id := some (js "b"), updatedAt := some 30 } 1 []),
      (js "c", Chat.new { id := some (js "c"), updatedAt := some 20 } 1 [])], some (js "b")⟩
    ⟨[], [], [], []⟩ (js "b") 40 (js "k3x9") (by decide) (by decide)
  have h5 := h.2.2.2.2.1 rfl (fun e => absurd (congrArg List.length e) (by decide))
  constructor
  · rw [h5.1]
    decide
  · decide

/-! ## The current-chat invariant -/

theorem createChat_inv (cm : ChatManager) (db : Database) (data : ChatData) (now : Nat)
    (rand : JSString) (hwf : cm.KeyedById) :
    (cm.createChat db data now rand).1.KeyedById ∧
    (cm.createChat db data now rand).1.CurrentValid := by
  constructor
  · exact KeyedById.set cm.chats cm.currentChatId _ _ _ hwf rfl
  · refine ⟨(Chat.new data now rand).id, rfl, ?_⟩
    show JSMap.has (JSMap.set cm.chats _ _) _ = true
    rw [JSMap.map_has_set]
    simp

theorem setCurrentChat_inv (cm : ChatManager) (db : Database) (id : JSString)
    (hwf : cm.KeyedById) (hcv : cm.CurrentValid) :
    (cm.setCurrentChat db id).state.1.KeyedById ∧
    (cm.setCurrentChat db id).state.1.CurrentValid := by
  unfold ChatManager.setCurrentChat
  by_cases h : JSMap.has cm.chats id = true
  · simp only [h, Bool.not_true, Bool.false_eq_true, if_false]
    exact ⟨hwf, id, rfl, h⟩
  · have h2 : JSMap.has cm.chats id = false := by simpa using h
    simp only [h2, Bool.not_false, if_true]
    exact ⟨hwf, hcv⟩

theorem updateChat_manager (cm : ChatManager) (db : Database) (id : JSString)
    (updates : ChatPatch) (now : Nat) (chat : Chat) (hg : JSMap.get? cm.chats id = some chat) :
    (cm.updateChat db id updates now).error = none ∧
    (cm.updateChat db id updates now).state.1 =
      ⟨JSMap.set cm.chats id { chat.assign updates with updatedAt := now }, cm.currentChatId⟩ := by
  unfold ChatManager.updateChat
  simp only [hg]
  constructor <;> first | rfl | trivial

theorem updateChat_inv (cm : ChatManager) (db : Database) (id : JSString)
    (updates : ChatPatch) (now : Nat) (hid : updates.id = none)
    (hwf : cm.KeyedById) (hcv : cm.CurrentValid) :
    (cm.updateChat db id updates now).state.1.KeyedById ∧
    (cm.updateChat db id updates now).state.1.CurrentValid := by
  cases hg : JSMap.get? cm.chats id with
  | none =>
    have e : cm.updateChat db id updates now = ⟨(cm, db), some (js "Chat not found")⟩ := by
      unfold ChatManager.updateChat
      simp only [hg]
    rw [e]
    exact ⟨hwf, hcv⟩
  | some chat =>
    rw [(updateChat_manager cm db id updates now chat hg).2]
    have hcid : chat.id = id := KeyedById.id_of_get? cm hwf id chat hg
    constructor
    · apply KeyedById.set cm.chats cm.currentChatId _ _ _ hwf
      simp [Chat.assign, hid, hcid]
    · obtain ⟨cur, h1, h2⟩ := hcv
      refine ⟨cur, h1, ?_⟩
      show JSMap.has (JSMap.set cm.chats id _) cur = true
      rw [JSMap.map_has_set, h2]
      simp

theorem deleteChat_inv (cm : ChatManager) (db : Database) (id : JSString) (now : Nat)
    (rand : JSString) (hwf : cm.KeyedById) (hcv : cm.CurrentValid) :
    (cm.deleteChat db id now rand).state.1.KeyedById ∧
    (cm.deleteChat db id now rand).state.1.CurrentValid := by
  by_cases hid : JSMap.has cm.chats id = true
  · obtain ⟨_, h2, h3, h4⟩ := deleteChat_manager cm db id now rand hwf hid
    by_cases hcur : cm.currentChatId = some id
    · cases hs : sortDesc Chat.updatedAt (JSMap.values (JSMap.delete cm.chats id)) with
      | nil =>
        have hempty : JSMap.delete cm.chats id = [] := by
          have := sortDesc_eq_nil _ _ hs
          simpa [JSMap.values] using this
        rw [h4 hcur hempty]
        refine ⟨⟨by simp [JSMap.keys], ?_⟩, (Chat.new {} now rand).id, rfl, ?_⟩
        · intro e he
          simp at he
          subst he
          rfl
        · simp [JSMap.has]
      | cons first rest =>
        rw [h3 hcur first rest hs]
        have hwf2 : ChatManager.KeyedById ⟨JSMap.delete cm.chats id, some first.id⟩ :=
          KeyedById.delete cm.chats cm.currentChatId _ id hwf
        refine ⟨hwf2, first.id, rfl, ?_⟩
        exact has_of_get? _ _ _
          (KeyedById.get?_of_mem_values _ hwf2 first (head_sortDesc_max _ _ _ _ hs).1)
    · rw [h2 hcur]
      refine ⟨KeyedById.delete cm.chats cm.currentChatId _ id hwf, ?_⟩
      obtain ⟨cur, h5, h6⟩ := hcv
      refine ⟨cur, h5, ?_⟩
      have hne : id ≠ cur := by
        intro e
        subst e
        exact hcur h5
      show JSMap.has (JSMap.delete cm.chats id) cur = true
      rw [JSMap.has_delete_ne _ _ _ hne]
      exact h6
  · have h2 : JSMap.has cm.chats id = false := by simpa using hid
    have e : cm.deleteChat db id now rand = ⟨(cm, db), some (js "Chat not found")⟩ := by
      unfold ChatManager.deleteChat
      simp only [h2, Bool.not_false, if_true]
    rw [e]
    exact ⟨hwf, hcv⟩

theorem step_inv (st : ChatManager × Database) (op : ChatOp) (hk : op.keepsId = true)
    (hwf : st.1.KeyedById) (hcv : st.1.CurrentValid) :
    (ChatManager.step st op).1.KeyedById ∧ (ChatManager.step st op).1.CurrentValid := by
  cases op with
  | createChat data now rand => exact createChat_inv st.1 st.2 data now rand hwf
  | setCurrentChat id => exact setCurrentChat_inv st.1 st.2 id hwf hcv
  | updateChat id updates now =>
    have hid : updates.id = none := by
      simpa [ChatOp.keepsId] using hk
    exact updateChat_inv st.1 st.2 id updates now hid hwf hcv
  | deleteChat id now rand => exact deleteChat_inv st.1 st.2 id now rand hwf hcv

theorem run_inv (ops : List ChatOp) (st : ChatManager × Database)
    (hk : ∀ op ∈ ops, op.keepsId = true) (hwf : st.1.KeyedById) (hcv : st.1.CurrentValid) :
    (ChatManager.run st ops).1.KeyedById ∧ (ChatManager.run st ops).1.CurrentValid := by
  induction ops generalizing st with
  | nil => exact ⟨hwf, hcv⟩
  | cons op rest ih =>
    have h1 := step_inv st op (hk op (List.mem_cons_self _ _)) hwf hcv
    exact ih (ChatManager.step st op) (fun o ho => hk o (List.mem_cons_of_mem _ ho)) h1.1 h1.2

theorem loadChats_keyed (now : Nat → Nat) (rand : Nat → JSString) (saved : List Chat) (i : Nat)
    (chats : JSMap Chat) (cur : Option JSString) (h : ChatManager.KeyedById ⟨chats, cur⟩) :
    ChatManager.KeyedById ⟨ChatManager.loadChats now rand saved i chats, cur⟩ := by
  induction saved generalizing i chats with
  | nil => exact h
  | cons data rest ih =>
    exact ih (i + 1) _ (KeyedById.set chats cur cur _ _ h rfl)

theorem init_inv (db : Database) (now : Nat → Nat) (rand : Nat → JSString) :
    (ChatManager.init db now rand).1.KeyedById ∧ (ChatManager.init db now rand).1.CurrentValid := by
  have hload : ∀ cur, ChatManager.KeyedById
      ⟨ChatManager.loadChats now rand (Store.getAll db.chats) 0 [], cur⟩ :=
    fun cur => loadChats_keyed now rand _ 0 [] cur ⟨by simp [JSMap.keys], by simp⟩
  unfold ChatManager.init
  cases hc : db.getSetting (js "currentChat") with
  | none =>
    simp only [if_true]
    exact createChat_inv _ _ _ _ _ (hload none)
  | some id =>
    by_cases hm : (id.isEmpty || !JSMap.has
        (ChatManager.loadChats now rand (Store.getAll db.chats) 0 []) id) = true
    · simp only [hm, if_true]
      exact createChat_inv _ _ _ _ _ (hload (some id))
    · simp only [hm, Bool.false_eq_true, if_false]
      refine ⟨hload (some id), id, rfl, ?_⟩
      simp at hm
      exact hm.2

/-- C15, the behaviour of the code. After `init` and after every sequence of
`createChat`, `setCurrentChat`, `updateChat` and `deleteChat` calls, returning
or throwing, in which no `updateChat` patch has an `id` property, the chat
collection is non-empty, `currentChatId` is the key of a chat of the collection
and every chat is stored under its own id, each key once. A patch with an `id`
property breaks this: after `init` on an empty database,
`createChat({id: "a"})`, `createChat({id: "b"})`, `updateChat("a", {id: "zzz"})`
and `deleteChat("b")`, the last call throws `Chat not found` after removing
`b`, and `currentChatId` is still `"b"`, which is neither the key nor the id of
any chat of the collection. -/
theorem current_chat_invariant_broken_by_id_patch :
    (∀ (db : Database) (now : Nat → Nat) (rand : Nat → JSString) (ops : List ChatOp),
      (∀ op ∈ ops, op.keepsId = true) →
      (ChatManager.run (ChatManager.init db now rand) ops).1.chats ≠ [] ∧
      (ChatManager.run (ChatManager.init db now rand) ops).1.CurrentValid ∧
      (ChatManager.run (ChatManager.init db now rand) ops).1.KeyedById) ∧
    ((ChatManager.run (ChatManager.init ⟨[], [], [], []⟩ (fun _ => 1000) (fun _ => js "k3x9"))
        [ChatOp.createChat { id := some (js "a") } 2000 (js "k3x9"),
         ChatOp.createChat { id := some (js "b") } 3000 (js "k3x9"),
         ChatOp.updateChat (js "a") { id := some (js "zzz") } 4000]).1.deleteChat
      (ChatManager.run (ChatManager.init ⟨[], [], [], []⟩ (fun _ => 1000) (fun _ => js "k3x9"))
        [ChatOp.createChat { id := some (js "a") } 2000 (js "k3x9"),
         ChatOp.createChat { id := some (js "b") } 3000 (js "k3x9"),
         ChatOp.updateChat (js "a") { id := some (js "zzz") } 4000]).2
      (js "b") 5000 (js "k3x9")).error = some (js "Chat not found") ∧
    (ChatManager.run (ChatManager.init ⟨[], [], [], []⟩ (fun _ => 1000) (fun _ => js "k3x9"))
        [ChatOp.createChat { id := some (js "a") } 2000 (js "k3x9"),
         ChatOp.createChat { id := some (js "b") } 3000 (js "k3x9"),
         ChatOp.updateChat (js "a") { id := some (js "zzz") } 4000,
         ChatOp.deleteChat (js "b") 5000 (js "k3x9")]).1.currentChatId = some (js "b") ∧
    JSMap.keys (ChatManager.run
        (ChatManager.init ⟨[], [], [], []⟩ (fun _ => 1000) (fun _ => js "k3x9"))
        [ChatOp.createChat { id := some (js "a") } 2000 (js "k3x9"),
         ChatOp.createChat { id := some (js "b") } 3000 (js "k3x9"),
         ChatOp.updateChat (js "a") { id := some (js "zzz") } 4000,
         ChatOp.deleteChat (js "b") 5000 (js "k3x9")]).1.chats =
      [js "chat_1000_k3x9", js "a"] ∧
    (JSMap.values (ChatManager.run
        (ChatManager.init ⟨[], [], [], []⟩ (fun _ => 1000) (fun _ => js "k3x9"))
        [ChatOp.createChat { id := some (js "a") } 2000 (js "k3x9"),
         ChatOp.createChat { id := some (js "b") } 3000 (js "k3x9"),
         ChatOp.updateChat (js "a") { id := some (js "zzz") } 4000,
         ChatOp.deleteChat (js "b") 5000 (js "k3x9")]).1.chats).map Chat.id =
      [js "chat_1000_k3x9", js "zzz"] := by
  refine ⟨?_, by decide, by decide, by decide, by decide⟩
  intro db now rand ops hk
  obtain ⟨h1, h2⟩ := init_inv db now rand
  obtain ⟨h3, h4⟩ := run_inv ops _ hk h1 h2
  refine ⟨?_, h4, h3⟩
  obtain ⟨cur, _, hcur⟩ := h4
  intro he
  rw [he] at hcur
  simp [JSMap.has] at hcur

/-! ## Lemmas on `deleteProject` -/

theorem get?_of_has {α : Type} (m : JSMap α) (k : JSString) (h : JSMap.has m k = true) :
    ∃ v, JSMap.get? m k = some v := by
  rw [JSMap.has_eq_isSome_get?] at h
  exact Option.isSome_iff_exists.1 h

theorem detachChatsLoop_cons (now : Nat → Nat) (chat : Chat) (rest : List Chat) (i : Nat)
    (st : ChatManager × Database)
    (h : (st.1.updateChat st.2 chat.id { projectId := some none } (now i)).error = none) :
    detachChatsLoop now (chat :: rest) i st =
      detachChatsLoop now rest (i + 1)
        (st.1.updateChat st.2 chat.id { projectId := some none } (now i)).state := by
  rw [detachChatsLoop]
  simp only [h]

/-- The detaching loop over chats that are all in the collection: it does not
throw, keeps the keys and the selection, clears the `projectId` of the listed
chats and leaves the others as they are. -/
theorem detachChatsLoop_spec (now : Nat → Nat) (L : List Chat) :
    ∀ (i : Nat) (st : ChatManager × Database), st.1.KeyedById →
      (∀ c ∈ L, JSMap.has st.1.chats c.id = true) →
      (detachChatsLoop now L i st).error = none ∧
      (detachChatsLoop now L i st).state.1.KeyedById ∧
      JSMap.keys (detachChatsLoop now L i st).state.1.chats = JSMap.keys st.1.chats ∧
      (detachChatsLoop now L i st).state.1.currentChatId = st.1.currentChatId ∧
      (∀ k, k ∉ L.map Chat.id →
        JSMap.get? (detachChatsLoop now L i st).state.1.chats k = JSMap.get? st.1.chats k) ∧
      (∀ k, k ∈ L.map Chat.id → ∃ c2 : Chat,
        JSMap.get? (detachChatsLoop now L i st).state.1.chats k = some c2 ∧
        c2.projectId = none ∧ c2.id = k) := by
  induction L with
  | nil =>
    intro i st hwf _
    refine ⟨rfl, hwf, rfl, rfl, fun _ _ => rfl, ?_⟩
    intro k hk
    simp at hk
  | cons chat rest ih =>
    intro i st hwf hall
    have hhas : JSMap.has st.1.chats chat.id = true := hall chat (List.mem_cons_self _ _)
    obtain ⟨c0, hc0⟩ := get?_of_has _ _ hhas
    obtain ⟨herr, hst⟩ :=
      updateChat_manager st.1 st.2 chat.id { projectId := some none } (now i) c0 hc0
    have hc0id : c0.id = chat.id := KeyedById.id_of_get? st.1 hwf _ _ hc0
    rw [detachChatsLoop_cons now chat rest i st herr]
    have hwf1 : (st.1.updateChat st.2 chat.id { projectId := some none } (now i)).state.1.KeyedById := by
      rw [hst]
      apply KeyedById.set st.1.chats st.1.currentChatId _ _ _ hwf
      simp [Chat.assign, hc0id]
    have hkeys1 : JSMap.keys
        (st.1.updateChat st.2 chat.id { projectId := some none } (now i)).state.1.chats =
        JSMap.keys st.1.chats := by
      rw [hst]
      show JSMap.keys (JSMap.set st.1.chats chat.id _) = _
      rw [JSMap.map_keys_set, hhas]
      rfl
    have hall1 : ∀ c ∈ rest, JSMap.has
        (st.1.updateChat st.2 chat.id { projectId := some none } (now i)).state.1.chats c.id
        = true := by
      intro c hc
      rw [JSMap.map_has_iff_mem_keys, hkeys1, ← JSMap.map_has_iff_mem_keys]
      exact hall c (List.mem_cons_of_mem _ hc)
    obtain ⟨h1, h2, h3, h4, h5, h6⟩ := ih (i + 1) _ hwf1 hall1
    refine ⟨h1, h2, h3.trans hkeys1, ?_, ?_, ?_⟩
    · rw [h4, hst]
    · intro k hk
      have hk1 : k ≠ chat.id := fun e => hk (by simp [e])
      have hk2 : k ∉ rest.map Chat.id := fun e => hk (by
        simp only [List.map_cons, List.mem_cons]
        exact Or.inr e)
      rw [h5 k hk2, hst]
      show JSMap.get? (JSMap.set st.1.chats chat.id _) k = _
      exact JSMap.get?_set_ne _ _ _ _ (fun e => hk1 e.symm)
    · intro k hk
      by_cases hk2 : k ∈ rest.map Chat.id
      · exact h6 k hk2
      · have hk1 : k = chat.id := by
          simp only [List.map_cons, List.mem_cons] at hk
          rcases hk with hk | hk
          · exact hk
          · exact absurd hk hk2
        subst hk1
        rw [h5 _ hk2, hst]
        refine ⟨_, JSMap.get?_set_self _ _ _, ?_, ?_⟩
        · simp [Chat.assign]
        · simp [Chat.assign, hc0id]

/-- The chats `getChatsByProject(id)` lists, for chats keyed by id: a chat is
listed iff it is in the collection and references the project. -/
theorem mem_getChatsByProject (cm : ChatManager) (id : JSString) (c : Chat) :
    c ∈ cm.getChatsByProject id ↔ c ∈ JSMap.values cm.chats ∧ c.projectId = some id := by
  unfold ChatManager.getChatsByProject
  rw [mem_sortDesc, List.mem_filter]
  simp

theorem getChatsByProject_ids (cm : ChatManager) (hwf : cm.KeyedById) (id k : JSString) (c : Chat)
    (hc : JSMap.get? cm.chats k = some c) :
    k ∈ (cm.getChatsByProject id).map Chat.id ↔ c.projectId = some id := by
  constructor
  · intro hk
    obtain ⟨c2, hc2, hid2⟩ := List.mem_map.1 hk
    obtain ⟨hv, hp⟩ := (mem_getChatsByProject cm id c2).1 hc2
    have hg := KeyedById.get?_of_mem_values cm hwf c2 hv
    rw [hid2, hc] at hg
    cases hg
    exact hp
  · intro hp
    have hv : c ∈ JSMap.values cm.chats := mem_values_of_get? _ _ _ hc
    have hid : c.id = k := KeyedById.id_of_get? cm hwf k c hc
    exact List.mem_map.2 ⟨c, (mem_getChatsByProject cm id c).2 ⟨hv, hp⟩, hid⟩

theorem getChatsByProject_has (cm : ChatManager) (hwf : cm.KeyedById) (id : JSString) :
    ∀ c ∈ cm.getChatsByProject id, JSMap.has cm.chats c.id = true := by
  intro c hc
  exact has_of_get? _ _ _
    (KeyedById.get?_of_mem_values cm hwf c ((mem_getChatsByProject cm id c).1 hc).1)

theorem deleteChatsLoop_cons (now : Nat → Nat) (rand : Nat → JSString) (chat : Chat)
    (rest : List Chat) (i : Nat) (st : ChatManager × Database)
    (h : (st.1.deleteChat st.2 chat.id (now i) (rand i)).error = none) :
    deleteChatsLoop now rand (chat :: rest) i st =
      deleteChatsLoop now rand rest (i + 1)
        (st.1.deleteChat st.2 chat.id (now i) (rand i)).state := by
  rw [deleteChatsLoop]
  simp only [h]

theorem filter_delete_step (chats : JSMap Chat) (k0 : JSString) (ids : List JSString) :
    (JSMap.delete chats k0).filter (fun e => !(ids.contains e.1)) =
      chats.filter (fun e => !((k0 :: ids).contains e.1)) := by
  unfold JSMap.delete
  rw [List.filter_filter]
  congr 1
  funext e
  by_cases h : e.1 = k0
  · simp [h]
  · simp [h]

theorem currentMostRecent_singleton (c : Chat) :
    ChatManager.CurrentMostRecent ⟨[(c.id, c)], some c.id⟩ := by
  refine ⟨c, rfl, by simp [JSMap.get?], ?_⟩
  intro c2 hc2
  simp [JSMap.values] at hc2
  subst hc2
  exact Nat.le_refl _

theorem currentMostRecent_delete (cm : ChatManager) (k : JSString)
    (h : cm.CurrentMostRecent) (hk : cm.currentChatId ≠ some k) :
    ChatManager.CurrentMostRecent ⟨JSMap.delete cm.chats k, cm.currentChatId⟩ := by
  obtain ⟨c, h1, h2, h3⟩ := h
  refine ⟨c, h1, ?_, ?_⟩
  · have hne : k ≠ c.id := by
      intro e
      apply hk
      rw [h1, e]
    show JSMap.get? (JSMap.delete cm.chats k) c.id = some c
    rw [JSMap.get?_delete_ne _ _ _ hne]
    exact h2
  · intro c2 hc2
    apply h3
    obtain ⟨k2, hk2⟩ := (JSMap.mem_values_iff _ _).1 hc2
    exact (JSMap.mem_values_iff _ _).2 ⟨k2, ((JSMap.mem_delete _ _ _).1 hk2).1⟩

/-- The deleting loop over distinct chats that are all in the collection, for
chats keyed by id. -/
theorem deleteChatsLoop_spec (now : Nat → Nat) (rand : Nat → JSString) (L : List Chat) :
    ∀ (i : Nat) (st : ChatManager × Database), st.1.KeyedById →
      (L.map Chat.id).Nodup →
      (∀ c ∈ L, JSMap.has st.1.chats c.id = true) →
      (deleteChatsLoop now rand L i st).error = none ∧
      (deleteChatsLoop now rand L i st).state.1.KeyedById ∧
      ((deleteChatsLoop now rand L i st).state.1.chats =
          st.1.chats.filter (fun e => !((L.map Chat.id).contains e.1)) ∨
        (st.1.chats.filter (fun e => !((L.map Chat.id).contains e.1)) = [] ∧
          ∃ j, (deleteChatsLoop now rand L i st).state.1.chats =
            [((Chat.new {} (now j) (rand j)).id, Chat.new {} (now j) (rand j))])) ∧
      (st.1.CurrentValid → (deleteChatsLoop now rand L i st).state.1.CurrentValid) ∧
      (∀ cur, st.1.currentChatId = some cur → cur ∉ L.map Chat.id →
        (deleteChatsLoop now rand L i st).state.1.currentChatId = some cur) ∧
      ((st.1.CurrentMostRecent ∨ ∃ cur, st.1.currentChatId = some cur ∧ cur ∈ L.map Chat.id) →
        (deleteChatsLoop now rand L i st).state.1.CurrentMostRecent) := by
  induction L with
  | nil =>
    intro i st hwf _ _
    refine ⟨rfl, hwf, Or.inl ?_, fun h => h, fun cur h _ => h, ?_⟩
    · show st.1.chats = _
      simp
    · intro h
      rcases h with h | ⟨cur, _, h⟩
      · exact h
      · simp at h
  | cons chat rest ih =>
    intro i st hwf hnd hall
    have hhas : JSMap.has st.1.chats chat.id = true := hall chat (List.mem_cons_self _ _)
    obtain ⟨herr, h2, h3, h4⟩ :=
      deleteChat_manager st.1 st.2 chat.id (now i) (rand i) hwf hhas
    have hnd2 : chat.id ∉ rest.map Chat.id ∧ (rest.map Chat.id).Nodup := by
      simpa using hnd
    have hallD : ∀ c ∈ rest, JSMap.has (JSMap.delete st.1.chats chat.id) c.id = true := by
      intro c hc
      have hne : chat.id ≠ c.id := by
        intro e
        apply hnd2.1
        rw [e]
        exact List.mem_map_of_mem Chat.id hc
      rw [JSMap.has_delete_ne _ _ _ hne]
      exact hall c (List.mem_cons_of_mem _ hc)
    rw [deleteChatsLoop_cons now rand chat rest i st herr]
    by_cases hcur : st.1.currentChatId = some chat.id
    · cases hs : sortDesc Chat.updatedAt (JSMap.values (JSMap.delete st.1.chats chat.id)) with
      | nil =>
        have hempty : JSMap.delete st.1.chats chat.id = [] := by
          have := sortDesc_eq_nil _ _ hs
          simpa [JSMap.values] using this
        have hst1 := h4 hcur hempty
        cases rest with
        | cons c rest2 =>
          have := hallD c (List.mem_cons_self _ _)
          rw [hempty] at this
          simp [JSMap.has] at this
        | nil =>
          have hloop : deleteChatsLoop now rand [] (i + 1)
              (st.1.deleteChat st.2 chat.id (now i) (rand i)).state =
              ⟨(st.1.deleteChat st.2 chat.id (now i) (rand i)).state, none⟩ := rfl
          rw [hloop]
          show none = none ∧
            (st.1.deleteChat st.2 chat.id (now i) (rand i)).state.1.KeyedById ∧ _
          rw [hst1]
          refine ⟨rfl, ⟨by simp [JSMap.keys], ?_⟩, Or.inr ⟨?_, i, rfl⟩, ?_, ?_, ?_⟩
          · intro e he
            simp at he
            subst he
            rfl
          · simp only [List.map_cons, List.map_nil]
            rw [← filter_delete_step, hempty]
            rfl
          · intro _
            exact ⟨_, rfl, by simp [JSMap.has]⟩
          · intro cur hc hn
            rw [hcur] at hc
            cases hc
            simp at hn
          · intro _
            exact currentMostRecent_singleton _
      | cons first rs =>
        have hst1 := h3 hcur first rs hs
        have hmax := head_sortDesc_max _ _ _ _ hs
        have hwfD : ChatManager.KeyedById ⟨JSMap.delete st.1.chats chat.id, some first.id⟩ :=
          KeyedById.delete st.1.chats st.1.currentChatId _ chat.id hwf
        have hgetF := KeyedById.get?_of_mem_values _ hwfD first hmax.1
        have hwf1 : (st.1.deleteChat st.2 chat.id (now i) (rand i)).state.1.KeyedById := by
          rw [hst1]
          exact hwfD
        have hall1 : ∀ c ∈ rest, JSMap.has
            (st.1.deleteChat st.2 chat.id (now i) (rand i)).state.1.chats c.id = true := by
          rw [hst1]
          exact hallD
        obtain ⟨g1, g2, g3, g4, g5, g6⟩ := ih (i + 1) _ hwf1 hnd2.2 hall1
        rw [hst1] at g3 g4 g6
        refine ⟨g1, g2, ?_, ?_, ?_, ?_⟩
        · simp only [List.map_cons]
          rw [← filter_delete_step]
          exact g3
        · intro _
          exact g4 ⟨first.id, rfl, has_of_get? _ _ _ hgetF⟩
        · intro cur hc hn
          rw [hcur] at hc
          cases hc
          simp at hn
        · intro _
          exact g6 (Or.inl ⟨first, rfl, hgetF, hmax.2⟩)
    · have hst1 := h2 hcur
      have hwfD : ChatManager.KeyedById ⟨JSMap.delete st.1.chats chat.id, st.1.currentChatId⟩ :=
        KeyedById.delete st.1.chats st.1.currentChatId _ chat.id hwf
      have hwf1 : (st.1.deleteChat st.2 chat.id (now i) (rand i)).state.1.KeyedById := by
        rw [hst1]
        exact hwfD
      have hall1 : ∀ c ∈ rest, JSMap.has
          (st.1.deleteChat st.2 chat.id (now i) (rand i)).state.1.chats c.id = true := by
        rw [hst1]
        exact hallD
      obtain ⟨g1, g2, g3, g4, g5, g6⟩ := ih (i + 1) _ hwf1 hnd2.2 hall1
      rw [hst1] at g3 g4 g5 g6
      refine ⟨g1, g2, ?_, ?_, ?_, ?_⟩
      · simp only [List.map_cons]
        rw [← filter_delete_step]
        exact g3
      · intro hcv
        apply g4
        obtain ⟨cur, hc1, hc2⟩ := hcv
        refine ⟨cur, hc1, ?_⟩
        have hne : chat.id ≠ cur := by
          intro e
          apply hcur
          rw [hc1, e]
        show JSMap.has (JSMap.delete st.1.chats chat.id) cur = true
        rw [JSMap.has_delete_ne _ _ _ hne]
        exact hc2
      · intro cur hc hn
        apply g5 cur hc
        intro hm
        apply hn
        simp only [List.map_cons, List.mem_cons]
        exact Or.inr hm
      · intro h
        apply g6
        rcases h with h | ⟨cur, hc1, hc2⟩
        · exact Or.inl (currentMostRecent_delete st.1 chat.id h hcur)
        · refine Or.inr ⟨cur, hc1, ?_⟩
          simp only [List.map_cons, List.mem_cons] at hc2
          rcases hc2 with hc2 | hc2
          · exfalso
            apply hcur
            rw [hc1, hc2]
          · exact hc2

theorem values_map_id (cm : ChatManager) (hwf : cm.KeyedById) :
    (JSMap.values cm.chats).map Chat.id = JSMap.keys cm.chats := by
  unfold JSMap.values JSMap.keys
  rw [List.map_map]
  apply List.map_congr_left
  intro e he
  exact hwf.2 e he

theorem getChatsByProject_nodup (cm : ChatManager) (hwf : cm.KeyedById) (id : JSString) :
    ((cm.getChatsByProject id).map Chat.id).Nodup := by
  unfold ChatManager.getChatsByProject
  have hp := (perm_sortDesc Chat.updatedAt
    ((JSMap.values cm.chats).filter (fun chat => chat.projectId == some id))).map Chat.id
  rw [hp.nodup_iff]
  have hsub : (((JSMap.values cm.chats).filter (fun chat => chat.projectId == some id)).map
      Chat.id).Sublist ((JSMap.values cm.chats).map Chat.id) :=
    (List.filter_sublist _).map Chat.id
  apply hsub.nodup
  rw [values_map_id cm hwf]
  exact hwf.1

/-- For chats keyed by id, removing the keys listed by `getChatsByProject(id)`
leaves the chats that do not reference the project. -/
theorem filter_not_listed (cm : ChatManager) (hwf : cm.KeyedById) (id : JSString) :
    cm.chats.filter (fun e => !(((cm.getChatsByProject id).map Chat.id).contains e.1)) =
      cm.chats.filter (fun e => e.2.projectId != some id) := by
  apply List.filter_congr
  intro e he
  have hg : JSMap.get? cm.chats e.1 = some e.2 :=
    (JSMap.get?_eq_some_iff _ _ _ hwf.1).2 he
  have hiff := getChatsByProject_ids cm hwf id e.1 e.2 hg
  by_cases hp : e.2.projectId = some id
  · have := hiff.2 hp
    simp [hp, this]
  · have hn : e.1 ∉ (cm.getChatsByProject id).map Chat.id := fun h => hp (hiff.1 h)
    have hc : ((cm.getChatsByProject id).map Chat.id).contains e.1 = false := by
      simpa using hn
    rw [hc]
    simp [hp]

theorem deleteProject_notFound (pm : ProjectManager) (db : Database) (id : JSString)
    (deleteChats : Bool) (chatManager : Option ChatManager) (now : Nat → Nat)
    (rand : Nat → JSString) (hid : JSMap.has pm.projects id = false) :
    pm.deleteProject db id deleteChats chatManager now rand =
      ⟨⟨pm, chatManager, db⟩, some (js "Project not found")⟩ := by
  unfold ProjectManager.deleteProject
  simp only [hid, Bool.not_false, if_true]

theorem deleteProject_without (pm : ProjectManager) (db : Database) (id : JSString)
    (deleteChats : Bool) (now : Nat → Nat) (rand : Nat → JSString)
    (hid : JSMap.has pm.projects id = true) :
    (pm.deleteProject db id deleteChats none now rand).error = none ∧
    (pm.deleteProject db id deleteChats none now rand).state.chatManager = none ∧
    (pm.deleteProject db id deleteChats none now rand).state.projectManager =
      ⟨JSMap.delete pm.projects id,
        if pm.currentProjectId = some id then none else pm.currentProjectId⟩ := by
  unfold ProjectManager.deleteProject
  simp only [hid, Bool.not_true, Bool.false_eq_true, if_false]
  by_cases hc : pm.currentProjectId = some id
  · simp [hc]
  · simp [hc]

theorem deleteProject_with (pm : ProjectManager) (db : Database) (id : JSString)
    (deleteChats : Bool) (cm : ChatManager) (now : Nat → Nat) (rand : Nat → JSString)
    (hid : JSMap.has pm.projects id = true)
    (herr : (if deleteChats then deleteChatsLoop now rand (cm.getChatsByProject id) 0 (cm, db)
      else detachChatsLoop now (cm.getChatsByProject id) 0 (cm, db)).error = none) :
    (pm.deleteProject db id deleteChats (some cm) now rand).error = none ∧
    (pm.deleteProject db id deleteChats (some cm) now rand).state.chatManager =
      some (if deleteChats then deleteChatsLoop now rand (cm.getChatsByProject id) 0 (cm, db)
        else detachChatsLoop now (cm.getChatsByProject id) 0 (cm, db)).state.1 ∧
    (pm.deleteProject db id deleteChats (some cm) now rand).state.projectManager =
      ⟨JSMap.delete pm.projects id,
        if pm.currentProjectId = some id then none else pm.currentProjectId⟩ := by
  unfold ProjectManager.deleteProject
  simp only [hid, Bool.not_true, Bool.false_eq_true, if_false, herr]
  by_cases hc : pm.currentProjectId = some id
  · simp [hc]
  · simp [hc]

/-! ## Properties of `ProjectManager.deleteProject` -/

/-- Counterexample to C16 as stated: the call `deleteProject("p1", false)`,
without a chat manager, on a project with two chats returns normally and
removes the project, and both chats still have `projectId == "p1"`. -/
theorem deleteProject_without_chatManager_keeps_references :
    (App.deleteProject
        ⟨⟨[], [], [], []⟩,
         ⟨[(js "c1", Chat.new { id := some (js "c1"), projectId := some (js "p1") } 10 []),
           (js "c2", Chat.new { id := some (js "c2"), projectId := some (js "p1") } 20 [])],
          some (js "c2")⟩,
         ⟨[(js "p1", ⟨js "p1", js "Work", [], js "#6366f1", js "P", 5, 5, []⟩)], none⟩⟩
        (js "p1") false false (fun _ => 30) (fun _ => js "k3x9")).error = none ∧
    JSMap.keys (App.deleteProject
        ⟨⟨[], [], [], []⟩,
         ⟨[(js "c1", Chat.new { id := some (js "c1"), projectId := some (js "p1") } 10 []),
           (js "c2", Chat.new { id := some (js "c2"), projectId := some (js "p1") } 20 [])],
          some (js "c2")⟩,
         ⟨[(js "p1", ⟨js "p1", js "Work", [], js "#6366f1", js "P", 5, 5, []⟩)], none⟩⟩
        (js "p1") false false (fun _ => 30) (fun _ => js "k3x9")).state.projectManager.projects
      = [] ∧
    (JSMap.values (App.deleteProject
        ⟨⟨[], [], [], []⟩,
         ⟨[(js "c1", Chat.new { id := some (js "c1"), projectId := some (js "p1") } 10 []),
           (js "c2", Chat.new { id := some (js "c2"), projectId := some (js "p1") } 20 [])],
          some (js "c2")⟩,
         ⟨[(js "p1", ⟨js "p1", js "Work", [], js "#6366f1", js "P", 5, 5, []⟩)], none⟩⟩
        (js "p1") false false (fun _ => 30) (fun _ => js "k3x9")).state.chatManager.chats).map
        Chat.projectId = [some (js "p1"), some (js "p1")] := by
  refine ⟨by decide, by decide, by decide⟩

/-- C16, amended: `deleteProject(id, false, chatManager)`, with the chat manager
passed, on an existing project and chats stored under their own ids, does not
throw and detaches the project's chats: afterwards every chat that referenced
`id` has `projectId == null` (and its id), the keys of the chat collection are
unchanged, and every chat that did not reference `id` is unchanged. When no
chat manager is passed (`deleteProject(id, deleteChats)`), the call does not
throw and leaves the chat manager as it was. -/
theorem deleteProject_detaches_with_chatManager (app : App) (id : JSString)
    (now : Nat → Nat) (rand : Nat → JSString)
    (hid : JSMap.has app.projectManager.projects id = true) :
    (app.chatManager.KeyedById →
      (app.deleteProject id false true now rand).error = none ∧
      JSMap.keys (app.deleteProject id false true now rand).state.chatManager.chats =
        JSMap.keys app.chatManager.chats ∧
      ∀ (k : JSString) (c : Chat), JSMap.get? app.chatManager.chats k = some c →
        (c.projectId = some id → ∃ c2 : Chat,
          JSMap.get? (app.deleteProject id false true now rand).state.chatManager.chats k =
            some c2 ∧ c2.projectId = none ∧ c2.id = c.id) ∧
        (c.projectId ≠ some id →
          JSMap.get? (app.deleteProject id false true now rand).state.chatManager.chats k =
            some c)) ∧
    (∀ deleteChats : Bool,
      (app.deleteProject id deleteChats false now rand).error = none ∧
      (app.deleteProject id deleteChats false now rand).state.chatManager = app.chatManager) := by
  constructor
  · intro hwf
    obtain ⟨l1, l2, l3, l4, l5, l6⟩ := detachChatsLoop_spec now
      (app.chatManager.getChatsByProject id) 0 (app.chatManager, app.db) hwf
      (getChatsByProject_has app.chatManager hwf id)
    obtain ⟨d1, d2, _⟩ := deleteProject_with app.projectManager app.db id false app.chatManager
      now rand hid l1
    have hcm : (app.deleteProject id false true now rand).state.chatManager =
        (detachChatsLoop now (app.chatManager.getChatsByProject id) 0
          (app.chatManager, app.db)).state.1 := by
      show Option.getD (ProjectManager.deleteProject app.projectManager app.db id false
        (some app.chatManager) now rand).state.chatManager app.chatManager = _
      rw [d2]
      rfl
    have herr : (app.deleteProject id false true now rand).error = none := d1
    rw [hcm]
    refine ⟨herr, l3, ?_⟩
    intro k c hc
    have hiff := getChatsByProject_ids app.chatManager hwf id k c hc
    have hcid : c.id = k := KeyedById.id_of_get? app.chatManager hwf k c hc
    constructor
    · intro hp
      obtain ⟨c2, h1, h2, h3⟩ := l6 k (hiff.2 hp)
      exact ⟨c2, h1, h2, h3.trans hcid.symm⟩
    · intro hp
      rw [l5 k (fun h => hp (hiff.1 h))]
      exact hc
  · intro deleteChats
    obtain ⟨d1, d2, _⟩ := deleteProject_without app.projectManager app.db id deleteChats
      now rand hid
    constructor
    · exact d1
    · show Option.getD (ProjectManager.deleteProject app.projectManager app.db id deleteChats
        none now rand).state.chatManager app.chatManager = _
      rw [d2]
      rfl

/-- Witness for C16, amended: a project with two chats and one chat outside it;
with the chat manager passed the two chats are detached and all three remain. -/
theorem deleteProject_detaches_with_chatManager_witness :
    JSMap.keys (App.deleteProject
        ⟨⟨[], [], [], []⟩,
         ⟨[(js "c1", Chat.new { id := some (js "c1"), projectId := some (js "p1") } 10 []),
           (js "c2", Chat.new { id := some (js "c2"), projectId := some (js "p1") } 20 []),
           (js "c3", Chat.new { id := some (js "c3"), projectId := some (js "p2") } 25 [])],
          some (js "c2")⟩,
         ⟨[(js "p1", ⟨js "p1", js "Work", [], js "#6366f1", js "P", 5, 5, []⟩)], none⟩⟩
        (js "p1") false true (fun _ => 30) (fun _ => js "k3x9")).state.chatManager.chats =
      [js "c1", js "c2", js "c3"] ∧
    (JSMap.values (App.deleteProject
        ⟨⟨[], [], [], []⟩,
         ⟨[(js "c1", Chat.new { id := some (js "c1"), projectId := some (js "p1") } 10 []),
           (js "c2", Chat.new { id := some (js "c2"), projectId := some (js "p1") } 20 []),
           (js "c3", Chat.new { id := some (js "c3"), projectId := some (js "p2") } 25 [])],
          some (js "c2")⟩,
         ⟨[(js "p1", ⟨js "p1", js "Work", [], js "#6366f1", js "P", 5, 5, []⟩)], none⟩⟩
        (js "p1") false true (fun _ => 30) (fun _ => js "k3x9")).state.chatManager.chats).map
        Chat.projectId = [none, none, some (js "p2")] :=
  ⟨((deleteProject_detaches_with_chatManager
      ⟨⟨[], [], [], []⟩,
       ⟨[(js "c1", Chat.new { id := some (js "c1"), projectId := some (js "p1") } 10 []),
         (js "c2", Chat.new { id := some (js "c2"), projectId := some (js "p1") } 20 []),
         (js "c3", Chat.new { id := some (js "c3"), projectId := some (js "p2") } 25 [])],
        some (js "c2")⟩,
       ⟨[(js "p1", ⟨js "p1", js "Work", [], js "#6366f1", js "P", 5, 5, []⟩)], none⟩⟩
      (js "p1") (fun _ => 30) (fun _ => js "k3x9") (by decide)).1 (by decide)).2.1.trans
      (by decide),
   by decide⟩

/-- Counterexample to C17 as stated: when the current chat does not belong to
the deleted project it stays current, also when another surviving chat was
updated more recently. Here `c3` (updated at 25) stays current although the
survivor `c4` was updated at 50. -/
theorem deleteProject_cascade_keeps_current :
    (App.deleteProject
        ⟨⟨[], [], [], []⟩,
         ⟨[(js "c1", Chat.new { id := some (js "c1"), projectId := some (js "p1") } 10 []),
           (js "c3", Chat.new { id := some (js "c3"), projectId := some (js "p2") } 25 []),
           (js "c4", Chat.new { id := some (js "c4") } 50 [])],
          some (js "c3")⟩,
         ⟨[(js "p1", ⟨js "p1", js "Work", [], js "#6366f1", js "P", 5, 5, []⟩)], none⟩⟩
        (js "p1") true true (fun _ => 60) (fun _ => js "k3x9")).state.chatManager.currentChatId =
      some (js "c3") ∧
    (JSMap.values (App.deleteProject
        ⟨⟨[], [], [], []⟩,
         ⟨[(js "c1", Chat.new { id := some (js "c1"), projectId := some (js "p1") } 10 []),
           (js "c3", Chat.new { id := some (js "c3"), projectId := some (js "p2") } 25 []),
           (js "c4", Chat.new { id := some (js "c4") } 50 [])],
          some (js "c3")⟩,
         ⟨[(js "p1", ⟨js "p1", js "Work", [], js "#6366f1", js "P", 5, 5, []⟩)], none⟩⟩
        (js "p1") true true (fun _ => 60) (fun _ => js "k3x9")).state.chatManager.chats).map
        (fun c => (c.id, c.updatedAt)) = [(js "c3", 25), (js "c4", 50)] := by
  refine ⟨by decide, by decide⟩

/-- C17, amended: `deleteProject(id, true, chatManager)` on an existing project,
for a chat manager whose chats are stored under their own ids and whose current
chat is one of them, does not throw and deletes the project's chats: afterwards
no chat of the collection references `id` (so no chat that referenced `id` is
there), every chat that did not reference `id` is still there, and the current
chat is a chat of the collection. The current chat is unchanged if it did not
reference `id`; if it did, the current chat is one with the greatest
`updatedAt` of the collection, which consists of the surviving chats when there
are any and otherwise of exactly one chat built by `new Chat({})`. -/
theorem deleteProject_cascade (app : App) (id : JSString) (now : Nat → Nat)
    (rand : Nat → JSString) (hwf : app.chatManager.KeyedById)
    (hcv : app.chatManager.CurrentValid)
    (hid : JSMap.has app.projectManager.projects id = true) :
    (app.deleteProject id true true now rand).error = none ∧
    (∀ c ∈ JSMap.values (app.deleteProject id true true now rand).state.chatManager.chats,
      c.projectId ≠ some id) ∧
    (∀ (k : JSString) (c : Chat), JSMap.get? app.chatManager.chats k = some c →
      c.projectId = some id →
      JSMap.get? (app.deleteProject id true true now rand).state.chatManager.chats k ≠ some c) ∧
    (∀ (k : JSString) (c : Chat), JSMap.get? app.chatManager.chats k = some c →
      c.projectId ≠ some id →
      JSMap.get? (app.deleteProject id true true now rand).state.chatManager.chats k = some c) ∧
    (app.deleteProject id true true now rand).state.chatManager.CurrentValid ∧
    (∀ (cur : JSString) (c : Chat), app.chatManager.currentChatId = some cur →
      JSMap.get? app.chatManager.chats cur = some c →
      (c.projectId ≠ some id →
        (app.deleteProject id true true now rand).state.chatManager.currentChatId = some cur) ∧
      (c.projectId = some id →
        (app.deleteProject id true true now rand).state.chatManager.CurrentMostRecent ∧
        ((∃ e ∈ app.chatManager.chats, e.2.projectId ≠ some id) →
          (app.deleteProject id true true now rand).state.chatManager.chats =
            app.chatManager.chats.filter (fun e => e.2.projectId != some id)) ∧
        ((∀ e ∈ app.chatManager.chats, e.2.projectId = some id) →
          ∃ j, (app.deleteProject id true true now rand).state.chatManager.chats =
            [((Chat.new {} (now j) (rand j)).id, Chat.new {} (now j) (rand j))]))) := by
  obtain ⟨l1, l2, l3, l4, l5, l6⟩ := deleteChatsLoop_spec now rand
    (app.chatManager.getChatsByProject id) 0 (app.chatManager, app.db) hwf
    (getChatsByProject_nodup app.chatManager hwf id)
    (getChatsByProject_has app.chatManager hwf id)
  obtain ⟨d1, d2, _⟩ := deleteProject_with app.projectManager app.db id true app.chatManager
    now rand hid l1
  have hcm : (app.deleteProject id true true now rand).state.chatManager =
      (deleteChatsLoop now rand (app.chatManager.getChatsByProject id) 0
        (app.chatManager, app.db)).state.1 := by
    show Option.getD (ProjectManager.deleteProject app.projectManager app.db id true
      (some app.chatManager) now rand).state.chatManager app.chatManager = _
    rw [d2]
    rfl
  have herr : (app.deleteProject id true true now rand).error = none := d1
  rw [hcm]
  rw [filter_not_listed app.chatManager hwf id] at l3
  have hvalid := l4 hcv
  -- the collection after the loop is not empty
  have hne : (deleteChatsLoop now rand (app.chatManager.getChatsByProject id) 0
      (app.chatManager, app.db)).state.1.chats ≠ [] := by
    obtain ⟨cur, _, hc⟩ := hvalid
    intro he
    rw [he] at hc
    simp [JSMap.has] at hc
  have hnone : ∀ c ∈ JSMap.values (deleteChatsLoop now rand
      (app.chatManager.getChatsByProject id) 0 (app.chatManager, app.db)).state.1.chats,
      c.projectId ≠ some id := by
    intro c hc
    rcases l3 with h | ⟨_, j, h⟩
    · rw [h] at hc
      obtain ⟨k, hk⟩ := (JSMap.mem_values_iff _ _).1 hc
      have := (List.mem_filter.1 hk).2
      simpa using this
    · rw [h] at hc
      simp [JSMap.values] at hc
      subst hc
      simp [Chat.new]
  have hsurv : ∀ e ∈ app.chatManager.chats, e.2.projectId ≠ some id →
      (deleteChatsLoop now rand (app.chatManager.getChatsByProject id) 0
        (app.chatManager, app.db)).state.1.chats =
        app.chatManager.chats.filter (fun e => e.2.projectId != some id) := by
    intro e he hp
    rcases l3 with h | ⟨h, _⟩
    · exact h
    · have hm : e ∈ app.chatManager.chats.filter (fun e => e.2.projectId != some id) :=
        List.mem_filter.2 ⟨he, by simpa using hp⟩
      rw [h] at hm
      simp at hm
  refine ⟨herr, hnone, ?_, ?_, hvalid, ?_⟩
  · intro k c _ hp hg
    exact hnone c (mem_values_of_get? _ _ _ hg) hp
  · intro k c hc hp
    have hmem : (k, c) ∈ app.chatManager.chats := (JSMap.get?_eq_some_iff _ _ _ hwf.1).1 hc
    rw [hsurv (k, c) hmem hp]
    have hnd : (JSMap.keys
        (app.chatManager.chats.filter (fun e => e.2.projectId != some id))).Nodup :=
      ((List.filter_sublist _).map Prod.fst).nodup hwf.1
    exact (JSMap.get?_eq_some_iff _ _ _ hnd).2 (List.mem_filter.2 ⟨hmem, by simpa using hp⟩)
  · intro cur c hcur hc
    have hiff := getChatsByProject_ids app.chatManager hwf id cur c hc
    constructor
    · intro hp
      exact l5 cur hcur (fun h => hp (hiff.1 h))
    · intro hp
      refine ⟨l6 (Or.inr ⟨cur, hcur, hiff.2 hp⟩), ?_, ?_⟩
      · intro hex
        obtain ⟨e, he, hpe⟩ := hex
        exact hsurv e he hpe
      · intro hall
        rcases l3 with h | ⟨_, j, h⟩
        · exfalso
          apply hne
          rw [h]
          apply List.filter_eq_nil_iff.2
          intro e he
          simp [hall e he]
        · exact ⟨j, h⟩

/-- Witness for C17, amended: a project with two chats, one of them current, and one chat
outside it; the outside chat survives and becomes current. -/
theorem deleteProject_cascade_witness :
    JSMap.keys (App.deleteProject
        ⟨⟨[], [], [], []⟩,
         ⟨[(js "c1", Chat.new { id := some (js "c1"), projectId := some (js "p1") } 10 []),
           (js "c2", Chat.new { id := some (js "c2"), projectId := some (js "p1") } 20 []),
           (js "c3", Chat.new { id := some (js "c3"), projectId := some (js "p2") } 25 [])],
          some (js "c2")⟩,
         ⟨[(js "p1", ⟨js "p1", js "Work", [], js "#6366f1", js "P", 5, 5, []⟩)], none⟩⟩
        (js "p1") true true (fun _ => 30) (fun _ => js "k3x9")).state.chatManager.chats =
      [js "c3"] ∧
    (App.deleteProject
        ⟨⟨[], [], [], []⟩,
         ⟨[(js "c1", Chat.new { id := some (js "c1"), projectId := some (js "p1") } 10 []),
           (js "c2", Chat.new { id := some (js "c2"), projectId := some (js "p1") } 20 []),
           (js "c3", Chat.new { id := some (js "c3"), projectId := some (js "p2") } 25 [])],
          some (js "c2")⟩,
         ⟨[(js "p1", ⟨js "p1", js "Work", [], js "#6366f1", js "P", 5, 5, []⟩)], none⟩⟩
        (js "p1") true true (fun _ => 30) (fun _ => js "k3x9")).error = none :=
  ⟨by decide,
   (deleteProject_cascade
      ⟨⟨[], [], [], []⟩,
       ⟨[(js "c1", Chat.new { id := some (js "c1"), projectId := some (js "p1") } 10 []),
         (js "c2", Chat.new { id := some (js "c2"), projectId := some (js "p1") } 20 []),
         (js "c3", Chat.new { id := some (js "c3"), projectId := some (js "p2") } 25 [])],
        some (js "c2")⟩,
       ⟨[(js "p1", ⟨js "p1", js "Work", [], js "#6366f1", js "P", 5, 5, []⟩)], none⟩⟩
      (js "p1") (fun _ => 30) (fun _ => js "k3x9") (by decide) ⟨js "c2", rfl, by decide⟩
      (by decide)).1⟩

/-- C18: `deleteProject` on an existing id (with chats stored under their own
ids when a chat manager is passed) does not throw and removes exactly that
project from the project collection: the key is gone and every other key keeps
its project. The current project becomes none if it was `id` and is unchanged
otherwise. On an id that is not in the collection it throws `Project not found`
and the whole state, projects and chats, is unchanged. -/
theorem deleteProject_removes_project (app : App) (id : JSString)
    (deleteChats passChatManager : Bool) (now : Nat → Nat) (rand : Nat → JSString) :
    (JSMap.has app.projectManager.projects id = true →
      (passChatManager = true → app.chatManager.KeyedById) →
      (app.deleteProject id deleteChats passChatManager now rand).error = none ∧
      (app.deleteProject id deleteChats passChatManager now rand).state.projectManager.projects =
        JSMap.delete app.projectManager.projects id ∧
      JSMap.has (JSMap.delete app.projectManager.projects id) id = false ∧
      (∀ k, k ≠ id → JSMap.get? (JSMap.delete app.projectManager.projects id) k =
        JSMap.get? app.projectManager.projects k) ∧
      (app.projectManager.currentProjectId = some id →
        (app.deleteProject id deleteChats passChatManager now rand).state.projectManager.currentProjectId
          = none) ∧
      (app.projectManager.currentProjectId ≠ some id →
        (app.deleteProject id deleteChats passChatManager now rand).state.projectManager.currentProjectId
          = app.projectManager.currentProjectId)) ∧
    (JSMap.has app.projectManager.projects id = false →
      (app.deleteProject id deleteChats passChatManager now rand).error =
        some (js "Project not found") ∧
      (app.deleteProject id deleteChats passChatManager now rand).state = app) := by
  constructor
  · intro hid hwf
    have hpm : (app.deleteProject id deleteChats passChatManager now rand).error = none ∧
        (app.deleteProject id deleteChats passChatManager now rand).state.projectManager =
          ⟨JSMap.delete app.projectManager.projects id,
            if app.projectManager.currentProjectId = some id then none
            else app.projectManager.currentProjectId⟩ := by
      cases passChatManager with
      | false =>
        obtain ⟨d1, _, d3⟩ := deleteProject_without app.projectManager app.db id deleteChats
          now rand hid
        exact ⟨d1, d3⟩
      | true =>
        have hw := hwf rfl
        have herr : (if deleteChats then
            deleteChatsLoop now rand (app.chatManager.getChatsByProject id) 0
              (app.chatManager, app.db)
            else detachChatsLoop now (app.chatManager.getChatsByProject id) 0
              (app.chatManager, app.db)).error = none := by
          cases deleteChats with
          | true =>
            exact (deleteChatsLoop_spec now rand (app.chatManager.getChatsByProject id) 0
              (app.chatManager, app.db) hw (getChatsByProject_nodup app.chatManager hw id)
              (getChatsByProject_has app.chatManager hw id)).1
          | false =>
            exact (detachChatsLoop_spec now (app.chatManager.getChatsByProject id) 0
              (app.chatManager, app.db) hw (getChatsByProject_has app.chatManager hw id)).1
        obtain ⟨d1, _, d3⟩ := deleteProject_with app.projectManager app.db id deleteChats
          app.chatManager now rand hid herr
        exact ⟨d1, d3⟩
    obtain ⟨h1, h2⟩ := hpm
    rw [h2]
    refine ⟨h1, rfl, JSMap.has_delete_self _ _, ?_, ?_, ?_⟩
    · intro k hk
      exact JSMap.get?_delete_ne _ _ _ (fun e => hk e.symm)
    · intro hc
      simp [hc]
    · intro hc
      simp [hc]
  · intro hid
    unfold App.deleteProject
    rw [deleteProject_notFound _ _ _ _ _ _ _ hid]
    refine ⟨rfl, ?_⟩
    cases passChatManager <;> rfl

/-- Witness for C18: deleting the current project clears the selection, and an
unknown id is refused. -/
theorem deleteProject_removes_project_witness :
    (App.deleteProject
        ⟨⟨[], [], [], []⟩, ⟨[], none⟩,
         ⟨[(js "p1", ⟨js "p1", js "Work", [], js "#6366f1", js "P", 5, 5, []⟩),
           (js "p2", ⟨js "p2", js "Home", [], js "#6366f1", js "P", 6, 6, []⟩)],
          some (js "p1")⟩⟩
        (js "p1") false false (fun _ => 30) (fun _ => js "k3x9")).state.projectManager.currentProjectId
      = none ∧
    (App.deleteProject
        ⟨⟨[], [], [], []⟩, ⟨[], none⟩,
         ⟨[(js "p1", ⟨js "p1", js "Work", [], js "#6366f1", js "P", 5, 5, []⟩)], none⟩⟩
        (js "p9") true true (fun _ => 30) (fun _ => js "k3x9")).error =
      some (js "Project not found") :=
  ⟨((deleteProject_removes_project
      ⟨⟨[], [], [], []⟩, ⟨[], none⟩,
       ⟨[(js "p1", ⟨js "p1", js "Work", [], js "#6366f1", js "P", 5, 5, []⟩),
         (js "p2", ⟨js "p2", js "Home", [], js "#6366f1", js "P", 6, 6, []⟩)],
        some (js "p1")⟩⟩
      (js "p1") false false (fun _ => 30) (fun _ => js "k3x9")).1 (by decide)
      (fun h => absurd h (by decide))).2.2.2.2.1 rfl,
   ((deleteProject_removes_project
      ⟨⟨[], [], [], []⟩, ⟨[], none⟩,
       ⟨[(js "p1", ⟨js "p1", js "Work", [], js "#6366f1", js "P", 5, 5, []⟩)], none⟩⟩
      (js "p9") true true (fun _ => 30) (fun _ => js "k3x9")).2 (by decide)).1⟩

/-! ## Properties of `Chat.addMessage`, `updateMessage` and `deleteMessage` -/

theorem get_makeMessage_role (role content : JSString) (metadata : JSObject) (now : Nat)
    (h : metadata.has (js "role") = false) :
    (makeMessage role content metadata now).get (js "role") = JSValue.str role := by
  unfold makeMessage
  rw [JSObject.get_spread_of_not_has _ _ _ h]
  rfl

theorem get_makeMessage_content (role content : JSString) (metadata : JSObject) (now : Nat)
    (h : metadata.has (js "content") = false) :
    (makeMessage role content metadata now).get (js "content") = JSValue.str content := by
  unfold makeMessage
  rw [JSObject.get_spread_of_not_has _ _ _ h]
  rfl

theorem get_makeMessage_timestamp (role content : JSString) (metadata : JSObject) (now : Nat)
    (h : metadata.has (js "timestamp") = false) :
    (makeMessage role content metadata now).get (js "timestamp") = JSValue.ofNat now := by
  unfold makeMessage
  rw [JSObject.get_spread_of_not_has _ _ _ h]
  rfl

theorem addMessage_messages (chat : Chat) (role content : JSString) (metadata : JSObject)
    (now : Nat) :
    (chat.addMessage role content metadata now).messages =
      chat.messages ++ [makeMessage role content metadata now] := rfl

theorem addMessages_messages (calls : List AddCall) (chat : Chat) :
    (chat.addMessages calls).messages =
      chat.messages ++ calls.map (fun c => makeMessage c.role c.content c.metadata c.now) := by
  induction calls generalizing chat with
  | nil => simp [Chat.addMessages]
  | cons c rest ih =>
    have e : chat.addMessages (c :: rest) =
        (chat.addMessage c.role c.content c.metadata c.now).addMessages rest := rfl
    rw [e, ih, addMessage_messages]
    simp

/-- The title test counts the stored roles: a chat titled `New Chat` that
already holds a user message receives `addMessage` with role `user`, content
`Hello` and a metadata object whose `role` property is `assistant`. The stored
message has role assistant, so the count of user messages after the append is
one and the title becomes `Hello`, although the chat held a user message
before the call. -/
theorem addMessage_title_changes_after_user_message :
    (Chat.new { id := some (js "c1"),
                messages := some [[(js "role", JSValue.str (js "user")),
                                   (js "content", JSValue.str (js "Hi"))]] } 1 []).title =
      js "New Chat" ∧
    ((Chat.new { id := some (js "c1"),
                 messages := some [[(js "role", JSValue.str (js "user")),
                                    (js "content", JSValue.str (js "Hi"))]] } 1 []).messages.filter
        isUserMessage).length = 1 ∧
    ((Chat.new { id := some (js "c1"),
                 messages := some [[(js "role", JSValue.str (js "user")),
                                    (js "content", JSValue.str (js "Hi"))]] } 1 []).addMessage
        (js "user") (js "Hello") [(js "role", JSValue.str (js "assistant"))] 5).title =
      js "Hello" := by
  refine ⟨by decide, by decide, by decide⟩

/-- The title rule of `addMessage` for a `metadata` argument without a `role`
property: the title becomes `generateTitle(content)` when the title is
`New Chat`, the role is `user` and the chat held no user-role message before
the call, and is unchanged in every other case. -/
theorem addMessage_title_rule (chat : Chat) (role content : JSString) (metadata : JSObject)
    (now : Nat) (hr : metadata.has (js "role") = false) :
    (chat.addMessage role content metadata now).title =
      if chat.title = js "New Chat" ∧ role = js "user" ∧
          (chat.messages.filter isUserMessage).length = 0 then
        Chat.generateTitle content
      else chat.title := by
  unfold Chat.addMessage
  by_cases ht : chat.title = js "New Chat"
  · by_cases hu : role = js "user"
    · subst hu
      by_cases hm : (chat.messages.filter isUserMessage).length = 0
      · simp [ht, List.filter_append, hm, isUserMessage_makeMessage content metadata now hr]
      · simp [ht, List.filter_append, hm, isUserMessage_makeMessage content metadata now hr]
    · simp [ht, hu]
  · simp [ht]

/-- Example: the first user message of a fresh chat gives the title. -/
theorem addMessage_title_rule_witness :
    JSObject.has [] (js "role") = false ∧
    ((Chat.new { id := some (js "c1") } 1 []).addMessage (js "user") (js "Hello") [] 5).title =
      js "Hello" :=
  ⟨by decide,
   (addMessage_title_rule (Chat.new { id := some (js "c1") } 1 []) (js "user") (js "Hello") [] 5
      (by decide)).trans (by decide)⟩

/-- C21, the behaviour of the code. For a `metadata` argument without a `role`
property `addMessage` follows the rule of the claim: the title changes only
when it is `New Chat`, the role is `user` and the chat held no user-role
message before. The test reads the role argument but counts the stored roles
after the append, so a `metadata` with its own `role` breaks the rule:
on a new chat, `addMessage('user', '###')` leaves the title `New Chat`, and
`addMessage('user', 'Hello', metadata)` with the role `assistant` in
`metadata` stores an assistant message and sets the title to `Hello`, although
the chat held a user-role message before the call. -/
theorem addMessage_title_from_later_message :
    (∀ (chat : Chat) (role content : JSString) (metadata : JSObject) (now : Nat),
      metadata.has (js "role") = false →
      (chat.addMessage role content metadata now).title =
        if chat.title = js "New Chat" ∧ role = js "user" ∧
            (chat.messages.filter isUserMessage).length = 0 then
          Chat.generateTitle content
        else chat.title) ∧
    ((Chat.new {} 1000 (js "k3x9")).addMessage (js "user") (js "###") [] 2000).title =
      js "New Chat" ∧
    (((Chat.new {} 1000 (js "k3x9")).addMessage (js "user") (js "###") [] 2000).messages.filter
      isUserMessage).length = 1 ∧
    ((((Chat.new {} 1000 (js "k3x9")).addMessage (js "user") (js "###") [] 2000).addMessage
      (js "user") (js "Hello") [(js "role", JSValue.str (js "assistant"))] 3000).messages.map
        (fun m => isUserMessage m)) = [true, false] ∧
    ((((Chat.new {} 1000 (js "k3x9")).addMessage (js "user") (js "###") [] 2000).addMessage
      (js "user") (js "Hello") [(js "role", JSValue.str (js "assistant"))] 3000).messages.map
        (fun m => (m.get (js "role")).isStr (js "assistant"))) = [false, true] ∧
    (((Chat.new {} 1000 (js "k3x9")).addMessage (js "user") (js "###") [] 2000).addMessage
      (js "user") (js "Hello") [(js "role", JSValue.str (js "assistant"))] 3000).title =
      js "Hello" := by
  refine ⟨addMessage_title_rule, by decide, by decide, by decide, by decide, by decide⟩

/-- C22, counterexample: `addMessage('user', 'hi', metadata)` with a metadata
object that has its own `role`, `content` and `timestamp` properties appends a
message that carries the values of the metadata, not the arguments and not the
reading 5 of the clock. -/
theorem addMessage_metadata_overrides_fields :
    ((Chat.new { id := some (js "c1") } 1 []).addMessage (js "user") (js "hi")
        [(js "role", JSValue.str (js "system")), (js "content", JSValue.str (js "x")),
         (js "timestamp", JSValue.ofNat 1)] 5).messages =
      [[(js "role", JSValue.str (js "system")), (js "content", JSValue.str (js "x")),
        (js "timestamp", JSValue.ofNat 1)]] := rfl

/-- C22, amended: for a `metadata` argument without `role`, `content` and
`timestamp` properties, `addMessage` leaves the earlier messages in place and
appends one message whose role and content are the arguments and whose
timestamp is the reading of the clock; the other properties of the message are
those of `metadata`; `updatedAt` becomes the reading of the clock. A sequence
of calls appends the messages in call order. -/
theorem addMessage_appends_one (chat : Chat) (role content : JSString) (metadata : JSObject)
    (now : Nat) (calls : List AddCall)
    (hr : metadata.has (js "role") = false) (hc : metadata.has (js "content") = false)
    (ht : metadata.has (js "timestamp") = false) :
    (∃ m, (chat.addMessage role content metadata now).messages = chat.messages ++ [m] ∧
      m.get (js "role") = JSValue.str role ∧ m.get (js "content") = JSValue.str content ∧
      m.get (js "timestamp") = JSValue.ofNat now ∧
      (∀ k, metadata.has k = true → metadata.keys.Nodup → m.get k = metadata.get k) ∧
      (∀ k, m.has k = true ↔
        (k = js "role" ∨ k = js "content" ∨ k = js "timestamp" ∨ metadata.has k = true))) ∧
    (chat.addMessage role content metadata now).updatedAt = now ∧
    (chat.addMessages calls).messages =
      chat.messages ++ calls.map (fun c => makeMessage c.role c.content c.metadata c.now) := by
  refine ⟨⟨makeMessage role content metadata now, rfl,
    get_makeMessage_role role content metadata now hr,
    get_makeMessage_content role content metadata now hc,
    get_makeMessage_timestamp role content metadata now ht, ?_, ?_⟩, rfl,
    addMessages_messages calls chat⟩
  · intro k hk hn
    unfold makeMessage
    exact JSObject.get_spread_of_has _ _ _ hn hk
  · intro k
    unfold makeMessage
    rw [JSObject.has_spread]
    simp only [JSObject.has]
    by_cases h1 : js "role" = k
    · simp [h1]
    · by_cases h2 : js "content" = k
      · simp [h2]
      · by_cases h3 : js "timestamp" = k
        · simp [h3]
        · simp [h1, h2, h3, Ne.symm h1, Ne.symm h2, Ne.symm h3]

/-- Witness for C22: a message with a `model` property is appended to a fresh
chat at the reading 5 of the clock. -/
theorem addMessage_appends_one_witness :
    JSObject.has [(js "model", JSValue.str (js "gpt-4o"))] (js "role") = false ∧
    JSObject.has [(js "model", JSValue.str (js "gpt-4o"))] (js "content") = false ∧
    JSObject.has [(js "model", JSValue.str (js "gpt-4o"))] (js "timestamp") = false ∧
    ((Chat.new { id := some (js "c1") } 1 []).addMessage (js "assistant") (js "Hello")
      [(js "model", JSValue.str (js "gpt-4o"))] 5).updatedAt = 5 :=
  ⟨by decide, by decide, by decide,
   (addMessage_appends_one (Chat.new { id := some (js "c1") } 1 []) (js "assistant") (js "Hello")
      [(js "model", JSValue.str (js "gpt-4o"))] 5 [] (by decide) (by decide) (by decide)).2.1⟩

theorem ofNat_injective : Function.Injective JSValue.ofNat := by
  intro a b h
  unfold JSValue.ofNat at h
  injection h with h
  injection h

theorem timestamps_of_addMessages (chat : Chat) (calls : List AddCall)
    (he : chat.messages = [])
    (hm : ∀ c ∈ calls, c.metadata.has (js "timestamp") = false) :
    (chat.addMessages calls).messages.map (fun m => m.get (js "timestamp")) =
      (calls.map AddCall.now).map JSValue.ofNat := by
  rw [addMessages_messages, he, List.nil_append, List.map_map, List.map_map]
  apply List.map_congr_left
  intro c hc
  exact get_makeMessage_timestamp c.role c.content c.metadata c.now (hm c hc)

/-- C23, counterexample: two `addMessage` calls on an empty chat that read the
same value 5 of the clock, which is a non-decreasing clock, leave two messages
with the same timestamp. -/
theorem addMessages_same_reading_same_timestamp :
    (Chat.new { id := some (js "c1") } 1 []).messages = [] ∧
    ([(⟨js "user", js "a", [], 5⟩ : AddCall), ⟨js "assistant", js "b", [], 5⟩].map
      AddCall.now).Pairwise (fun a b => a ≤ b) ∧
    ((Chat.new { id := some (js "c1") } 1 []).addMessages
      [⟨js "user", js "a", [], 5⟩, ⟨js "assistant", js "b", [], 5⟩]).messages.map
        (fun m => m.get (js "timestamp")) = [JSValue.ofNat 5, JSValue.ofNat 5] ∧
    ¬ (((Chat.new { id := some (js "c1") } 1 []).addMessages
      [⟨js "user", js "a", [], 5⟩, ⟨js "assistant", js "b", [], 5⟩]).messages.map
        (fun m => m.get (js "timestamp"))).Nodup := by
  refine ⟨rfl, by decide, rfl, ?_⟩
  have e : ((Chat.new { id := some (js "c1") } 1 []).addMessages
      [⟨js "user", js "a", [], 5⟩, ⟨js "assistant", js "b", [], 5⟩]).messages.map
        (fun m => m.get (js "timestamp")) = [JSValue.ofNat 5, JSValue.ofNat 5] := rfl
  rw [e]
  simp

/-- C23, amended: in a chat built from an empty chat by `addMessage` calls
whose metadata has no `timestamp` property, under a non-decreasing clock, the
timestamps along the message list are the readings of the clock in call order,
so they are non-decreasing; they are pairwise distinct when the readings are
strictly increasing. -/
theorem addMessages_timestamps (chat : Chat) (calls : List AddCall)
    (he : chat.messages = [])
    (hm : ∀ c ∈ calls, c.metadata.has (js "timestamp") = false)
    (hclock : (calls.map AddCall.now).Pairwise (fun a b => a ≤ b)) :
    (chat.addMessages calls).messages.map (fun m => m.get (js "timestamp")) =
      (calls.map AddCall.now).map JSValue.ofNat ∧
    ((chat.addMessages calls).messages.map (fun m => m.get (js "timestamp"))).Pairwise
      (fun a b => ∃ x y, a = JSValue.ofNat x ∧ b = JSValue.ofNat y ∧ x ≤ y) ∧
    ((calls.map AddCall.now).Pairwise (fun a b => a < b) →
      ((chat.addMessages calls).messages.map (fun m => m.get (js "timestamp"))).Nodup) := by
  have e := timestamps_of_addMessages chat calls he hm
  refine ⟨e, ?_, ?_⟩
  · rw [e, List.pairwise_map]
    exact hclock.imp (fun {a b} h => ⟨a, b, rfl, rfl, h⟩)
  · intro hs
    rw [e]
    exact (hs.imp (fun {a b} h => Nat.ne_of_lt h)).map _ (fun a b h e => h (ofNat_injective e))

/-- Witness for C23: three messages added at the readings 5, 5 and 8. -/
theorem addMessages_timestamps_witness :
    (Chat.new { id := some (js "c1") } 1 []).messages = [] ∧
    ([(⟨js "user", js "a", [], 5⟩ : AddCall), ⟨js "assistant", js "b", [], 5⟩,
      ⟨js "user", js "c", [], 8⟩].map AddCall.now).Pairwise (fun a b => a ≤ b) ∧
    ((Chat.new { id := some (js "c1") } 1 []).addMessages
      [⟨js "user", js "a", [], 5⟩, ⟨js "assistant", js "b", [], 5⟩,
       ⟨js "user", js "c", [], 8⟩]).messages.map (fun m => m.get (js "timestamp")) =
      [JSValue.ofNat 5, JSValue.ofNat 5, JSValue.ofNat 8] :=
  ⟨rfl, by decide,
   (addMessages_timestamps (Chat.new { id := some (js "c1") } 1 [])
      [⟨js "user", js "a", [], 5⟩, ⟨js "assistant", js "b", [], 5⟩, ⟨js "user", js "c", [], 8⟩]
      rfl (by decide) (by decide)).1⟩

theorem assignFirst_of_none (p : JSObject → Bool) (updates : JSObject) (l : List JSObject)
    (h : ∀ m ∈ l, p m = false) : assignFirst p updates l = l := by
  induction l with
  | nil => rfl
  | cons m rest ih =>
    have hm : p m = false := h m (List.mem_cons_self _ _)
    simp only [assignFirst, hm, Bool.false_eq_true, if_false]
    rw [ih (fun x hx => h x (List.mem_cons_of_mem _ hx))]

/-- C24: `updateMessage(timestamp, updates)` returns the chat unchanged when no
message has the timestamp; `deleteMessage(timestamp)` always returns, keeps
exactly the messages whose timestamp differs, in their order, and changes no
field other than `messages` and `updatedAt`. -/
theorem updateMessage_deleteMessage_spec (chat : Chat) (timestamp : Nat) (updates : JSObject)
    (now : Nat) :
    ((∀ m ∈ chat.messages, hasTimestamp timestamp m = false) →
      chat.updateMessage timestamp updates now = chat) ∧
    (chat.deleteMessage timestamp now).messages =
      chat.messages.filter (fun m => !hasTimestamp timestamp m) ∧
    List.Sublist (chat.deleteMessage timestamp now).messages chat.messages ∧
    (∀ m, m ∈ (chat.deleteMessage timestamp now).messages ↔
      m ∈ chat.messages ∧ hasTimestamp timestamp m = false) ∧
    ((∀ m ∈ chat.messages, hasTimestamp timestamp m = false) →
      (chat.deleteMessage timestamp now).messages = chat.messages) ∧
    (chat.deleteMessage timestamp now).title = chat.title ∧
    (chat.deleteMessage timestamp now).id = chat.id := by
  refine ⟨?_, rfl, List.filter_sublist _, ?_, ?_, rfl, rfl⟩
  · intro h
    unfold Chat.updateMessage
    have hf : chat.messages.find? (hasTimestamp timestamp) = none := by
      rw [List.find?_eq_none]
      intro m hm
      simp [h m hm]
    rw [hf]
  · intro m
    unfold Chat.deleteMessage
    simp [List.mem_filter]
  · intro h
    unfold Chat.deleteMessage
    simp only
    rw [List.filter_eq_self]
    intro m hm
    simp [h m hm]

/-- Witness for C24: a chat with messages of timestamps 5 and 8; an update at
timestamp 7 changes nothing. -/
theorem updateMessage_deleteMessage_spec_witness :
    (∀ m ∈ (exampleChat [[(js "role", JSValue.str (js "user")),
                          (js "timestamp", JSValue.ofNat 5)],
                         [(js "role", JSValue.str (js "assistant")),
                          (js "timestamp", JSValue.ofNat 8)]]).messages,
      hasTimestamp 7 m = false) ∧
    (exampleChat [[(js "role", JSValue.str (js "user")), (js "timestamp", JSValue.ofNat 5)],
                  [(js "role", JSValue.str (js "assistant")),
                   (js "timestamp", JSValue.ofNat 8)]]).updateMessage 7
        [(js "content", JSValue.str (js "x"))] 9 =
      exampleChat [[(js "role", JSValue.str (js "user")), (js "timestamp", JSValue.ofNat 5)],
                   [(js "role", JSValue.str (js "assistant")),
                    (js "timestamp", JSValue.ofNat 8)]] :=
  ⟨by decide,
   (updateMessage_deleteMessage_spec
      (exampleChat [[(js "role", JSValue.str (js "user")), (js "timestamp", JSValue.ofNat 5)],
                    [(js "role", JSValue.str (js "assistant")),
                     (js "timestamp", JSValue.ofNat 8)]]) 7
      [(js "content", JSValue.str (js "x"))] 9).1 (by decide)⟩

/-! ## Properties of the `ProviderManager` operations -/

theorem providers_keyed_delete (providers : JSMap Provider) (a a2 : Option JSString)
    (id : JSString) (h : ProviderManager.KeyedById ⟨providers, a⟩) :
    ProviderManager.KeyedById ⟨JSMap.delete providers id, a2⟩ := by
  refine ⟨JSMap.nodup_keys_delete _ _ h.1, ?_⟩
  intro e he
  exact h.2 e ((JSMap.mem_delete _ _ _).1 he).1

theorem providers_keyed_set (providers : JSMap Provider) (a a2 : Option JSString) (k : JSString)
    (p : Provider) (h : ProviderManager.KeyedById ⟨providers, a⟩) (hp : p.id = k) :
    ProviderManager.KeyedById ⟨JSMap.set providers k p, a2⟩ := by
  refine ⟨JSMap.map_nodup_keys_set _ _ _ h.1, ?_⟩
  intro e he
  rcases JSMap.mem_set _ _ _ _ he with he | he
  · subst he
    exact hp
  · exact h.2 e he

theorem providers_get?_of_mem_values (pm : ProviderManager) (h : pm.KeyedById) (p : Provider)
    (hp : p ∈ JSMap.values pm.providers) : JSMap.get? pm.providers p.id = some p := by
  obtain ⟨k, hk⟩ := (JSMap.mem_values_iff _ _).1 hp
  have e : p.id = k := h.2 _ hk
  rw [e]
  exact (JSMap.get?_eq_some_iff _ _ _ h.1).2 hk

theorem providers_id_of_get? (pm : ProviderManager) (h : pm.KeyedById) (k : JSString)
    (p : Provider) (hp : JSMap.get? pm.providers k = some p) : p.id = k :=
  h.2 _ ((JSMap.get?_eq_some_iff _ _ _ h.1).1 hp)

theorem filter_eq_cons_find? {α : Type} (q : α → Bool) (l : List α) :
    (l.filter q).head? = l.find? q := by
  induction l with
  | nil => rfl
  | cons a rest ih =>
    by_cases h : q a = true
    · simp [List.filter_cons, List.find?_cons, h]
    · simp [List.filter_cons, List.find?_cons, h, ih]

/-- The outcome of `deleteProvider` when the provider exists and the providers
are keyed by id. -/
theorem deleteProvider_manager (pm : ProviderManager) (db : Database) (id : JSString)
    (hwf : pm.KeyedById) (hid : JSMap.has pm.providers id = true) :
    pm.deleteProvider db id =
      if pm.activeProviderId = some id then
        ⟨(⟨JSMap.delete pm.providers id,
            ((JSMap.values (JSMap.delete pm.providers id)).find? (fun p => p.enabled)).map
              Provider.id⟩,
          Database.setSetting ⟨Store.delete db.providers id, db.chats, db.projects, db.settings⟩
            (js "activeProvider")
            (((JSMap.values (JSMap.delete pm.providers id)).find? (fun p => p.enabled)).map
              Provider.id)), none⟩
      else
        ⟨(⟨JSMap.delete pm.providers id, pm.activeProviderId⟩,
          ⟨Store.delete db.providers id, db.chats, db.projects, db.settings⟩), none⟩ := by
  unfold ProviderManager.deleteProvider
  simp only [hid, Bool.not_true, Bool.false_eq_true, if_false]
  by_cases ha : pm.activeProviderId = some id
  · simp only [ha, if_true]
    have hh := filter_eq_cons_find? (fun p : Provider => p.enabled)
      (JSMap.values (JSMap.delete pm.providers id))
    unfold ProviderManager.getEnabledProviders
    simp only
    cases hf : (JSMap.values (JSMap.delete pm.providers id)).filter (fun p => p.enabled) with
    | nil =>
      rw [hf] at hh
      simp only [List.head?_nil] at hh
      rw [← hh]
      rfl
    | cons first rest =>
      rw [hf] at hh
      simp only [List.head?_cons] at hh
      rw [← hh]
      have hmem : first ∈ JSMap.values (JSMap.delete pm.providers id) := by
        have : first ∈ (JSMap.values (JSMap.delete pm.providers id)).filter (fun p => p.enabled) := by
          rw [hf]
          exact List.mem_cons_self _ _
        exact (List.mem_filter.1 this).1
      have hk : ProviderManager.KeyedById ⟨JSMap.delete pm.providers id, some id⟩ :=
        providers_keyed_delete pm.providers pm.activeProviderId (some id) id hwf
      have hg := providers_get?_of_mem_values _ hk first hmem
      have hhas : JSMap.has (JSMap.delete pm.providers id) first.id = true := has_of_get? _ _ _ hg
      simp only [ProviderManager.setActiveProvider, hhas, Bool.not_true, Bool.false_eq_true,
        if_false, Option.map_some']
  · simp only [ha, if_false]

theorem store_get?_put_self {α : Type} (s : Store α) (k : JSString) (v : α) :
    Store.get? (Store.put s k v) k = some v := by
  induction s with
  | nil => simp [Store.put, Store.get?]
  | cons e rest ih =>
    obtain ⟨k1, v1⟩ := e
    by_cases h1 : k1 = k
    · simp [Store.put, Store.get?, h1]
    · by_cases h2 : keyLt k k1 = true
      · simp [Store.put, Store.get?, h1, h2]
      · simp [Store.put, Store.get?, h1, h2, ih]

theorem getSetting_setSetting (db : Database) (k : JSString) (v : Option JSString) :
    (db.setSetting k v).getSetting k = v := by
  unfold Database.getSetting Database.setSetting
  simp only [store_get?_put_self]

/-- C25: `deleteProvider(id)` for an id of the collection, in a manager whose
providers are stored under their own ids, returns and removes the provider from
the collection and from the store. If the provider was active, the active
provider becomes the first remaining enabled provider in the iteration order of
the collection, or none when no enabled provider remains, and the setting is
saved; otherwise the active provider is unchanged. -/
theorem deleteProvider_reselects (pm : ProviderManager) (db : Database) (id : JSString)
    (hwf : pm.KeyedById) (hid : JSMap.has pm.providers id = true) :
    (pm.deleteProvider db id).error = none ∧
    (pm.deleteProvider db id).state.1.providers = JSMap.delete pm.providers id ∧
    JSMap.has (pm.deleteProvider db id).state.1.providers id = false ∧
    (∀ k, k ≠ id → JSMap.get? (pm.deleteProvider db id).state.1.providers k =
      JSMap.get? pm.providers k) ∧
    (pm.deleteProvider db id).state.2.providers = Store.delete db.providers id ∧
    (pm.activeProviderId = some id →
      (pm.deleteProvider db id).state.1.activeProviderId =
        ((JSMap.values (JSMap.delete pm.providers id)).find? (fun p => p.enabled)).map
          Provider.id ∧
      (pm.deleteProvider db id).state.2.getSetting (js "activeProvider") =
        (pm.deleteProvider db id).state.1.activeProviderId) ∧
    (pm.activeProviderId ≠ some id →
      (pm.deleteProvider db id).state.1.activeProviderId = pm.activeProviderId ∧
      (pm.deleteProvider db id).state.2.settings = db.settings) := by
  have hm := deleteProvider_manager pm db id hwf hid
  by_cases ha : pm.activeProviderId = some id
  · rw [hm, if_pos ha]
    refine ⟨rfl, rfl, JSMap.has_delete_self _ _, fun k hk => JSMap.get?_delete_ne _ _ _ hk.symm,
      rfl, fun _ => ⟨rfl, getSetting_setSetting _ _ _⟩, fun h => absurd ha h⟩
  · rw [hm, if_neg ha]
    exact ⟨rfl, rfl, JSMap.has_delete_self _ _, fun k hk => JSMap.get?_delete_ne _ _ _ hk.symm,
      rfl, fun h => absurd h ha, fun _ => ⟨rfl, rfl⟩⟩

/-- Witness for C25: of three providers the active one is deleted; the first
enabled provider that remains becomes active. -/
theorem deleteProvider_reselects_witness :
    ProviderManager.KeyedById
      ⟨[(js "a", sampleProvider (js "a") false []), (js "b", sampleProvider (js "b") true []),
        (js "c", sampleProvider (js "c") true [])], some (js "b")⟩ ∧
    JSMap.has [(js "a", sampleProvider (js "a") false []), (js "b", sampleProvider (js "b") true []),
        (js "c", sampleProvider (js "c") true [])] (js "b") = true ∧
    (ProviderManager.deleteProvider
      ⟨[(js "a", sampleProvider (js "a") false []), (js "b", sampleProvider (js "b") true []),
        (js "c", sampleProvider (js "c") true [])], some (js "b")⟩
      ⟨[], [], [], []⟩ (js "b")).state.1.activeProviderId = some (js "c") :=
  ⟨by decide, by decide,
   ((deleteProvider_reselects
      ⟨[(js "a", sampleProvider (js "a") false []), (js "b", sampleProvider (js "b") true []),
        (js "c", sampleProvider (js "c") true [])], some (js "b")⟩
      ⟨[], [], [], []⟩ (js "b") (by decide) (by decide)).2.2.2.2.2.1 rfl).1.trans (by decide)⟩

/-- C27: `setActiveProvider`, `updateProvider`, `deleteProvider`,
`setCurrentChat`, `updateChat`, `deleteChat` and `updateProject` called with an
id that is not in the collection throw the not-found error of their manager and
leave the manager and the database as they were; with an id of the collection
`setActiveProvider` and `setCurrentChat` return and make that id the selection,
saved as the setting, without changing the collection. -/
theorem unknown_id_rejected (pm : ProviderManager) (cm : ChatManager) (pjm : ProjectManager)
    (db : Database) (id : JSString) (providerUpdates : ProviderPatch) (chatUpdates : ChatPatch)
    (projectUpdates : ProjectPatch) (now : Nat) (rand : JSString) :
    (JSMap.has pm.providers id = false →
      pm.setActiveProvider db id = ⟨(pm, db), some (js "Provider not found")⟩ ∧
      pm.updateProvider db id providerUpdates now = ⟨(pm, db), some (js "Provider not found")⟩ ∧
      pm.deleteProvider db id = ⟨(pm, db), some (js "Provider not found")⟩) ∧
    (JSMap.has cm.chats id = false →
      cm.setCurrentChat db id = ⟨(cm, db), some (js "Chat not found")⟩ ∧
      cm.updateChat db id chatUpdates now = ⟨(cm, db), some (js "Chat not found")⟩ ∧
      cm.deleteChat db id now rand = ⟨(cm, db), some (js "Chat not found")⟩) ∧
    (JSMap.has pjm.projects id = false →
      pjm.updateProject db id projectUpdates now =
        ⟨(pjm, db), some (js "Project not found")⟩) ∧
    (JSMap.has pm.providers id = true →
      (pm.setActiveProvider db id).error = none ∧
      (pm.setActiveProvider db id).state.1.activeProviderId = some id ∧
      (pm.setActiveProvider db id).state.1.providers = pm.providers ∧
      (pm.setActiveProvider db id).state.2.getSetting (js "activeProvider") = some id) ∧
    (JSMap.has cm.chats id = true →
      (cm.setCurrentChat db id).error = none ∧
      (cm.setCurrentChat db id).state.1.currentChatId = some id ∧
      (cm.setCurrentChat db id).state.1.chats = cm.chats ∧
      (cm.setCurrentChat db id).state.2.getSetting (js "currentChat") = some id) := by
  refine ⟨?_, ?_, ?_, ?_, ?_⟩
  · intro h
    have hg : JSMap.get? pm.providers id = none := by
      rw [JSMap.has_eq_isSome_get?] at h
      cases hx : JSMap.get? pm.providers id with
      | none => rfl
      | some v => rw [hx] at h; simp at h
    refine ⟨?_, ?_, ?_⟩
    · simp [ProviderManager.setActiveProvider, h]
    · simp [ProviderManager.updateProvider, hg]
    · simp [ProviderManager.deleteProvider, h]
  · intro h
    have hg : JSMap.get? cm.chats id = none := by
      rw [JSMap.has_eq_isSome_get?] at h
      cases hx : JSMap.get? cm.chats id with
      | none => rfl
      | some v => rw [hx] at h; simp at h
    refine ⟨?_, ?_, ?_⟩
    · simp [ChatManager.setCurrentChat, h]
    · simp [ChatManager.updateChat, hg]
    · simp [ChatManager.deleteChat, h]
  · intro h
    have hg : JSMap.get? pjm.projects id = none := by
      rw [JSMap.has_eq_isSome_get?] at h
      cases hx : JSMap.get? pjm.projects id with
      | none => rfl
      | some v => rw [hx] at h; simp at h
    simp [ProjectManager.updateProject, hg]
  · intro h
    have e : pm.setActiveProvider db id =
        ⟨(⟨pm.providers, some id⟩, db.setSetting (js "activeProvider") (some id)), none⟩ := by
      simp [ProviderManager.setActiveProvider, h]
    rw [e]
    exact ⟨rfl, rfl, rfl, getSetting_setSetting _ _ _⟩
  · intro h
    have e : cm.setCurrentChat db id =
        ⟨(⟨cm.chats, some id⟩, db.setSetting (js "currentChat") (some id)), none⟩ := by
      simp [ChatManager.setCurrentChat, h]
    rw [e]
    exact ⟨rfl, rfl, rfl, getSetting_setSetting _ _ _⟩

/-- Witness for C27: a provider manager with the provider `a`; the id `b` is
refused by `setActiveProvider`, the id `a` becomes the selection. -/
theorem unknown_id_rejected_witness :
    JSMap.has [(js "a", sampleProvider (js "a") false [])] (js "b") = false ∧
    (ProviderManager.setActiveProvider ⟨[(js "a", sampleProvider (js "a") false [])], none⟩
      ⟨[], [], [], []⟩ (js "b")).error = some (js "Provider not found") ∧
    JSMap.has [(js "a", sampleProvider (js "a") false [])] (js "a") = true ∧
    (ProviderManager.setActiveProvider ⟨[(js "a", sampleProvider (js "a") false [])], none⟩
      ⟨[], [], [], []⟩ (js "a")).state.1.activeProviderId = some (js "a") :=
  ⟨by decide,
   congrArg Outcome.error
    ((unknown_id_rejected ⟨[(js "a", sampleProvider (js "a") false [])], none⟩ ⟨[], none⟩
      ⟨[], none⟩ ⟨[], [], [], []⟩ (js "b") {} {} {} 7 []).1 (by decide)).1,
   by decide,
   ((unknown_id_rejected ⟨[(js "a", sampleProvider (js "a") false [])], none⟩ ⟨[], none⟩
      ⟨[], none⟩ ⟨[], [], [], []⟩ (js "a") {} {} {} 7 []).2.2.2.1 (by decide)).2.1⟩

/-! ## The active-provider invariant -/

theorem setActiveProvider_inv (pm : ProviderManager) (db : Database) (id : JSString)
    (hwf : pm.KeyedById) (hav : pm.ActiveValid) :
    (pm.setActiveProvider db id).state.1.KeyedById ∧
    (pm.setActiveProvider db id).state.1.ActiveValid := by
  unfold ProviderManager.setActiveProvider
  by_cases h : JSMap.has pm.providers id = true
  · simp only [h, Bool.not_true, Bool.false_eq_true, if_false]
    refine ⟨hwf, ?_⟩
    intro k hk
    simp only [Option.some.injEq] at hk
    subst hk
    exact h
  · simp only [h, Bool.not_false, if_true]
    exact ⟨hwf, hav⟩

theorem addProvider_inv (pm : ProviderManager) (db : Database) (data : ProviderData) (now : Nat)
    (rand : JSString) (hwf : pm.KeyedById) (hav : pm.ActiveValid) :
    (pm.addProvider db data now rand).state.1.KeyedById ∧
    (pm.addProvider db data now rand).state.1.ActiveValid := by
  unfold ProviderManager.addProvider
  by_cases h : (Provider.new data now rand).validate.length > 0
  · simp only [h, if_true]
    exact ⟨hwf, hav⟩
  · simp only [h, if_false]
    refine ⟨providers_keyed_set pm.providers pm.activeProviderId _ _ _ hwf rfl, ?_⟩
    intro k hk
    have := hav k hk
    rw [JSMap.map_has_set]
    simp [this]

theorem updateProvider_inv (pm : ProviderManager) (db : Database) (id : JSString)
    (updates : ProviderPatch) (now : Nat) (hid : updates.id = none)
    (hwf : pm.KeyedById) (hav : pm.ActiveValid) :
    (pm.updateProvider db id updates now).state.1.KeyedById ∧
    (pm.updateProvider db id updates now).state.1.ActiveValid := by
  unfold ProviderManager.updateProvider
  cases hg : JSMap.get? pm.providers id with
  | none => exact ⟨hwf, hav⟩
  | some provider =>
    have hp : provider.id = id := providers_id_of_get? pm hwf id provider hg
    refine ⟨providers_keyed_set pm.providers pm.activeProviderId _ _ _ hwf ?_, ?_⟩
    · simp [Provider.assign, hid, hp]
    · intro k hk
      have := hav k hk
      simp only [JSMap.map_has_set]
      simp [this]

theorem deleteProvider_inv (pm : ProviderManager) (db : Database) (id : JSString)
    (hwf : pm.KeyedById) (hav : pm.ActiveValid) :
    (pm.deleteProvider db id).state.1.KeyedById ∧
    (pm.deleteProvider db id).state.1.ActiveValid := by
  by_cases hid : JSMap.has pm.providers id = true
  · rw [deleteProvider_manager pm db id hwf hid]
    by_cases ha : pm.activeProviderId = some id
    · rw [if_pos ha]
      refine ⟨providers_keyed_delete pm.providers pm.activeProviderId _ id hwf, ?_⟩
      intro k hk
      simp only [Option.map_eq_some'] at hk
      obtain ⟨p, hp, hpk⟩ := hk
      have hmem := List.mem_of_find?_eq_some hp
      have hkd : ProviderManager.KeyedById ⟨JSMap.delete pm.providers id, none⟩ :=
        providers_keyed_delete pm.providers pm.activeProviderId none id hwf
      have hg := providers_get?_of_mem_values _ hkd p hmem
      rw [← hpk]
      exact has_of_get? _ _ _ hg
    · rw [if_neg ha]
      refine ⟨providers_keyed_delete pm.providers pm.activeProviderId _ id hwf, ?_⟩
      intro k hk
      have hne : id ≠ k := by
        intro e
        subst e
        exact ha hk
      show JSMap.has (JSMap.delete pm.providers id) k = true
      rw [JSMap.has_delete_ne _ _ _ hne]
      exact hav k hk
  · have e : pm.deleteProvider db id = ⟨(pm, db), some (js "Provider not found")⟩ := by
      simp [ProviderManager.deleteProvider, hid]
    rw [e]
    exact ⟨hwf, hav⟩

theorem provider_step_inv (st : ProviderManager × Database) (op : ProviderOp)
    (hk : op.keepsId = true) (hwf : st.1.KeyedById) (hav : st.1.ActiveValid) :
    (ProviderManager.step st op).1.KeyedById ∧ (ProviderManager.step st op).1.ActiveValid := by
  cases op with
  | setActiveProvider id => exact setActiveProvider_inv st.1 st.2 id hwf hav
  | addProvider data now rand => exact addProvider_inv st.1 st.2 data now rand hwf hav
  | updateProvider id updates now =>
    have hid : updates.id = none := by
      simpa [ProviderOp.keepsId] using hk
    exact updateProvider_inv st.1 st.2 id updates now hid hwf hav
  | deleteProvider id => exact deleteProvider_inv st.1 st.2 id hwf hav

theorem provider_run_inv (ops : List ProviderOp) (st : ProviderManager × Database)
    (hk : ∀ op ∈ ops, op.keepsId = true) (hwf : st.1.KeyedById) (hav : st.1.ActiveValid) :
    (ProviderManager.run st ops).1.KeyedById ∧ (ProviderManager.run st ops).1.ActiveValid := by
  induction ops generalizing st with
  | nil => exact ⟨hwf, hav⟩
  | cons op rest ih =>
    have h1 := provider_step_inv st op (hk op (List.mem_cons_self _ _)) hwf hav
    exact ih (ProviderManager.step st op) (fun o ho => hk o (List.mem_cons_of_mem _ ho))
      h1.1 h1.2

theorem strOr_some (s d : JSString) (h : s ≠ []) : strOr (some s) d = s := by
  cases s with
  | nil => exact absurd rfl h
  | cons c cs => rfl

theorem loadProviders_keyed (now : Nat → Nat) (rand : Nat → JSString) (saved : List Provider)
    (i : Nat) (providers : JSMap Provider) (a : Option JSString)
    (h : ProviderManager.KeyedById ⟨providers, a⟩) :
    ProviderManager.KeyedById ⟨ProviderManager.loadProviders now rand saved i providers, a⟩ := by
  induction saved generalizing i providers with
  | nil => exact h
  | cons data rest ih => exact ih (i + 1) _ (providers_keyed_set providers a a _ _ h rfl)

theorem loadProviders_has_old (now : Nat → Nat) (rand : Nat → JSString) (saved : List Provider)
    (i : Nat) (providers : JSMap Provider) (k : JSString)
    (h : JSMap.has providers k = true) :
    JSMap.has (ProviderManager.loadProviders now rand saved i providers) k = true := by
  induction saved generalizing i providers with
  | nil => exact h
  | cons data rest ih =>
    apply ih
    rw [JSMap.map_has_set]
    simp [h]

theorem loadProviders_has (now : Nat → Nat) (rand : Nat → JSString) (saved : List Provider)
    (i : Nat) (providers : JSMap Provider) (p : Provider) (hp : p ∈ saved) (hne : p.id ≠ []) :
    JSMap.has (ProviderManager.loadProviders now rand saved i providers) p.id = true := by
  induction saved generalizing i providers with
  | nil => simp at hp
  | cons data rest ih =>
    rcases List.mem_cons.1 hp with e | hr
    · subst e
      show JSMap.has (ProviderManager.loadProviders now rand rest (i + 1)
        (JSMap.set providers _ _)) p.id = true
      apply loadProviders_has_old
      rw [JSMap.map_has_set]
      have : (Provider.new p.toJSON (now i) (rand i)).id = p.id := strOr_some _ _ hne
      simp [this]
    · exact ih (i + 1) _ hr

theorem seedDefaults_keyed (now : Nat → Nat) (rand : Nat → JSString) (defaults : List ProviderData)
    (i : Nat) (st : JSMap Provider × Store Provider) (a : Option JSString)
    (h : ProviderManager.KeyedById ⟨st.1, a⟩) :
    ProviderManager.KeyedById ⟨(ProviderManager.seedDefaults now rand defaults i st).1, a⟩ := by
  induction defaults generalizing i st with
  | nil => exact h
  | cons data rest ih => exact ih (i + 1) _ (providers_keyed_set st.1 a a _ _ h rfl)

theorem seedDefaults_has_old (now : Nat → Nat) (rand : Nat → JSString)
    (defaults : List ProviderData) (i : Nat) (st : JSMap Provider × Store Provider)
    (k : JSString) (h : JSMap.has st.1 k = true) :
    JSMap.has (ProviderManager.seedDefaults now rand defaults i st).1 k = true := by
  induction defaults generalizing i st with
  | nil => exact h
  | cons data rest ih =>
    apply ih
    show JSMap.has (JSMap.set st.1 _ _) k = true
    rw [JSMap.map_has_set]
    simp [h]

theorem seedDefaults_has (now : Nat → Nat) (rand : Nat → JSString) (defaults : List ProviderData)
    (i : Nat) (st : JSMap Provider × Store Provider) (d : ProviderData) (id : JSString)
    (hd : d ∈ defaults) (hid : d.id = some id) (hne : id ≠ []) :
    JSMap.has (ProviderManager.seedDefaults now rand defaults i st).1 id = true := by
  induction defaults generalizing i st with
  | nil => simp at hd
  | cons data rest ih =>
    rcases List.mem_cons.1 hd with e | hr
    · subst e
      show JSMap.has (ProviderManager.seedDefaults now rand rest (i + 1)
        (JSMap.set st.1 _ _, Store.put st.2 _ _)).1 id = true
      apply seedDefaults_has_old
      show JSMap.has (JSMap.set st.1 _ _) id = true
      rw [JSMap.map_has_set]
      have : (Provider.new d (now i) (rand i)).id = id := by
        show strOr d.id _ = id
        rw [hid]
        exact strOr_some _ _ hne
      simp [this]
    · exact ih (i + 1) _ hr

theorem provider_init_inv (defaults : List ProviderData) (db : Database) (now : Nat → Nat)
    (rand : Nat → JSString)
    (hset : ∀ id, db.getSetting (js "activeProvider") = some id → id ≠ [] ∧
      if (Store.getAll db.providers).length = 0 then some id ∈ defaults.map ProviderData.id
      else id ∈ (Store.getAll db.providers).map Provider.id) :
    (ProviderManager.init defaults db now rand).1.KeyedById ∧
    (ProviderManager.init defaults db now rand).1.ActiveValid := by
  have hk : ∀ a, ProviderManager.KeyedById
      ⟨(if (Store.getAll db.providers).length = 0 then
          ProviderManager.seedDefaults now rand defaults 0 ([], db.providers)
        else (ProviderManager.loadProviders now rand (Store.getAll db.providers) 0 [],
          db.providers)).1, a⟩ := by
    intro a
    by_cases h0 : (Store.getAll db.providers).length = 0
    · simp only [h0, if_true]
      exact seedDefaults_keyed now rand defaults 0 ([], db.providers) a
        ⟨by simp [JSMap.keys], by simp⟩
    · simp only [h0, if_false]
      exact loadProviders_keyed now rand _ 0 [] a ⟨by simp [JSMap.keys], by simp⟩
  have hh : ∀ id, db.getSetting (js "activeProvider") = some id → id ≠ [] ∧ JSMap.has
      (if (Store.getAll db.providers).length = 0 then
          ProviderManager.seedDefaults now rand defaults 0 ([], db.providers)
        else (ProviderManager.loadProviders now rand (Store.getAll db.providers) 0 [],
          db.providers)).1 id = true := by
    intro id hid
    have h := hset id hid
    refine ⟨h.1, ?_⟩
    by_cases h0 : (Store.getAll db.providers).length = 0
    · simp only [h0, if_true] at h ⊢
      obtain ⟨d, hd, hdi⟩ := List.mem_map.1 h.2
      exact seedDefaults_has now rand defaults 0 _ d id hd hdi h.1
    · simp only [h0, if_false] at h ⊢
      obtain ⟨p, hp, hpi⟩ := List.mem_map.1 h.2
      rw [← hpi]
      exact loadProviders_has now rand _ 0 [] p hp (by rw [hpi]; exact h.1)
  unfold ProviderManager.init
  simp only []
  generalize (if (Store.getAll db.providers).length = 0 then
          ProviderManager.seedDefaults now rand defaults 0 ([], db.providers)
        else (ProviderManager.loadProviders now rand (Store.getAll db.providers) 0 [],
          db.providers)) = L at hk hh ⊢
  cases hc : db.getSetting (js "activeProvider") with
  | some id =>
    have hne := (hh id hc).1
    have hie : id.isEmpty = false := by
      cases id with
      | nil => exact absurd rfl hne
      | cons c cs => rfl
    simp only [hie, Bool.false_eq_true, if_false]
    exact ⟨hk _, fun k hk2 => by
      simp only [Option.some.injEq] at hk2
      subst hk2
      exact (hh id hc).2⟩
  | none =>
    simp only [if_true]
    cases hf : (JSMap.values L.1).find? (fun p => p.enabled) with
    | none => exact ⟨hk _, fun k hk2 => by simp at hk2⟩
    | some p =>
      refine ⟨hk _, fun k hk2 => ?_⟩
      simp only [Option.some.injEq] at hk2
      subst hk2
      have hmem := List.mem_of_find?_eq_some hf
      exact has_of_get? _ _ _ (providers_get?_of_mem_values ⟨L.1, none⟩ (hk none) p hmem)

/-- C26, counterexample: on an empty database `init` loads the default
provider `openai`, which is not enabled; `setActiveProvider('openai')` then
makes it the active provider, and it is still not enabled. -/
theorem active_provider_may_be_disabled :
    (ProviderManager.run
      (ProviderManager.init [defaultOpenAI] ⟨[], [], [], []⟩ (fun _ => 1) (fun _ => []))
      [ProviderOp.setActiveProvider (js "openai")]).1.activeProviderId = some (js "openai") ∧
    (ProviderManager.run
      (ProviderManager.init [defaultOpenAI] ⟨[], [], [], []⟩ (fun _ => 1) (fun _ => []))
      [ProviderOp.setActiveProvider (js "openai")]).1.getActiveProvider.map Provider.enabled =
      some false := by
  constructor <;> decide

/-- C26, amended: after `init` on a database whose `activeProvider` setting is
unset or names a provider that `init` loads, and after every sequence of
`setActiveProvider`, `addProvider`, `updateProvider` and `deleteProvider` calls,
returning or throwing, in which no `updateProvider` patch has an `id` property,
the active provider is none or the id of a provider of the collection, stored
under its own id. The provider need not be enabled. -/
theorem active_provider_invariant (defaults : List ProviderData) (db : Database)
    (now : Nat → Nat) (rand : Nat → JSString) (ops : List ProviderOp)
    (hset : ∀ id, db.getSetting (js "activeProvider") = some id → id ≠ [] ∧
      if (Store.getAll db.providers).length = 0 then some id ∈ defaults.map ProviderData.id
      else id ∈ (Store.getAll db.providers).map Provider.id)
    (hk : ∀ op ∈ ops, op.keepsId = true) :
    (ProviderManager.run (ProviderManager.init defaults db now rand) ops).1.activeProviderId =
      none ∨
    ∃ id p,
      (ProviderManager.run (ProviderManager.init defaults db now rand) ops).1.activeProviderId =
        some id ∧
      JSMap.get?
        (ProviderManager.run (ProviderManager.init defaults db now rand) ops).1.providers id =
        some p ∧
      p.id = id := by
  have h0 := provider_init_inv defaults db now rand hset
  have h := provider_run_inv ops (ProviderManager.init defaults db now rand) hk h0.1 h0.2
  cases ha : (ProviderManager.run (ProviderManager.init defaults db now rand)
      ops).1.activeProviderId with
  | none => exact Or.inl rfl
  | some id =>
    right
    obtain ⟨p, hp⟩ := get?_of_has _ _ (h.2 id ha)
    exact ⟨id, p, rfl, hp, providers_id_of_get? _ h.1 id p hp⟩

/-- Witness for C26: after `init` with the default provider `openai` on an
empty database, the provider is made active, enabled by an update and
deleted; the active provider ends as none. -/
theorem active_provider_invariant_witness :
    (∀ op ∈ [ProviderOp.setActiveProvider (js "openai"),
        ProviderOp.updateProvider (js "openai") { enabled := some true } 5,
        ProviderOp.deleteProvider (js "openai")], op.keepsId = true) ∧
    ((ProviderManager.run
      (ProviderManager.init [defaultOpenAI] ⟨[], [], [], []⟩ (fun _ => 1) (fun _ => []))
      [ProviderOp.setActiveProvider (js "openai"),
        ProviderOp.updateProvider (js "openai") { enabled := some true } 5,
        ProviderOp.deleteProvider (js "openai")]).1.activeProviderId = none ∨
    ∃ id p,
      (ProviderManager.run
        (ProviderManager.init [defaultOpenAI] ⟨[], [], [], []⟩ (fun _ => 1) (fun _ => []))
        [ProviderOp.setActiveProvider (js "openai"),
          ProviderOp.updateProvider (js "openai") { enabled := some true } 5,
          ProviderOp.deleteProvider (js "openai")]).1.activeProviderId = some id ∧
      JSMap.get?
        (ProviderManager.run
          (ProviderManager.init [defaultOpenAI] ⟨[], [], [], []⟩ (fun _ => 1) (fun _ => []))
          [ProviderOp.setActiveProvider (js "openai"),
            ProviderOp.updateProvider (js "openai") { enabled := some true } 5,
            ProviderOp.deleteProvider (js "openai")]).1.providers id = some p ∧
      p.id = id) :=
  ⟨by decide,
   active_provider_invariant [defaultOpenAI] ⟨[], [], [], []⟩ (fun _ => 1) (fun _ => [])
    [ProviderOp.setActiveProvider (js "openai"),
      ProviderOp.updateProvider (js "openai") { enabled := some true } 5,
      ProviderOp.deleteProvider (js "openai")]
    (fun id h => absurd (show (none : Option JSString) = some id from h) (by simp))
    (by decide)⟩

/-! ## Properties of `parseModelId` -/

theorem splitChar_ne_nil (sep : Nat) (s : JSString) : splitChar sep s ≠ [] := by
  induction s with
  | nil => simp [splitChar]
  | cons c cs ih =>
    unfold splitChar
    by_cases h : c = sep
    · simp [h]
    · simp only [h, if_false]
      cases hs : splitChar sep cs with
      | nil => simp
      | cons l ls => simp

theorem splitChar_of_not_mem (sep : Nat) (s : JSString) (h : sep ∉ s) :
    splitChar sep s = [s] := by
  induction s with
  | nil => rfl
  | cons c cs ih =>
    have hc : c ≠ sep := fun e => h (by simp [e])
    have hcs : sep ∉ cs := fun e => h (List.mem_cons_of_mem _ e)
    unfold splitChar
    simp only [hc, if_false, ih hcs]

theorem splitChar_append (sep : Nat) (p m : JSString) (h : sep ∉ p) :
    splitChar sep (p ++ sep :: m) = p :: splitChar sep m := by
  induction p with
  | nil => simp [splitChar]
  | cons c cs ih =>
    have hc : c ≠ sep := fun e => h (by simp [e])
    have hcs : sep ∉ cs := fun e => h (List.mem_cons_of_mem _ e)
    rw [List.cons_append, splitChar]
    simp only [hc, if_false, ih hcs]

theorem joinChar_cons (sep : Nat) (part : JSString) (rest : List JSString) (h : rest ≠ []) :
    joinChar sep (part :: rest) = part ++ sep :: joinChar sep rest := by
  cases rest with
  | nil => exact absurd rfl h
  | cons r rs => rfl

theorem joinChar_splitChar (sep : Nat) (s : JSString) : joinChar sep (splitChar sep s) = s := by
  induction s with
  | nil => rfl
  | cons c cs ih =>
    unfold splitChar
    by_cases h : c = sep
    · simp only [h, if_true]
      rw [joinChar_cons _ _ _ (splitChar_ne_nil sep cs), ih]
      rfl
    · simp only [h, if_false]
      cases hs : splitChar sep cs with
      | nil => exact absurd hs (splitChar_ne_nil sep cs)
      | cons l ls =>
        rw [hs] at ih
        cases ls with
        | nil =>
          simp only [joinChar] at ih ⊢
          rw [ih]
        | cons l2 ls2 =>
          simp only [joinChar] at ih ⊢
          rw [← ih]
          rfl

theorem exists_first_sep (sep : Nat) (s : JSString) (h : sep ∈ s) :
    ∃ p m, s = p ++ sep :: m ∧ sep ∉ p := by
  induction s with
  | nil => simp at h
  | cons c cs ih =>
    by_cases hc : c = sep
    · exact ⟨[], cs, by simp [hc], by simp⟩
    · have hcs : sep ∈ cs := by
        rcases List.mem_cons.1 h with e | e
        · exact absurd e.symm hc
        · exact e
      obtain ⟨p, m, e, hp⟩ := ih hcs
      refine ⟨c :: p, m, by simp [e], ?_⟩
      intro hm
      rcases List.mem_cons.1 hm with e2 | e2
      · exact hc e2.symm
      · exact hp e2

theorem parseModelId_slash (pm : ProviderManager) (p m : JSString) (hp : 47 ∉ p) :
    pm.parseModelId (p ++ 47 :: m) = ⟨pm.getProvider p, m⟩ := by
  unfold ProviderManager.parseModelId
  simp only [splitChar_append 47 p m hp]
  have hl : ¬ (p :: splitChar 47 m).length < 2 := by
    have := splitChar_ne_nil 47 m
    cases hs : splitChar 47 m with
    | nil => exact absurd hs this
    | cons a b => simp
  simp only [hl, if_false, List.headD_cons, List.drop_one, List.tail_cons, joinChar_splitChar]

/-- C28: `parseModelId(s)` for an `s` without `/` returns the active provider
and `s` as model id; for an `s` with a `/` it returns the provider stored under
the text before the first `/` (none if there is no such provider) and all the
text after the first `/` as model id. Hence `parseModelId(p + "/" + m)` returns
the provider `p` and the model id `m` for every `p` without `/` and every `m`. -/
theorem parseModelId_spec (pm : ProviderManager) :
    (∀ s : JSString, 47 ∉ s → pm.parseModelId s = ⟨pm.getActiveProvider, s⟩) ∧
    (∀ s : JSString, 47 ∈ s →
      ∃ p m, s = p ++ js "/" ++ m ∧ 47 ∉ p ∧ pm.parseModelId s = ⟨pm.getProvider p, m⟩) ∧
    (∀ p m : JSString, 47 ∉ p →
      pm.parseModelId (p ++ js "/" ++ m) = ⟨JSMap.get? pm.providers p, m⟩) := by
  refine ⟨?_, ?_, ?_⟩
  · intro s hs
    unfold ProviderManager.parseModelId
    simp [splitChar_of_not_mem 47 s hs]
  · intro s hs
    obtain ⟨p, m, e, hp⟩ := exists_first_sep 47 s hs
    refine ⟨p, m, ?_, hp, ?_⟩
    · rw [e]
      simp [js, utf16]
    · rw [e]
      exact parseModelId_slash pm p m hp
  · intro p m hp
    have e : p ++ js "/" ++ m = p ++ 47 :: m := by simp [js, utf16]
    rw [e]
    exact parseModelId_slash pm p m hp

/-- Witness for C28: `openrouter/openai/gpt-4o` names the provider `openrouter`
and the model `openai/gpt-4o`. -/
theorem parseModelId_spec_witness :
    47 ∉ js "openrouter" ∧
    (ProviderManager.parseModelId ⟨[(js "openrouter", sampleProvider (js "openrouter") true [])],
        none⟩ (js "openrouter" ++ js "/" ++ js "openai/gpt-4o")).modelId = js "openai/gpt-4o" ∧
    ((ProviderManager.parseModelId ⟨[(js "openrouter", sampleProvider (js "openrouter") true [])],
        none⟩ (js "openrouter" ++ js "/" ++ js "openai/gpt-4o")).provider.map Provider.id) =
      some (js "openrouter") :=
  ⟨by decide,
   congrArg ModelRef.modelId
    ((parseModelId_spec ⟨[(js "openrouter", sampleProvider (js "openrouter") true [])],
      none⟩).2.2 (js "openrouter") (js "openai/gpt-4o") (by decide)),
   (congrArg (fun r => r.provider.map Provider.id)
    ((parseModelId_spec ⟨[(js "openrouter", sampleProvider (js "openrouter") true [])],
      none⟩).2.2 (js "openrouter") (js "openai/gpt-4o") (by decide))).trans (by decide)⟩

/-! ## Properties of `getAllModels` -/

theorem pushModels_eq (toStr : JSValue → JSString) (provider : Provider)
    (models acc : List JSObject) :
    pushModels toStr provider models acc = acc ++ models.map (modelEntry toStr provider) := by
  induction models generalizing acc with
  | nil => simp [pushModels]
  | cons m rest ih =>
    rw [pushModels, ih]
    simp

theorem pushProviders_eq (toStr : JSValue → JSString) (providers : List Provider)
    (acc : List JSObject) :
    pushProviders toStr providers acc =
      acc ++ providers.flatMap (fun p => p.models.map (modelEntry toStr p)) := by
  induction providers generalizing acc with
  | nil => simp [pushProviders]
  | cons p rest ih =>
    rw [pushProviders, ih, pushModels_eq]
    simp

theorem getAllModels_eq (toStr : JSValue → JSString) (pm : ProviderManager) :
    pm.getAllModels toStr =
      ((JSMap.values pm.providers).filter (fun p => p.enabled)).flatMap
        (fun p => p.models.map (modelEntry toStr p)) := by
  unfold ProviderManager.getAllModels ProviderManager.getEnabledProviders
  rw [pushProviders_eq]
  rfl

theorem spread_empty_get (model : JSObject) (k : JSString) (hn : model.keys.Nodup) :
    (JSObject.spread [] model).get k = model.get k := by
  by_cases h : model.has k = true
  · exact JSObject.get_spread_of_has _ _ _ hn h
  · have h2 : model.has k = false := by simpa using h
    rw [JSObject.get_spread_of_not_has _ _ _ h2]
    have hu := JSObject.get_undefined_of_not_has _ _ h2
    cases hv : JSObject.get model k <;> rw [hv] at hu <;> first | rfl | exact absurd hu (by simp [JSValue.isUndefined])

theorem modelEntry_fields (toStr : JSValue → JSString) (p : Provider) (model : JSObject) :
    (modelEntry toStr p model).get (js "providerId") = JSValue.str p.id ∧
    (modelEntry toStr p model).get (js "providerName") = JSValue.str p.name ∧
    (modelEntry toStr p model).get (js "providerColor") = JSValue.str p.color ∧
    (modelEntry toStr p model).get (js "fullId") =
      JSValue.str (p.id ++ js "/" ++ toStr (model.get (js "id"))) ∧
    (∀ k, k ≠ js "providerId" → k ≠ js "providerName" → k ≠ js "providerColor" →
      k ≠ js "fullId" → model.keys.Nodup → (modelEntry toStr p model).get k = model.get k) := by
  unfold modelEntry
  refine ⟨?_, ?_, ?_, ?_, ?_⟩
  · rw [JSObject.get_set_ne _ _ _ _ (by decide), JSObject.get_set_ne _ _ _ _ (by decide),
      JSObject.get_set_ne _ _ _ _ (by decide), JSObject.get_set_self]
  · rw [JSObject.get_set_ne _ _ _ _ (by decide), JSObject.get_set_ne _ _ _ _ (by decide),
      JSObject.get_set_self]
  · rw [JSObject.get_set_ne _ _ _ _ (by decide), JSObject.get_set_self]
  · rw [JSObject.get_set_self]
  · intro k h1 h2 h3 h4 hn
    rw [JSObject.get_set_ne _ _ _ _ (Ne.symm h4), JSObject.get_set_ne _ _ _ _ (Ne.symm h3),
      JSObject.get_set_ne _ _ _ _ (Ne.symm h2), JSObject.get_set_ne _ _ _ _ (Ne.symm h1)]
    exact spread_empty_get model k hn

/-- C29: `getAllModels()` returns, for the enabled providers in the iteration
order of the collection and for the models of each in the order of its model
list, one entry per model, and no entry for a provider that is not enabled.
An entry has the properties of the model and `providerId`, `providerName`,
`providerColor` of the provider, and `fullId`, the provider id, `/` and the
model id, for a model whose id is a string (`toStr` is the conversion the
template literal applies to it). The length of the list is the sum of the model
counts of the enabled providers. -/
theorem getAllModels_spec (toStr : JSValue → JSString) (pm : ProviderManager)
    (hstr : ∀ s, toStr (JSValue.str s) = s) :
    pm.getAllModels toStr =
      ((JSMap.values pm.providers).filter (fun p => p.enabled)).flatMap
        (fun p => p.models.map (modelEntry toStr p)) ∧
    (pm.getAllModels toStr).length =
      (((JSMap.values pm.providers).filter (fun p => p.enabled)).map
        (fun p => p.models.length)).sum ∧
    (∀ e ∈ pm.getAllModels toStr, ∃ p ∈ JSMap.values pm.providers, p.enabled = true ∧
      ∃ model ∈ p.models, e = modelEntry toStr p model) ∧
    (∀ (p : Provider) (model : JSObject),
      (modelEntry toStr p model).get (js "providerId") = JSValue.str p.id ∧
      (modelEntry toStr p model).get (js "providerName") = JSValue.str p.name ∧
      (modelEntry toStr p model).get (js "providerColor") = JSValue.str p.color ∧
      (∀ mid, model.get (js "id") = JSValue.str mid →
        (modelEntry toStr p model).get (js "fullId") = JSValue.str (p.id ++ js "/" ++ mid)) ∧
      (∀ k, k ≠ js "providerId" → k ≠ js "providerName" → k ≠ js "providerColor" →
        k ≠ js "fullId" → model.keys.Nodup →
        (modelEntry toStr p model).get k = model.get k)) := by
  have e := getAllModels_eq toStr pm
  refine ⟨e, ?_, ?_, ?_⟩
  · rw [e, List.length_flatMap]
    simp [Function.comp_def]
  · intro x hx
    rw [e] at hx
    obtain ⟨p, hp, hx2⟩ := List.mem_flatMap.1 hx
    obtain ⟨model, hm, hx3⟩ := List.mem_map.1 hx2
    have hp2 := List.mem_filter.1 hp
    exact ⟨p, hp2.1, hp2.2, model, hm, hx3.symm⟩
  · intro p model
    have h := modelEntry_fields toStr p model
    refine ⟨h.1, h.2.1, h.2.2.1, ?_, h.2.2.2.2⟩
    intro mid hmid
    rw [h.2.2.2.1, hmid, hstr]

/-- Witness for C29: of two providers with one model each only the enabled one
contributes an entry, with `fullId` `b/m2`. -/
theorem getAllModels_spec_witness :
    (∀ s, exampleToStr (JSValue.str s) = s) ∧
    (ProviderManager.getAllModels exampleToStr
      ⟨[(js "a", sampleProvider (js "a") false [sampleModel (js "m1") (js "One")]),
        (js "b", sampleProvider (js "b") true [sampleModel (js "m2") (js "Two")])],
       none⟩).length = 1 ∧
    (ProviderManager.getAllModels exampleToStr
      ⟨[(js "a", sampleProvider (js "a") false [sampleModel (js "m1") (js "One")]),
        (js "b", sampleProvider (js "b") true [sampleModel (js "m2") (js "Two")])],
       none⟩).map (fun e => e.get (js "fullId")) = [JSValue.str (js "b/m2")] :=
  ⟨fun _ => rfl,
   ((getAllModels_spec exampleToStr
      ⟨[(js "a", sampleProvider (js "a") false [sampleModel (js "m1") (js "One")]),
        (js "b", sampleProvider (js "b") true [sampleModel (js "m2") (js "Two")])],
       none⟩ (fun _ => rfl)).2.1).trans (by decide),
   rfl⟩

/-! ## Uniqueness of `fullId` -/

theorem first_sep_unique (sep : Nat) (p1 p2 m1 m2 : JSString) (h1 : sep ∉ p1) (h2 : sep ∉ p2)
    (e : p1 ++ sep :: m1 = p2 ++ sep :: m2) : p1 = p2 ∧ m1 = m2 := by
  have hs := congrArg (splitChar sep) e
  rw [splitChar_append sep p1 m1 h1, splitChar_append sep p2 m2 h2] at hs
  have hp : p1 = p2 := (List.cons.inj hs).1
  subst hp
  exact ⟨rfl, (List.cons.inj (List.append_cancel_left e)).2⟩

theorem fullIds_eq (toStr : JSValue → JSString) (pm : ProviderManager) :
    (pm.getAllModels toStr).map (fun e => e.get (js "fullId")) =
      (pm.getEnabledProviders).flatMap (fun p => p.models.map
        (fun model => JSValue.str (p.id ++ 47 :: toStr (model.get (js "id"))))) := by
  rw [getAllModels_eq, List.map_flatMap]
  unfold ProviderManager.getEnabledProviders
  congr 1
  funext p
  rw [List.map_map]
  apply List.map_congr_left
  intro model _
  have h := (modelEntry_fields toStr p model).2.2.2.1
  simp only [Function.comp]
  rw [h]
  simp [js, utf16]

/-- C30, counterexample: `addModel` accepts a model whose id the provider
already has. An enabled provider that received two models with the id `m` has
two entries in `getAllModels()` with the same `fullId` `p/m`. -/
theorem getAllModels_fullId_repeated :
    ((((sampleProvider (js "p") true []).addModel
        { id := some (js "m"), name := some (js "One") } 2).state.addModel
        { id := some (js "m"), name := some (js "Two") } 3).error = none) ∧
    (ProviderManager.getAllModels exampleToStr
      ⟨[(js "p", (((sampleProvider (js "p") true []).addModel
          { id := some (js "m"), name := some (js "One") } 2).state.addModel
          { id := some (js "m"), name := some (js "Two") } 3).state)], none⟩).map
        (fun e => e.get (js "fullId")) = [JSValue.str (js "p/m"), JSValue.str (js "p/m")] ∧
    ¬ ((ProviderManager.getAllModels exampleToStr
      ⟨[(js "p", (((sampleProvider (js "p") true []).addModel
          { id := some (js "m"), name := some (js "One") } 2).state.addModel
          { id := some (js "m"), name := some (js "Two") } 3).state)], none⟩).map
        (fun e => e.get (js "fullId"))).Nodup := by
  have e : (ProviderManager.getAllModels exampleToStr
      ⟨[(js "p", (((sampleProvider (js "p") true []).addModel
          { id := some (js "m"), name := some (js "One") } 2).state.addModel
          { id := some (js "m"), name := some (js "Two") } 3).state)], none⟩).map
        (fun e => e.get (js "fullId")) = [JSValue.str (js "p/m"), JSValue.str (js "p/m")] := rfl
  refine ⟨rfl, e, ?_⟩
  rw [e]
  simp

/-- C30, amended: when the enabled providers have pairwise distinct ids without
`/` and the models of each enabled provider have pairwise distinct string ids,
the `fullId` values of the entries of `getAllModels()` are pairwise distinct. -/
theorem getAllModels_fullId_nodup (toStr : JSValue → JSString) (pm : ProviderManager)
    (hstr : ∀ s, toStr (JSValue.str s) = s)
    (hids : (pm.getEnabledProviders.map Provider.id).Nodup)
    (hslash : ∀ p ∈ pm.getEnabledProviders, 47 ∉ p.id)
    (hmodels : ∀ p ∈ pm.getEnabledProviders, ∃ mids : List JSString,
      p.models.map (fun model => model.get (js "id")) = mids.map JSValue.str ∧ mids.Nodup) :
    ((pm.getAllModels toStr).map (fun e => e.get (js "fullId"))).Nodup := by
  rw [fullIds_eq, List.nodup_flatMap]
  constructor
  · intro p hp
    obtain ⟨mids, hm, hn⟩ := hmodels p hp
    have e : p.models.map (fun model => JSValue.str (p.id ++ 47 :: toStr (model.get (js "id")))) =
        mids.map (fun mid => JSValue.str (p.id ++ 47 :: mid)) := by
      have e1 : p.models.map
            (fun model => JSValue.str (p.id ++ 47 :: toStr (model.get (js "id")))) =
          (p.models.map (fun model => model.get (js "id"))).map
            (fun v => JSValue.str (p.id ++ 47 :: toStr v)) := by
        rw [List.map_map]
        rfl
      rw [e1, hm, List.map_map]
      apply List.map_congr_left
      intro mid _
      simp [hstr]
    rw [e]
    apply hn.map
    intro a b hab
    injection hab with hab
    exact (List.cons.inj (List.append_cancel_left hab)).2
  · have hp : pm.getEnabledProviders.Pairwise (fun a b => a.id ≠ b.id) := by
      have := hids
      rw [List.Nodup, List.pairwise_map] at this
      exact this
    refine hp.imp_of_mem ?_
    intro a b ha hb hab x hxa hxb
    obtain ⟨ma, _, hxa2⟩ := List.mem_map.1 hxa
    obtain ⟨mb, _, hxb2⟩ := List.mem_map.1 hxb
    have hx : JSValue.str (a.id ++ 47 :: toStr (ma.get (js "id"))) =
        JSValue.str (b.id ++ 47 :: toStr (mb.get (js "id"))) := hxa2.trans hxb2.symm
    injection hx with hx
    exact hab (first_sep_unique 47 _ _ _ _ (hslash a ha) (hslash b hb) hx).1

/-- Witness for C30: two enabled providers `a` and `b`; both have a model `m1`
and the three `fullId` values differ. -/
theorem getAllModels_fullId_nodup_witness :
    ((ProviderManager.getEnabledProviders
      ⟨[(js "a", sampleProvider (js "a") true
          [sampleModel (js "m1") (js "One"), sampleModel (js "m2") (js "Two")]),
        (js "b", sampleProvider (js "b") true [sampleModel (js "m1") (js "One")])],
       none⟩).map Provider.id).Nodup ∧
    ((ProviderManager.getAllModels exampleToStr
      ⟨[(js "a", sampleProvider (js "a") true
          [sampleModel (js "m1") (js "One"), sampleModel (js "m2") (js "Two")]),
        (js "b", sampleProvider (js "b") true [sampleModel (js "m1") (js "One")])],
       none⟩).map (fun e => e.get (js "fullId"))).Nodup :=
  ⟨by decide,
   getAllModels_fullId_nodup exampleToStr
    ⟨[(js "a", sampleProvider (js "a") true
        [sampleModel (js "m1") (js "One"), sampleModel (js "m2") (js "Two")]),
      (js "b", sampleProvider (js "b") true [sampleModel (js "m1") (js "One")])],
     none⟩ (fun _ => rfl) (by decide) (by decide)
    (by
      intro p hp
      have hp2 : p = sampleProvider (js "a") true
            [sampleModel (js "m1") (js "One"), sampleModel (js "m2") (js "Two")] ∨
          p = sampleProvider (js "b") true [sampleModel (js "m1") (js "One")] := by
        simpa [ProviderManager.getEnabledProviders, JSMap.values, sampleProvider, Provider.new]
          using hp
      rcases hp2 with e | e
      · subst e
        exact ⟨[js "m1", js "m2"], rfl, by decide⟩
      · subst e
        exact ⟨[js "m1"], rfl, by decide⟩)⟩



/-! ## The default model of a provider -/

theorem isStr_iff (v : JSValue) (s : JSString) : v.isStr s = true ↔ v = JSValue.str s := by
  cases v <;> simp [JSValue.isStr]

theorem any_hasModelId_map (d : JSString) (l : List JSObject) :
    l.any (hasModelId d) = (l.map (fun m => m.get (js "id"))).any (fun v => v.isStr d) := by
  induction l with
  | nil => rfl
  | cons m rest ih => simp [List.any_cons, hasModelId, ih]

theorem assignFirst_ids (p : JSObject → Bool) (updates : JSObject) (l : List JSObject)
    (h : updates.has (js "id") = false) :
    (assignFirst p updates l).map (fun m => m.get (js "id")) =
      l.map (fun m => m.get (js "id")) := by
  induction l with
  | nil => rfl
  | cons m rest ih =>
    unfold assignFirst
    by_cases hp : p m = true
    · simp only [hp, if_true, List.map_cons]
      rw [JSObject.get_spread_of_not_has _ _ _ h]
    · simp only [hp, Bool.false_eq_true, if_false, List.map_cons, ih]

theorem addModel_valid (p : Provider) (model : ModelData) (now : Nat)
    (h : p.defaultModelValid = true) : (p.addModel model now).state.defaultModelValid = true := by
  unfold Provider.addModel
  by_cases ht : ((strOr model.id []).isEmpty || (strOr model.name []).isEmpty) = true
  · simp only [ht, if_true]
    exact h
  · simp only [ht, Bool.false_eq_true, if_false]
    unfold Provider.defaultModelValid at h ⊢
    simp only
    by_cases hl : (p.models ++
        [[(js "id", JSValue.str (strOr model.id [])),
          (js "name", JSValue.str (strOr model.name [])),
          (js "contextWindow",
            if model.contextWindow.truthy = true then model.contextWindow
            else JSValue.ofNat 4096)]]).length = 1
    · simp only [hl, if_true, List.any_append, List.any_cons, List.any_nil, Bool.or_false]
      have : hasModelId (strOr model.id [])
          [(js "id", JSValue.str (strOr model.id [])),
           (js "name", JSValue.str (strOr model.name [])),
           (js "contextWindow",
            if model.contextWindow.truthy = true then model.contextWindow
            else JSValue.ofNat 4096)] = true := by
        unfold hasModelId
        rw [isStr_iff]
        rfl
      simp [this]
    · simp only [hl, if_false, List.any_append]
      rcases Bool.or_eq_true _ _ ▸ h with h1 | h1
      · simp [h1]
      · simp [h1]

theorem removeModel_valid (p : Provider) (modelId : JSString) (now : Nat)
    (h : p.defaultModelValid = true)
    (hs : ∀ m ∈ p.models, ∃ s, m.get (js "id") = JSValue.str s)
    (hc : p.defaultModel ≠ modelId ∨ (p.removeModel modelId now).models ≠ []) :
    (p.removeModel modelId now).defaultModelValid = true := by
  unfold Provider.removeModel at hc ⊢
  unfold Provider.defaultModelValid at h ⊢
  simp only at hc ⊢
  by_cases hd : p.defaultModel = modelId
  · have hne : p.models.filter (fun m => !hasModelId modelId m) ≠ [] := by
      rcases hc with hc | hc
      · exact absurd hd hc
      · exact hc
    cases hf : p.models.filter (fun m => !hasModelId modelId m) with
    | nil => exact absurd hf hne
    | cons m rest =>
      have hm : m ∈ p.models := by
        have : m ∈ p.models.filter (fun m => !hasModelId modelId m) := by
          rw [hf]
          exact List.mem_cons_self _ _
        exact (List.mem_filter.1 this).1
      obtain ⟨s, hs1⟩ := hs m hm
      have hfirst : firstModelId (m :: rest) = s := by
        simp only [firstModelId, hs1]
      have hhas : hasModelId s m = true := by
        unfold hasModelId
        rw [isStr_iff]
        exact hs1
      simp [hd, hfirst, hhas]
  · simp only [hd, false_and, if_false]
    rcases Bool.or_eq_true _ _ ▸ h with h1 | h1
    · simp [h1]
    · obtain ⟨m, hm, hmd⟩ := List.any_eq_true.1 h1
      have hk : hasModelId modelId m = false := by
        unfold hasModelId at hmd ⊢
        rw [isStr_iff] at hmd
        rw [hmd]
        simp [JSValue.isStr, hd]
      have hany : (p.models.filter (fun m => !hasModelId modelId m)).any
          (hasModelId p.defaultModel) = true :=
        List.any_eq_true.2 ⟨m, List.mem_filter.2 ⟨hm, by simp [hk]⟩, hmd⟩
      simp [hany]

theorem updateModel_valid (p : Provider) (modelId : JSString) (updates : JSObject) (now : Nat)
    (h : p.defaultModelValid = true) (hu : updates.has (js "id") = false) :
    (p.updateModel modelId updates now).defaultModelValid = true := by
  unfold Provider.updateModel
  cases hf : p.models.find? (hasModelId modelId) with
  | none => exact h
  | some m =>
    unfold Provider.defaultModelValid at h ⊢
    simp only
    rw [any_hasModelId_map, assignFirst_ids _ _ _ hu, ← any_hasModelId_map]
    exact h

/-- C31, counterexample: a provider whose only model `m` is its default model;
`removeModel('m')` leaves no model and keeps `m` as `defaultModel`, which is
then neither empty nor the id of a model. -/
theorem removeModel_last_model_keeps_default :
    (sampleProvider (js "p") true [sampleModel (js "m") (js "One")]).defaultModel = js "m" ∧
    (sampleProvider (js "p") true [sampleModel (js "m") (js "One")]).defaultModelValid = true ∧
    ((sampleProvider (js "p") true [sampleModel (js "m") (js "One")]).removeModel
      (js "m") 5).models.length = 0 ∧
    ((sampleProvider (js "p") true [sampleModel (js "m") (js "One")]).removeModel
      (js "m") 5).defaultModel = js "m" ∧
    ((sampleProvider (js "p") true [sampleModel (js "m") (js "One")]).removeModel
      (js "m") 5).defaultModelValid = false := by
  refine ⟨by decide, by decide, by decide, by decide, by decide⟩

/-- C31, amended: for a provider whose model ids are strings and whose
`defaultModel` is empty or the id of one of its models, the same holds after
`addModel`, returning or throwing, after `updateModel` with a patch that has no
`id` property, and after `removeModel(modelId)` unless the call removes every
model while `modelId` is the default model; in that case `defaultModel` keeps
the removed id. -/
theorem defaultModel_invariant (p : Provider) (h : p.defaultModelValid = true)
    (hs : ∀ m ∈ p.models, ∃ s, m.get (js "id") = JSValue.str s) :
    (∀ model now, (p.addModel model now).state.defaultModelValid = true) ∧
    (∀ modelId updates now, updates.has (js "id") = false →
      (p.updateModel modelId updates now).defaultModelValid = true) ∧
    (∀ modelId now, (p.defaultModel ≠ modelId ∨ (p.removeModel modelId now).models ≠ []) →
      (p.removeModel modelId now).defaultModelValid = true) ∧
    (∀ modelId now, p.defaultModel = modelId → (p.removeModel modelId now).models = [] →
      (p.removeModel modelId now).defaultModel = modelId) := by
  refine ⟨fun model now => addModel_valid p model now h,
    fun modelId updates now hu => updateModel_valid p modelId updates now h hu,
    fun modelId now hc => removeModel_valid p modelId now h hs hc, ?_⟩
  intro modelId now hd he
  unfold Provider.removeModel at he ⊢
  simp only at he ⊢
  simp [he, hd]

/-- Witness for C31: a provider with the models `m1` and `m2` and default model
`m1`; after `removeModel('m1')` the default model is valid again. -/
theorem defaultModel_invariant_witness :
    (sampleProvider (js "p") true
      [sampleModel (js "m1") (js "One"), sampleModel (js "m2") (js "Two")]).defaultModelValid =
      true ∧
    ((sampleProvider (js "p") true
      [sampleModel (js "m1") (js "One"), sampleModel (js "m2") (js "Two")]).removeModel
        (js "m1") 5).defaultModelValid = true :=
  ⟨by decide,
   (defaultModel_invariant
      (sampleProvider (js "p") true
        [sampleModel (js "m1") (js "One"), sampleModel (js "m2") (js "Two")])
      (by decide)
      (by
        intro m hm
        have hm2 : m = sampleModel (js "m1") (js "One") ∨ m = sampleModel (js "m2") (js "Two") := by
          simpa [sampleProvider, Provider.new] using hm
        rcases hm2 with e | e
        · subst e
          exact ⟨js "m1", rfl⟩
        · subst e
          exact ⟨js "m2", rfl⟩)).2.2.1 (js "m1") 5
      (Or.inr (fun e => absurd (congrArg List.length e) (by decide)))⟩

/-! ## Properties of `searchChats` -/

theorem includes_iff (s t : JSString) : includes s t = true ↔ t <:+: s := by
  induction s with
  | nil =>
    cases t with
    | nil => simp [includes]
    | cons a as => simp [includes]
  | cons c cs ih =>
    unfold includes
    rw [Bool.or_eq_true, ih, List.isPrefixOf_iff_prefix, List.infix_cons_iff]

theorem includes_nil (s : JSString) : includes s [] = true := by
  rw [includes_iff]
  exact List.nil_infix

theorem someMessageMatches_eq (toLowerCase : JSString → JSString) (q : JSString)
    (msgs : List JSObject) (h : ∀ m ∈ msgs, ∃ s, m.get (js "content") = JSValue.str s) :
    someMessageMatches toLowerCase q msgs =
      some (msgs.any (fun m =>
        match m.get (js "content") with
        | JSValue.str s => includes (toLowerCase s) q
        | _ => false)) := by
  induction msgs with
  | nil => rfl
  | cons m rest ih =>
    obtain ⟨s, hs⟩ := h m (List.mem_cons_self _ _)
    have ih2 := ih (fun x hx => h x (List.mem_cons_of_mem _ hx))
    unfold someMessageMatches messageMatches
    simp only [hs, List.any_cons]
    cases hi : includes (toLowerCase s) q with
    | true => simp
    | false => simpa using ih2

theorem chatMatches_eq (toLowerCase : JSString → JSString) (query : JSString) (chat : Chat)
    (h : ∀ m ∈ chat.messages, ∃ s, m.get (js "content") = JSValue.str s) :
    chatMatches toLowerCase (toLowerCase query) chat =
      some (specSearchMatch toLowerCase query chat) := by
  unfold chatMatches specSearchMatch
  cases hi : includes (toLowerCase chat.title) (toLowerCase query) with
  | true => simp
  | false =>
    simp only [Bool.false_eq_true, if_false, Bool.false_or]
    exact someMessageMatches_eq toLowerCase _ chat.messages h

theorem filterChats_eq (callback : Chat → Option Bool) (f : Chat → Bool) (l : List Chat)
    (h : ∀ c ∈ l, callback c = some (f c)) : filterChats callback l = some (l.filter f) := by
  induction l with
  | nil => rfl
  | cons c rest ih =>
    unfold filterChats
    rw [h c (List.mem_cons_self _ _), ih (fun x hx => h x (List.mem_cons_of_mem _ hx))]
    cases hf : f c <;> simp [List.filter_cons, hf]

theorem specSearchMatch_iff (toLowerCase : JSString → JSString) (query : JSString) (chat : Chat) :
    specSearchMatch toLowerCase query chat = true ↔
      (toLowerCase query <:+: toLowerCase chat.title ∨
        ∃ m ∈ chat.messages, ∃ s, m.get (js "content") = JSValue.str s ∧
          toLowerCase query <:+: toLowerCase s) := by
  unfold specSearchMatch
  rw [Bool.or_eq_true, includes_iff, List.any_eq_true]
  constructor
  · rintro (h | ⟨m, hm, hx⟩)
    · exact Or.inl h
    · right
      cases hc : m.get (js "content") with
      | str s =>
        rw [hc] at hx
        exact ⟨m, hm, s, hc, (includes_iff _ _).1 hx⟩
      | undefined => rw [hc] at hx; simp at hx
      | null => rw [hc] at hx; simp at hx
      | bool b => rw [hc] at hx; simp at hx
      | num n => rw [hc] at hx; simp at hx
      | arr a => rw [hc] at hx; simp at hx
      | obj o => rw [hc] at hx; simp at hx
  · rintro (h | ⟨m, hm, s, hc, hx⟩)
    · exact Or.inl h
    · right
      refine ⟨m, hm, ?_⟩
      rw [hc]
      exact (includes_iff _ _).2 hx

theorem exists_of_isString (v : JSValue) (h : v.isString = true) : ∃ s, v = JSValue.str s := by
  cases v <;> simp [JSValue.isString] at h
  exact ⟨_, rfl⟩

/-- C32: for chats whose message contents are strings, `searchChats(query)`
returns the chats of the manager whose lower-cased title, or the lower-cased
content of at least one message, contains the lower-cased query, in the order
of `getAllChats()`, by `updatedAt` descending. Queries with the same lower-cased
form give the same result, and the empty query returns every chat. -/
theorem searchChats_spec (toLowerCase : JSString → JSString) (cm : ChatManager)
    (query : JSString) :
    ((∀ c ∈ JSMap.values cm.chats, ∀ m ∈ c.messages,
        (m.get (js "content")).isString = true) →
      cm.searchChats toLowerCase query =
        some (cm.getAllChats.filter (specSearchMatch toLowerCase query)) ∧
      (∀ c, c ∈ cm.getAllChats.filter (specSearchMatch toLowerCase query) ↔
        c ∈ JSMap.values cm.chats ∧
        (toLowerCase query <:+: toLowerCase c.title ∨
          ∃ m ∈ c.messages, ∃ s, m.get (js "content") = JSValue.str s ∧
            toLowerCase query <:+: toLowerCase s)) ∧
      List.Sublist (cm.getAllChats.filter (specSearchMatch toLowerCase query)) cm.getAllChats ∧
      (cm.getAllChats.filter (specSearchMatch toLowerCase query)).Pairwise
        (fun a b => b.updatedAt ≤ a.updatedAt)) ∧
    cm.getAllChats.Perm (JSMap.values cm.chats) ∧
    (∀ query2, toLowerCase query2 = toLowerCase query →
      cm.searchChats toLowerCase query2 = cm.searchChats toLowerCase query) ∧
    (toLowerCase [] = [] → cm.searchChats toLowerCase [] = some cm.getAllChats) := by
  refine ⟨?_, perm_sortDesc _ _, ?_, ?_⟩
  · intro h
    refine ⟨?_, ?_, List.filter_sublist _, ?_⟩
    · unfold ChatManager.searchChats
      apply filterChats_eq
      intro c hc
      have hc2 : c ∈ JSMap.values cm.chats := (mem_sortDesc _ _ _).1 hc
      exact chatMatches_eq toLowerCase query c
        (fun m hm => exists_of_isString _ (h c hc2 m hm))
    · intro c
      rw [List.mem_filter, specSearchMatch_iff]
      unfold ChatManager.getAllChats
      rw [mem_sortDesc]
    · exact (pairwise_sortDesc Chat.updatedAt _).sublist (List.filter_sublist _)
  · intro query2 h2
    unfold ChatManager.searchChats
    simp only [h2]
  · intro h0
    unfold ChatManager.searchChats
    simp only [h0]
    have e : filterChats (chatMatches toLowerCase []) cm.getAllChats =
        some (cm.getAllChats.filter (fun _ => true)) := by
      apply filterChats_eq
      intro c _
      unfold chatMatches
      simp [includes_nil]
    rw [e]
    simp

/-- Witness for C32: of three chats, one matches the query `hELLo` by its title
and one by a message; they are returned most recently updated first. -/
theorem searchChats_spec_witness :
    (∀ c ∈ JSMap.values exampleChats.chats,
      ∀ m ∈ c.messages, (m.get (js "content")).isString = true) ∧
    (ChatManager.searchChats asciiLower exampleChats (js "hELLo")).map (List.map Chat.id) =
      some [js "b", js "a"] :=
  ⟨by decide,
   (congrArg (Option.map (List.map Chat.id))
    ((searchChats_spec asciiLower exampleChats (js "hELLo")).1 (by decide)).1).trans
      (by decide)⟩

/-! ## Properties of `Chat.export` -/

theorem textLoop_eq (toStr : JSValue → JSString) (msgs : List JSObject) (text : JSString) :
    textLoop toStr msgs text =
      text ++ ((msgs.filter (fun m => !isSystemMessage m)).map (specTextSection toStr)).flatten := by
  induction msgs generalizing text with
  | nil => simp [textLoop]
  | cons m rest ih =>
    unfold textLoop
    by_cases hs : isSystemMessage m = true
    · simp only [hs, if_true, List.filter_cons, Bool.not_true, Bool.false_eq_true, if_false]
      exact ih text
    · simp only [hs, Bool.false_eq_true, if_false, List.filter_cons, Bool.not_eq_true',
        Bool.not_false, if_true, List.map_cons, List.flatten_cons]
      rw [ih]
      simp [specTextSection, List.append_assoc]

theorem markdownLoop_eq (toStr : JSValue → JSString) (msgs : List JSObject) (md : JSString) :
    markdownLoop toStr msgs md =
      md ++ ((msgs.filter (fun m => !isSystemMessage m)).map (fun msg =>
        js "### " ++
          (if isUserMessage msg then [240, 376, 8216, 164] ++ js " User"
           else [240, 376, 164, 8211] ++ js " Assistant") ++
          js "\n\n" ++ toStr (msg.get (js "content")) ++ js "\n\n")).flatten := by
  induction msgs generalizing md with
  | nil => simp [markdownLoop]
  | cons m rest ih =>
    unfold markdownLoop
    by_cases hs : isSystemMessage m = true
    · simp only [hs, if_true, List.filter_cons, Bool.not_true, Bool.false_eq_true, if_false]
      exact ih md
    · simp only [hs, Bool.false_eq_true, if_false, List.filter_cons, Bool.not_eq_true',
        Bool.not_false, if_true, List.map_cons, List.flatten_cons]
      rw [ih]
      have e1 : js "\u00f0\u0178\u2018\u00a4 User" = [240, 376, 8216, 164] ++ js " User" := by
        decide
      have e2 : js "\u00f0\u0178\u00a4\u2013 Assistant" =
          [240, 376, 164, 8211] ++ js " Assistant" := by decide
      rw [e1, e2]
      simp only [List.append_assoc]

/-- C34: `export('text')` is the header, the title, the `Created:` and
`Updated:` lines with the formatted dates, a blank line, 50 `=` characters and
a blank line, followed for each non-system message in list order by the label
`User` or `Assistant`, a colon, the content, a blank line, 50 `-` characters
and a blank line. The number of sections is the number of non-system
messages. -/
theorem export_text_spec (date : Nat → JSString) (toStr : JSValue → JSString)
    (stringify : ChatData → Option Nat → JSString) (chat : Chat) :
    chat.exportTo date toStr stringify (js "text") = specExportText date toStr chat ∧
    ((chat.messages.filter (fun m => !isSystemMessage m)).map (specTextSection toStr)).length =
      (chat.messages.filter (fun m => !isSystemMessage m)).length ∧
    (∀ msg s, msg.get (js "content") = JSValue.str s → toStr (JSValue.str s) = s →
      specTextSection toStr msg =
        (if isUserMessage msg then js "User" else js "Assistant") ++ js ":\n" ++ s ++ js "\n\n" ++
          js "--------------------------------------------------" ++ js "\n\n") ∧
    Chat.exportTo exampleDate exampleToStr (fun _ _ => [])
        (exampleChat
          [[(js "role", JSValue.str (js "system")), (js "content", JSValue.str (js "Be brief"))],
           [(js "role", JSValue.str (js "user")), (js "content", JSValue.str (js "Hi"))],
           [(js "role", JSValue.str (js "assistant")), (js "content", JSValue.str (js "Yes"))]])
        (js "text") =
      js "New Chat\nCreated: 1\nUpdated: 1\n\n" ++
      js "==================================================\n\n" ++
      js "User:\nHi\n\n--------------------------------------------------\n\n" ++
      js "Assistant:\nYes\n\n--------------------------------------------------\n\n" := by
  refine ⟨?_, by simp, ?_, rfl⟩
  · unfold Chat.exportTo specExportText
    have h1 : js "text" ≠ js "json" := by decide
    have h2 : js "text" ≠ js "markdown" := by decide
    simp only [h1, h2, if_false, if_true]
    rw [textLoop_eq]
    have e1 : js "\nCreated: " = js "\n" ++ js "Created: " := by decide
    have e2 : js "\nUpdated: " = js "\n" ++ js "Updated: " := by decide
    rw [e1, e2]
    simp only [List.append_assoc]
  · intro msg s hc hs
    unfold specTextSection
    rw [hc, hs]
    have e : List.replicate 50 45 = js "--------------------------------------------------" := by
      decide
    rw [e]

/-- C33, the behaviour of the code. `export('markdown')` is the header
`# title`, the `Created:` and `Updated:` lines and a rule, followed by one
section per non-system message in list order. The label of a section is the
string literal of the source file, whose first four characters are U+00F0
U+0178 U+2018 U+00A4 for a user message and U+00F0 U+0178 U+00A4 U+2013
otherwise, not the emoji of the specification. The text agrees with the
format of the specification only for a chat without non-system messages. -/
theorem export_markdown_labels_garbled (date : Nat → JSString) (toStr : JSValue → JSString)
    (stringify : ChatData → Option Nat → JSString) (chat : Chat) :
    chat.exportTo date toStr stringify (js "markdown") =
      js "# " ++ chat.title ++ js "\n\nCreated: " ++ date chat.createdAt ++ js "\nUpdated: " ++
        date chat.updatedAt ++ js "\n\n---\n\n" ++
        ((chat.messages.filter (fun m => !isSystemMessage m)).map (fun msg =>
          js "### " ++
            (if isUserMessage msg then [240, 376, 8216, 164] ++ js " User"
             else [240, 376, 164, 8211] ++ js " Assistant") ++
            js "\n\n" ++ toStr (msg.get (js "content")) ++ js "\n\n")).flatten ∧
    ((∀ m ∈ chat.messages, isSystemMessage m = true) →
      chat.exportTo date toStr stringify (js "markdown") =
        specExportMarkdown date toStr chat) ∧
    ((∃ m ∈ chat.messages, isSystemMessage m = false) →
      chat.exportTo date toStr stringify (js "markdown") ≠
        specExportMarkdown date toStr chat) ∧
    Chat.exportTo exampleDate exampleToStr (fun _ _ => [])
        (exampleChat
          [[(js "role", JSValue.str (js "user")), (js "content", JSValue.str (js "Hi"))]])
        (js "markdown") =
      js "# New Chat\n\nCreated: 1\nUpdated: 1\n\n---\n\n" ++
        js "### \u00f0\u0178\u2018\u00a4 User\n\nHi\n\n" ∧
    specExportMarkdown exampleDate exampleToStr
        (exampleChat
          [[(js "role", JSValue.str (js "user")), (js "content", JSValue.str (js "Hi"))]]) =
      js "# New Chat\n\nCreated: 1\nUpdated: 1\n\n---\n\n" ++ js "### 👤 User\n\nHi\n\n" := by
  have hcode : chat.exportTo date toStr stringify (js "markdown") =
      js "# " ++ chat.title ++ js "\n\nCreated: " ++ date chat.createdAt ++ js "\nUpdated: " ++
        date chat.updatedAt ++ js "\n\n---\n\n" ++
        ((chat.messages.filter (fun m => !isSystemMessage m)).map (fun msg =>
          js "### " ++
            (if isUserMessage msg then [240, 376, 8216, 164] ++ js " User"
             else [240, 376, 164, 8211] ++ js " Assistant") ++
            js "\n\n" ++ toStr (msg.get (js "content")) ++ js "\n\n")).flatten := by
    unfold Chat.exportTo
    have h1 : js "markdown" ≠ js "json" := by decide
    simp only [h1, if_false, if_true]
    rw [markdownLoop_eq]
    have e1 : js "\n\nCreated: " = js "\n\n" ++ js "Created: " := by decide
    have e2 : js "\nUpdated: " = js "\n" ++ js "Updated: " := by decide
    have e3 : js "\n\n---\n\n" = js "\n\n" ++ js "---\n\n" := by decide
    rw [e1, e2, e3]
    simp only [List.append_assoc]
  refine ⟨hcode, ?_, ?_, rfl, rfl⟩
  · intro h
    have hf : chat.messages.filter (fun m => !isSystemMessage m) = [] := by
      rw [List.filter_eq_nil_iff]
      intro m hm
      simp [h m hm]
    rw [hcode]
    unfold specExportMarkdown
    rw [hf]
    rfl
  · rintro ⟨m, hm, hs⟩
    rw [hcode]
    unfold specExportMarkdown specMarkdownSection
    have hmem : m ∈ chat.messages.filter (fun m => !isSystemMessage m) :=
      List.mem_filter.2 ⟨hm, by simp [hs]⟩
    cases hf : chat.messages.filter (fun m => !isSystemMessage m) with
    | nil =>
      rw [hf] at hmem
      simp at hmem
    | cons m0 rest =>
      have s1 : js "👤 User" = 55357 :: (56420 :: js " User") := by decide
      have s2 : js "🤖 Assistant" = 55358 :: (56598 :: js " Assistant") := by decide
      simp only [List.map_cons, List.flatten_cons, List.append_assoc, s1, s2]
      by_cases hu : isUserMessage m0 = true
      · simp only [hu, if_true, List.cons_append, List.nil_append]
        intro e
        iterate 8 replace e := List.append_cancel_left e
        exact absurd (List.cons.inj e).1 (by decide)
      · simp only [hu, Bool.false_eq_true, if_false, List.cons_append, List.nil_append]
        intro e
        iterate 8 replace e := List.append_cancel_left e
        exact absurd (List.cons.inj e).1 (by decide)

/-- Witness for C34: the section of the user message `Hi`. -/
theorem export_text_spec_witness :
    exampleToStr (JSValue.str (js "Hi")) = js "Hi" ∧
    specTextSection exampleToStr
        [(js "role", JSValue.str (js "user")), (js "content", JSValue.str (js "Hi"))] =
      (if isUserMessage
          [(js "role", JSValue.str (js "user")), (js "content", JSValue.str (js "Hi"))] then
        js "User" else js "Assistant") ++ js ":\n" ++ js "Hi" ++ js "\n\n" ++
        js "--------------------------------------------------" ++ js "\n\n" :=
  ⟨rfl,
   (export_text_spec exampleDate exampleToStr (fun _ _ => []) (exampleChat [])).2.2.1
    [(js "role", JSValue.str (js "user")), (js "content", JSValue.str (js "Hi"))] (js "Hi")
    rfl rfl⟩

/-! ## Properties of `getStatistics` -/

theorem foldl_add_eq_sum {α : Type} (f : α → Nat) (l : List α) (a : Nat) :
    l.foldl (fun sum x => sum + f x) a = a + (l.map f).sum := by
  induction l generalizing a with
  | nil => simp
  | cons x rest ih =>
    simp only [List.foldl_cons, List.map_cons, List.sum_cons]
    rw [ih]
    omega

theorem sum_map_sortDesc {α : Type} (key : α → Nat) (f : α → Nat) (l : List α) :
    ((sortDesc key l).map f).sum = (l.map f).sum :=
  ((perm_sortDesc key l).map f).sum_eq

theorem mathMin_le_first (first : Nat) (rest : List Nat) : mathMin first rest ≤ first := by
  unfold mathMin
  induction rest generalizing first with
  | nil => exact Nat.le_refl _
  | cons x xs ih =>
    simp only [List.foldl_cons]
    exact Nat.le_trans (ih (min first x)) (Nat.min_le_left _ _)

theorem mathMin_le (first : Nat) (rest : List Nat) : ∀ x ∈ first :: rest, mathMin first rest ≤ x := by
  induction rest generalizing first with
  | nil =>
    intro x hx
    simp at hx
    subst hx
    exact Nat.le_refl _
  | cons y ys ih =>
    intro x hx
    have e : mathMin first (y :: ys) = mathMin (min first y) ys := rfl
    rw [e]
    rcases List.mem_cons.1 hx with h | h
    · subst h
      exact Nat.le_trans (mathMin_le_first _ _) (Nat.min_le_left _ _)
    · rcases List.mem_cons.1 h with h2 | h2
      · subst h2
        exact Nat.le_trans (mathMin_le_first _ _) (Nat.min_le_right _ _)
      · exact ih (min first y) x (List.mem_cons_of_mem _ h2)

theorem mathMin_mem (first : Nat) (rest : List Nat) : mathMin first rest ∈ first :: rest := by
  induction rest generalizing first with
  | nil => simp [mathMin]
  | cons y ys ih =>
    have e : mathMin first (y :: ys) = mathMin (min first y) ys := rfl
    rw [e]
    rcases List.mem_cons.1 (ih (min first y)) with h | h
    · rw [h]
      rcases Nat.le_total first y with h2 | h2
      · rw [Nat.min_eq_left h2]
        exact List.mem_cons_self _ _
      · rw [Nat.min_eq_right h2]
        exact List.mem_cons_of_mem _ (List.mem_cons_self _ _)
    · exact List.mem_cons_of_mem _ (List.mem_cons_of_mem _ h)

theorem first_le_mathMax (first : Nat) (rest : List Nat) : first ≤ mathMax first rest := by
  unfold mathMax
  induction rest generalizing first with
  | nil => exact Nat.le_refl _
  | cons x xs ih =>
    simp only [List.foldl_cons]
    exact Nat.le_trans (Nat.le_max_left _ _) (ih (max first x))

theorem le_mathMax (first : Nat) (rest : List Nat) : ∀ x ∈ first :: rest, x ≤ mathMax first rest := by
  induction rest generalizing first with
  | nil =>
    intro x hx
    simp at hx
    subst hx
    exact Nat.le_refl _
  | cons y ys ih =>
    intro x hx
    have e : mathMax first (y :: ys) = mathMax (max first y) ys := rfl
    rw [e]
    rcases List.mem_cons.1 hx with h | h
    · subst h
      exact Nat.le_trans (Nat.le_max_left _ _) (first_le_mathMax _ _)
    · rcases List.mem_cons.1 h with h2 | h2
      · subst h2
        exact Nat.le_trans (Nat.le_max_right _ _) (first_le_mathMax _ _)
      · exact ih (max first y) x (List.mem_cons_of_mem _ h2)

theorem mathMax_mem (first : Nat) (rest : List Nat) : mathMax first rest ∈ first :: rest := by
  induction rest generalizing first with
  | nil => simp [mathMax]
  | cons y ys ih =>
    have e : mathMax first (y :: ys) = mathMax (max first y) ys := rfl
    rw [e]
    rcases List.mem_cons.1 (ih (max first y)) with h | h
    · rw [h]
      rcases Nat.le_total first y with h2 | h2
      · rw [Nat.max_eq_right h2]
        exact List.mem_cons_of_mem _ (List.mem_cons_self _ _)
      · rw [Nat.max_eq_left h2]
        exact List.mem_cons_self _ _
    · exact List.mem_cons_of_mem _ (List.mem_cons_of_mem _ h)

theorem not_user_and_assistant (m : JSObject) :
    ¬ (isUserMessage m = true ∧ isAssistantMessage m = true) := by
  unfold isUserMessage isAssistantMessage
  rintro ⟨h1, h2⟩
  rw [isStr_iff] at h1 h2
  rw [h1] at h2
  injection h2 with h2
  exact absurd h2 (by decide)

theorem role_counts_le (msgs : List JSObject) :
    (msgs.filter isUserMessage).length + (msgs.filter isAssistantMessage).length ≤ msgs.length ∧
    ((msgs.filter isUserMessage).length + (msgs.filter isAssistantMessage).length = msgs.length ↔
      ∀ m ∈ msgs, isUserMessage m = true ∨ isAssistantMessage m = true) := by
  induction msgs with
  | nil => simp
  | cons m rest ih =>
    have hn := not_user_and_assistant m
    cases hu : isUserMessage m <;> cases ha : isAssistantMessage m
    · simp only [List.filter_cons, hu, ha, Bool.false_eq_true, if_false, List.length_cons,
        List.mem_cons, forall_eq_or_imp, or_self, false_and, iff_false]
      constructor
      · omega
      · omega
    · simp only [List.filter_cons, hu, ha, Bool.false_eq_true, if_false, if_true,
        List.length_cons, List.mem_cons, forall_eq_or_imp, or_true, true_and]
      constructor
      · omega
      · rw [← ih.2]
        omega
    · simp only [List.filter_cons, hu, ha, Bool.false_eq_true, if_false, if_true,
        List.length_cons, List.mem_cons, forall_eq_or_imp, true_or, true_and]
      constructor
      · omega
      · rw [← ih.2]
        omega
    · exact absurd ⟨hu, ha⟩ hn

theorem sum_le_and_eq_iff {α : Type} (f g : α → Nat) (l : List α) (h : ∀ x ∈ l, f x ≤ g x) :
    (l.map f).sum ≤ (l.map g).sum ∧
    ((l.map f).sum = (l.map g).sum ↔ ∀ x ∈ l, f x = g x) := by
  induction l with
  | nil => simp
  | cons x rest ih =>
    have hx := h x (List.mem_cons_self _ _)
    have ih2 := ih (fun y hy => h y (List.mem_cons_of_mem _ hy))
    simp only [List.map_cons, List.sum_cons, List.mem_cons, forall_eq_or_imp]
    constructor
    · omega
    · rw [← ih2.2]
      omega

theorem sum_map_add_nat {α : Type} (f g : α → Nat) (l : List α) :
    (l.map f).sum + (l.map g).sum = (l.map (fun x => f x + g x)).sum := by
  induction l with
  | nil => rfl
  | cons x rest ih =>
    simp only [List.map_cons, List.sum_cons]
    omega

theorem getStatistics_counts (cm : ChatManager) :
    cm.getStatistics.totalChats = (JSMap.values cm.chats).length ∧
    cm.getStatistics.totalMessages =
      ((JSMap.values cm.chats).map (fun c => c.messages.length)).sum ∧
    cm.getStatistics.userMessages =
      ((JSMap.values cm.chats).map (fun c => (c.messages.filter isUserMessage).length)).sum ∧
    cm.getStatistics.assistantMessages =
      ((JSMap.values cm.chats).map
        (fun c => (c.messages.filter isAssistantMessage).length)).sum := by
  unfold ChatManager.getStatistics ChatManager.getAllChats
  simp only
  refine ⟨(perm_sortDesc _ _).length_eq, ?_, ?_, ?_⟩
  · rw [foldl_add_eq_sum (fun c : Chat => c.messages.length), sum_map_sortDesc]
    omega
  · rw [foldl_add_eq_sum (fun c : Chat => (c.messages.filter isUserMessage).length),
      sum_map_sortDesc]
    omega
  · rw [foldl_add_eq_sum (fun c : Chat => (c.messages.filter isAssistantMessage).length),
      sum_map_sortDesc]
    omega

theorem getStatistics_oldest (cm : ChatManager) :
    (cm.getStatistics.oldestChat = none ↔ cm.chats = []) ∧
    (∀ lo, cm.getStatistics.oldestChat = some lo →
      (∃ c ∈ JSMap.values cm.chats, c.createdAt = lo) ∧
      ∀ c ∈ JSMap.values cm.chats, lo ≤ c.createdAt) := by
  unfold ChatManager.getStatistics ChatManager.getAllChats
  simp only
  cases hl : (sortDesc Chat.updatedAt (JSMap.values cm.chats)).map Chat.createdAt with
  | nil =>
    have h1 : sortDesc Chat.updatedAt (JSMap.values cm.chats) = [] := List.map_eq_nil_iff.1 hl
    have h2 : JSMap.values cm.chats = [] := sortDesc_eq_nil _ _ h1
    have h3 : cm.chats = [] := List.map_eq_nil_iff.1 h2
    simp [h3]
  | cons t ts =>
    have hne : cm.chats ≠ [] := by
      intro e
      rw [e] at hl
      simp [JSMap.values, sortDesc] at hl
    refine ⟨by simp [hne], ?_⟩
    intro lo hlo
    simp only [Option.some.injEq] at hlo
    subst hlo
    have hmem : ∀ x, x ∈ t :: ts ↔ ∃ c ∈ JSMap.values cm.chats, c.createdAt = x := by
      intro x
      rw [← hl, List.mem_map]
      constructor
      · rintro ⟨c, hc, e⟩
        exact ⟨c, (mem_sortDesc _ _ _).1 hc, e⟩
      · rintro ⟨c, hc, e⟩
        exact ⟨c, (mem_sortDesc _ _ _).2 hc, e⟩
    refine ⟨(hmem _).1 (mathMin_mem t ts), ?_⟩
    intro c hc
    exact mathMin_le t ts _ ((hmem _).2 ⟨c, hc, rfl⟩)

theorem getStatistics_newest (cm : ChatManager) :
    (cm.getStatistics.newestChat = none ↔ cm.chats = []) ∧
    (∀ hi, cm.getStatistics.newestChat = some hi →
      (∃ c ∈ JSMap.values cm.chats, c.createdAt = hi) ∧
      ∀ c ∈ JSMap.values cm.chats, c.createdAt ≤ hi) := by
  unfold ChatManager.getStatistics ChatManager.getAllChats
  simp only
  cases hl : (sortDesc Chat.updatedAt (JSMap.values cm.chats)).map Chat.createdAt with
  | nil =>
    have h1 : sortDesc Chat.updatedAt (JSMap.values cm.chats) = [] := List.map_eq_nil_iff.1 hl
    have h2 : JSMap.values cm.chats = [] := sortDesc_eq_nil _ _ h1
    have h3 : cm.chats = [] := List.map_eq_nil_iff.1 h2
    simp [h3]
  | cons t ts =>
    have hne : cm.chats ≠ [] := by
      intro e
      rw [e] at hl
      simp [JSMap.values, sortDesc] at hl
    refine ⟨by simp [hne], ?_⟩
    intro hi hhi
    simp only [Option.some.injEq] at hhi
    subst hhi
    have hmem : ∀ x, x ∈ t :: ts ↔ ∃ c ∈ JSMap.values cm.chats, c.createdAt = x := by
      intro x
      rw [← hl, List.mem_map]
      constructor
      · rintro ⟨c, hc, e⟩
        exact ⟨c, (mem_sortDesc _ _ _).1 hc, e⟩
      · rintro ⟨c, hc, e⟩
        exact ⟨c, (mem_sortDesc _ _ _).2 hc, e⟩
    refine ⟨(hmem _).1 (mathMax_mem t ts), ?_⟩
    intro c hc
    exact le_mathMax t ts _ ((hmem _).2 ⟨c, hc, rfl⟩)

/-- C35: `getStatistics()` returns the number of chats, the sum of their
message counts, the numbers of messages with role `user` and with role
`assistant` over all chats, whose sum is at most the total and equals it
exactly when every message has one of the two roles, and as `oldestChat` and
`newestChat` the least and the greatest `createdAt` of the chats, with
`oldestChat` at most `newestChat`; both are `null` exactly when there is no
chat. -/
theorem getStatistics_spec (cm : ChatManager) :
    cm.getStatistics.totalChats = (JSMap.values cm.chats).length ∧
    cm.getStatistics.totalMessages =
      ((JSMap.values cm.chats).map (fun c => c.messages.length)).sum ∧
    cm.getStatistics.userMessages =
      ((JSMap.values cm.chats).map (fun c => (c.messages.filter isUserMessage).length)).sum ∧
    cm.getStatistics.assistantMessages =
      ((JSMap.values cm.chats).map
        (fun c => (c.messages.filter isAssistantMessage).length)).sum ∧
    cm.getStatistics.userMessages + cm.getStatistics.assistantMessages ≤
      cm.getStatistics.totalMessages ∧
    (cm.getStatistics.userMessages + cm.getStatistics.assistantMessages =
        cm.getStatistics.totalMessages ↔
      ∀ c ∈ JSMap.values cm.chats, ∀ m ∈ c.messages,
        isUserMessage m = true ∨ isAssistantMessage m = true) ∧
    (cm.getStatistics.oldestChat = none ↔ cm.chats = []) ∧
    (cm.getStatistics.newestChat = none ↔ cm.chats = []) ∧
    (∀ lo, cm.getStatistics.oldestChat = some lo →
      (∃ c ∈ JSMap.values cm.chats, c.createdAt = lo) ∧
      ∀ c ∈ JSMap.values cm.chats, lo ≤ c.createdAt) ∧
    (∀ hi, cm.getStatistics.newestChat = some hi →
      (∃ c ∈ JSMap.values cm.chats, c.createdAt = hi) ∧
      ∀ c ∈ JSMap.values cm.chats, c.createdAt ≤ hi) ∧
    (∀ lo hi, cm.getStatistics.oldestChat = some lo → cm.getStatistics.newestChat = some hi →
      lo ≤ hi) ∧
    (exampleChats.getStatistics.totalChats = 3 ∧ exampleChats.getStatistics.totalMessages = 3 ∧
      exampleChats.getStatistics.userMessages = 1 ∧
      exampleChats.getStatistics.assistantMessages = 1 ∧
      exampleChats.getStatistics.oldestChat = some 3 ∧
      exampleChats.getStatistics.newestChat = some 7) := by
  have hc := getStatistics_counts cm
  have ho := getStatistics_oldest cm
  have hn := getStatistics_newest cm
  have hs := sum_le_and_eq_iff
    (fun c : Chat => (c.messages.filter isUserMessage).length +
      (c.messages.filter isAssistantMessage).length)
    (fun c : Chat => c.messages.length) (JSMap.values cm.chats)
    (fun c _ => (role_counts_le c.messages).1)
  refine ⟨hc.1, hc.2.1, hc.2.2.1, hc.2.2.2, ?_, ?_, ho.1, hn.1, ho.2, hn.2, ?_,
    by decide⟩
  · rw [hc.2.1, hc.2.2.1, hc.2.2.2, sum_map_add_nat]
    exact hs.1
  · rw [hc.2.1, hc.2.2.1, hc.2.2.2, sum_map_add_nat, hs.2]
    constructor
    · intro h c hcm
      exact (role_counts_le c.messages).2.1 (h c hcm)
    · intro h c hcm
      exact (role_counts_le c.messages).2.2 (h c hcm)
  · intro lo hi hlo hhi
    obtain ⟨c, hcm, _⟩ := (ho.2 lo hlo).1
    exact Nat.le_trans ((ho.2 lo hlo).2 c hcm) ((hn.2 hi hhi).2 c hcm)

/-- Witness for C35: the oldest of the three example chats was created at 3. -/
theorem getStatistics_spec_witness :
    exampleChats.getStatistics.oldestChat = some 3 ∧
    (∀ c ∈ JSMap.values exampleChats.chats, 3 ≤ c.createdAt) :=
  ⟨by decide, ((getStatistics_spec exampleChats).2.2.2.2.2.2.2.2.1 3 (by decide)).2⟩

/-! ## The carry-over at the end of the stream -/

theorem completeLines_no_lf (l : JSString) (h : 10 ∉ l) : completeLines l = [] := by
  unfold completeLines
  rw [splitNewline_no_lf l h]
  rfl

/-- C36: `streamResponse` yields what the newline-terminated lines of the
text yield: the text after the last newline is never processed. A fragment
without a newline appended to a stream changes nothing, and a stream without
any newline yields nothing, for every format. -/
theorem streamResponse_drops_carry_over (parse : JSString → Option JSValue) (p : Provider) :
    (∀ chunks : List JSString, p.streamResponse parse chunks =
      (completeLines chunks.flatten).flatMap (processLine parse p.requestFormat)) ∧
    (∀ (chunks : List JSString) (fragment : JSString), 10 ∉ fragment →
      p.streamResponse parse (chunks ++ [fragment]) = p.streamResponse parse chunks) ∧
    (∀ chunks : List JSString, 10 ∉ chunks.flatten → p.streamResponse parse chunks = []) := by
  refine ⟨fun chunks => streamResponse_eq parse p chunks, ?_, ?_⟩
  · intro chunks fragment hf
    rw [streamResponse_eq, streamResponse_eq]
    have e : (chunks ++ [fragment]).flatten = chunks.flatten ++ fragment := by simp
    rw [e, completeLines_append]
    have hc : 10 ∉ carryOver chunks.flatten ++ fragment := by
      intro hm
      rcases List.mem_append.1 hm with h | h
      · exact carryOver_no_lf _ h
      · exact hf h
    rw [completeLines_no_lf _ hc, List.append_nil]
  · intro chunks hn
    rw [streamResponse_eq, completeLines_no_lf _ hn]
    rfl

/-- Witness for C36: an `openai` frame that is not followed by a newline yields
nothing, also when it arrives after a complete frame. -/
theorem streamResponse_drops_carry_over_witness :
    10 ∉ js "data: \x7b\"choices\":[\x7b\"delta\":\x7b\"content\":\"lo\"\x7d\x7d]\x7d" ∧
    (exampleProvider (js "openai")).streamResponse jsonParse
        [js "data: \x7b\"choices\":[\x7b\"delta\":\x7b\"content\":\"Hel\"\x7d\x7d]\x7d" ++ [10]] =
      [JSValue.str (js "Hel")] ∧
    (exampleProvider (js "openai")).streamResponse jsonParse
        ([js "data: \x7b\"choices\":[\x7b\"delta\":\x7b\"content\":\"Hel\"\x7d\x7d]\x7d" ++ [10]] ++
          [js "data: \x7b\"choices\":[\x7b\"delta\":\x7b\"content\":\"lo\"\x7d\x7d]\x7d"]) =
      (exampleProvider (js "openai")).streamResponse jsonParse
        [js "data: \x7b\"choices\":[\x7b\"delta\":\x7b\"content\":\"Hel\"\x7d\x7d]\x7d" ++ [10]] :=
  ⟨by decide, by rfl,
   (streamResponse_drops_carry_over jsonParse (exampleProvider (js "openai"))).2.1
    [js "data: \x7b\"choices\":[\x7b\"delta\":\x7b\"content\":\"Hel\"\x7d\x7d]\x7d" ++ [10]]
    (js "data: \x7b\"choices\":[\x7b\"delta\":\x7b\"content\":\"lo\"\x7d\x7d]\x7d") (by decide)⟩

/-! ## Key and id of the stored entities -/

theorem chat_step_keyed (st : ChatManager × Database) (op : ChatOp) (hk : op.keepsId = true)
    (hwf : st.1.KeyedById) : (ChatManager.step st op).1.KeyedById := by
  cases op with
  | createChat data now rand => exact (createChat_inv st.1 st.2 data now rand hwf).1
  | setCurrentChat id =>
    show (st.1.setCurrentChat st.2 id).state.1.KeyedById
    unfold ChatManager.setCurrentChat
    by_cases h : JSMap.has st.1.chats id = true
    · simp only [h, Bool.not_true, Bool.false_eq_true, if_false]
      exact hwf
    · have h2 : JSMap.has st.1.chats id = false := by simpa using h
      simp only [h2, Bool.not_false, if_true]
      exact hwf
  | updateChat id updates now =>
    have hid : updates.id = none := by
      simpa [ChatOp.keepsId] using hk
    show (st.1.updateChat st.2 id updates now).state.1.KeyedById
    cases hg : JSMap.get? st.1.chats id with
    | none =>
      have e : st.1.updateChat st.2 id updates now =
          ⟨(st.1, st.2), some (js "Chat not found")⟩ := by
        unfold ChatManager.updateChat
        simp only [hg]
      rw [e]
      exact hwf
    | some chat =>
      rw [(updateChat_manager st.1 st.2 id updates now chat hg).2]
      have hcid : chat.id = id := KeyedById.id_of_get? st.1 hwf id chat hg
      exact KeyedById.set st.1.chats st.1.currentChatId _ _ _ hwf
        (by simp [Chat.assign, hid, hcid])
  | deleteChat id now rand =>
    show (st.1.deleteChat st.2 id now rand).state.1.KeyedById
    by_cases hid : JSMap.has st.1.chats id = true
    · obtain ⟨_, h2, h3, h4⟩ := deleteChat_manager st.1 st.2 id now rand hwf hid
      by_cases hcur : st.1.currentChatId = some id
      · cases hs : sortDesc Chat.updatedAt (JSMap.values (JSMap.delete st.1.chats id)) with
        | nil =>
          have hempty : JSMap.delete st.1.chats id = [] := by
            have := sortDesc_eq_nil _ _ hs
            simpa [JSMap.values] using this
          rw [h4 hcur hempty]
          refine ⟨by simp [JSMap.keys], ?_⟩
          intro e he
          simp only [List.mem_singleton] at he
          subst he
          rfl
        | cons first rest =>
          rw [h3 hcur first rest hs]
          exact KeyedById.delete st.1.chats st.1.currentChatId _ id hwf
      · rw [h2 hcur]
        exact KeyedById.delete st.1.chats st.1.currentChatId _ id hwf
    · have h2 : JSMap.has st.1.chats id = false := by simpa using hid
      have e : st.1.deleteChat st.2 id now rand = ⟨(st.1, st.2), some (js "Chat not found")⟩ := by
        unfold ChatManager.deleteChat
        simp only [h2, Bool.not_false, if_true]
      rw [e]
      exact hwf

theorem provider_step_keyed (st : ProviderManager × Database) (op : ProviderOp)
    (hk : op.keepsId = true) (hwf : st.1.KeyedById) :
    (ProviderManager.step st op).1.KeyedById := by
  cases op with
  | setActiveProvider id =>
    show (st.1.setActiveProvider st.2 id).state.1.KeyedById
    unfold ProviderManager.setActiveProvider
    by_cases h : JSMap.has st.1.providers id = true
    · simp only [h, Bool.not_true, Bool.false_eq_true, if_false]
      exact hwf
    · have h2 : JSMap.has st.1.providers id = false := by simpa using h
      simp only [h2, Bool.not_false, if_true]
      exact hwf
  | addProvider data now rand =>
    show (st.1.addProvider st.2 data now rand).state.1.KeyedById
    unfold ProviderManager.addProvider
    by_cases h : (Provider.new data now rand).validate.length > 0
    · simp only [h, if_true]
      exact hwf
    · simp only [h, if_false]
      exact providers_keyed_set st.1.providers st.1.activeProviderId _ _ _ hwf rfl
  | updateProvider id updates now =>
    have hid : updates.id = none := by
      simpa [ProviderOp.keepsId] using hk
    show (st.1.updateProvider st.2 id updates now).state.1.KeyedById
    unfold ProviderManager.updateProvider
    cases hg : JSMap.get? st.1.providers id with
    | none => exact hwf
    | some provider =>
      have hp : provider.id = id := providers_id_of_get? st.1 hwf id provider hg
      exact providers_keyed_set st.1.providers st.1.activeProviderId _ _ _ hwf
        (by simp [Provider.assign, hid, hp])
  | deleteProvider id =>
    show (st.1.deleteProvider st.2 id).state.1.KeyedById
    by_cases hid : JSMap.has st.1.providers id = true
    · rw [deleteProvider_manager st.1 st.2 id hwf hid]
      by_cases ha : st.1.activeProviderId = some id
      · rw [if_pos ha]
        exact providers_keyed_delete st.1.providers st.1.activeProviderId _ id hwf
      · rw [if_neg ha]
        exact providers_keyed_delete st.1.providers st.1.activeProviderId _ id hwf
    · have e : st.1.deleteProvider st.2 id = ⟨(st.1, st.2), some (js "Provider not found")⟩ := by
        simp [ProviderManager.deleteProvider, hid]
      rw [e]
      exact hwf

theorem deleteProject_projects (pjm : ProjectManager) (db : Database) (id : JSString)
    (deleteChats : Bool) (chatManager : Option ChatManager) (now : Nat → Nat)
    (rand : Nat → JSString) :
    (pjm.deleteProject db id deleteChats chatManager now rand).state.projectManager.projects =
        pjm.projects ∨
    (pjm.deleteProject db id deleteChats chatManager now rand).state.projectManager.projects =
        JSMap.delete pjm.projects id := by
  unfold ProjectManager.deleteProject
  by_cases hid : JSMap.has pjm.projects id = true
  · simp only [hid, Bool.not_true, Bool.false_eq_true, if_false]
    split
    · exact Or.inl rfl
    · split
      · exact Or.inr rfl
      · exact Or.inr rfl
  · have h2 : JSMap.has pjm.projects id = false := by simpa using hid
    simp only [h2, Bool.not_false, if_true]
    exact Or.inl trivial

theorem project_step_keyed (st : ProjectManager × Database) (op : ProjectOp)
    (hk : op.keepsId = true) (hwf : st.1.KeyedById) :
    (ProjectManager.step st op).1.KeyedById := by
  cases op with
  | createProject data now rand =>
    show ProjectManager.KeyedById ⟨JSMap.set st.1.projects _ _, _⟩
    refine ⟨JSMap.map_nodup_keys_set _ _ _ hwf.1, ?_⟩
    intro e he
    rcases JSMap.mem_set _ _ _ _ he with he | he
    · subst he
      rfl
    · exact hwf.2 e he
  | updateProject id updates now =>
    have hid : updates.id = none := by
      simpa [ProjectOp.keepsId] using hk
    show (st.1.updateProject st.2 id updates now).state.1.KeyedById
    unfold ProjectManager.updateProject
    cases hg : JSMap.get? st.1.projects id with
    | none => exact hwf
    | some project =>
      have hp : project.id = id := hwf.2 _ ((JSMap.get?_eq_some_iff _ _ _ hwf.1).1 hg)
      refine ⟨JSMap.map_nodup_keys_set _ _ _ hwf.1, ?_⟩
      intro e he
      rcases JSMap.mem_set _ _ _ _ he with he | he
      · subst he
        simp [Project.update, hid, hp]
      · exact hwf.2 e he
  | deleteProject id deleteChats chatManager now rand =>
    show ProjectManager.KeyedById
      (st.1.deleteProject st.2 id deleteChats chatManager now rand).state.projectManager
    unfold ProjectManager.KeyedById
    rcases deleteProject_projects st.1 st.2 id deleteChats chatManager now rand with e | e
    · rw [e]
      exact hwf
    · rw [e]
      refine ⟨JSMap.nodup_keys_delete _ _ hwf.1, ?_⟩
      intro x hx
      exact hwf.2 x ((JSMap.mem_delete _ _ _).1 hx).1

theorem chat_run_keyed (ops : List ChatOp) (st : ChatManager × Database)
    (hk : ∀ op ∈ ops, op.keepsId = true) (hwf : st.1.KeyedById) :
    (ChatManager.run st ops).1.KeyedById := by
  induction ops generalizing st with
  | nil => exact hwf
  | cons op rest ih =>
    exact ih (ChatManager.step st op) (fun o ho => hk o (List.mem_cons_of_mem _ ho))
      (chat_step_keyed st op (hk op (List.mem_cons_self _ _)) hwf)

theorem provider_run_keyed (ops : List ProviderOp) (st : ProviderManager × Database)
    (hk : ∀ op ∈ ops, op.keepsId = true) (hwf : st.1.KeyedById) :
    (ProviderManager.run st ops).1.KeyedById := by
  induction ops generalizing st with
  | nil => exact hwf
  | cons op rest ih =>
    exact ih (ProviderManager.step st op) (fun o ho => hk o (List.mem_cons_of_mem _ ho))
      (provider_step_keyed st op (hk op (List.mem_cons_self _ _)) hwf)

theorem project_run_keyed (ops : List ProjectOp) (st : ProjectManager × Database)
    (hk : ∀ op ∈ ops, op.keepsId = true) (hwf : st.1.KeyedById) :
    (ProjectManager.run st ops).1.KeyedById := by
  induction ops generalizing st with
  | nil => exact hwf
  | cons op rest ih =>
    exact ih (ProjectManager.step st op) (fun o ho => hk o (List.mem_cons_of_mem _ ho))
      (project_step_keyed st op (hk op (List.mem_cons_self _ _)) hwf)

/-- C37, the behaviour of the code. In each manager every entity stays stored
under its own id, each key once, after every sequence of create or add, update
and delete calls, returning or throwing, in which no update patch has an `id`
property. A patch with an `id` property breaks this in each manager: the
update overwrites the `id` field of the entity, which stays in the map under
its old key, and the record is written to the database under the new id, next
to the record of the old id. -/
theorem key_id_consistency_broken_by_id_patch :
    (∀ (st : ChatManager × Database) (ops : List ChatOp), st.1.KeyedById →
      (∀ op ∈ ops, op.keepsId = true) → (ChatManager.run st ops).1.KeyedById) ∧
    (∀ (st : ProviderManager × Database) (ops : List ProviderOp), st.1.KeyedById →
      (∀ op ∈ ops, op.keepsId = true) → (ProviderManager.run st ops).1.KeyedById) ∧
    (∀ (st : ProjectManager × Database) (ops : List ProjectOp), st.1.KeyedById →
      (∀ op ∈ ops, op.keepsId = true) → (ProjectManager.run st ops).1.KeyedById) ∧
    ((ChatManager.run (⟨[], none⟩, ⟨[], [], [], []⟩)
        [ChatOp.createChat { id := some (js "a") } 1000 (js "k3x9"),
         ChatOp.updateChat (js "a") { id := some (js "zzz") } 2000]).1.chats.map
        (fun e => (e.1, e.2.id)) = [(js "a", js "zzz")] ∧
      (ChatManager.run (⟨[], none⟩, ⟨[], [], [], []⟩)
        [ChatOp.createChat { id := some (js "a") } 1000 (js "k3x9"),
         ChatOp.updateChat (js "a") { id := some (js "zzz") } 2000]).2.chats.map
        (fun e => (e.1, e.2.id)) = [(js "a", js "a"), (js "zzz", js "zzz")] ∧
      ¬ (ChatManager.run (⟨[], none⟩, ⟨[], [], [], []⟩)
        [ChatOp.createChat { id := some (js "a") } 1000 (js "k3x9"),
         ChatOp.updateChat (js "a") { id := some (js "zzz") } 2000]).1.KeyedById) ∧
    ((ProviderManager.run (⟨[], none⟩, ⟨[], [], [], []⟩)
        [ProviderOp.addProvider { defaultOpenAI with apiKey := some (js "sk-1") } 1000 (js "k3x9"),
         ProviderOp.updateProvider (js "openai") { id := some (js "zzz") } 2000]).1.providers.map
        (fun e => (e.1, e.2.id)) = [(js "openai", js "zzz")] ∧
      ¬ (ProviderManager.run (⟨[], none⟩, ⟨[], [], [], []⟩)
        [ProviderOp.addProvider { defaultOpenAI with apiKey := some (js "sk-1") } 1000 (js "k3x9"),
         ProviderOp.updateProvider (js "openai") { id := some (js "zzz") } 2000]).1.KeyedById) ∧
    ((ProjectManager.run (⟨[], none⟩, ⟨[], [], [], []⟩)
        [ProjectOp.createProject { id := some (js "p1") } 1000 (js "k3x9"),
         ProjectOp.updateProject (js "p1") { id := some (js "zzz") } 2000]).1.projects.map
        (fun e => (e.1, e.2.id)) = [(js "p1", js "zzz")] ∧
      ¬ (ProjectManager.run (⟨[], none⟩, ⟨[], [], [], []⟩)
        [ProjectOp.createProject { id := some (js "p1") } 1000 (js "k3x9"),
         ProjectOp.updateProject (js "p1") { id := some (js "zzz") } 2000]).1.KeyedById) := by
  refine ⟨fun st ops hwf hk => chat_run_keyed ops st hk hwf,
    fun st ops hwf hk => provider_run_keyed ops st hk hwf,
    fun st ops hwf hk => project_run_keyed ops st hk hwf,
    ⟨by decide, by decide, by decide⟩, ⟨by decide, by decide⟩, ⟨by decide, by decide⟩⟩

end Githat
